import Mathlib

/-!
# MLS filter plugin (`src/meshlabplugins/filter_mls/mlsplugin.cpp`)

A shallow embedding of the parts of `MlsPlugin::applyFilter` and of
`EdgeAnglePredicate` that the specification talks about.

Conventions of the embedding:

* coordinates of points and normals are exact rationals (rounding of the
  floating-point type `Scalarm` is not modelled);
* the scalars stored as curvature or quality are `Scalarm` values, which add
  the IEEE special values (infinities and NaN) to the rationals, because the
  source tests for NaN explicitly;
* `unsigned int` products are taken modulo `2 ^ 32`; the one `int` sum of the
  source, the loop bound `nbRefinements+1`, is taken in the integers: signed
  overflow is undefined behaviour in C++, so no wrap-around is assumed for it;
* calls into code that is not part of the translated file (vcg, the MLS
  surface classes, the Weingarten map, the marching-cubes walker, the host) are
  fields of the records `Vcg`, `MlsSurface`, `Gael`, `ColorizeLib` and `Host`;
  their results are arbitrary;
* a vertex loop `for (unsigned int i = 0; i < vert.size(); i++)` is a counted
  loop over the indices of the vertex list (the vertex count of a `CMeshO` is
  kept in an `int`, so it is below `2 ^ 32` and `i` does not wrap);
* `assert` stops the run when its condition fails (a build without `NDEBUG`);
* every observable action of `applyFilter` (progress callback, log line,
  library call) is appended to a trace of `Event`s.
-/

namespace MlsPlugin

/-! ## Scalars, points, vertices, faces -/

/-- Values of the floating-point type `Scalarm`: a finite value or one of the
IEEE special values. -/
inductive Scalarm where
  | fin (q : ℚ)
  | pinf
  | ninf
  | nan
  deriving DecidableEq

namespace Scalarm

/-- Modelled from the spec: the test `math::IsNAN(c)` of vcg, whose header
(`vcg/math/base.h`) is not among the translated sources. The specification
makes every non-finite curvature value a fault of the check that uses this
test, so the test holds of NaN and of both infinities, and of no finite
value. -/
def IsNAN (c : Scalarm) : Bool :=
  match c with
  | fin _ => false
  | pinf => true
  | ninf => true
  | nan => true

/-- A value is finite when it is neither an infinity nor NaN. -/
def isFinite (c : Scalarm) : Bool :=
  match c with
  | fin _ => true
  | _ => false

end Scalarm

/-- A point or vector `Point3m`. -/
structure Point3m where
  X : ℚ
  Y : ℚ
  Z : ℚ
  deriving DecidableEq

/-- The scalar product, written `a * b` in vcg. -/
def Point3m.dot (a b : Point3m) : ℚ :=
  a.X * b.X + a.Y * b.Y + a.Z * b.Z

/-- A vertex of `CMeshO` with the attributes the filter reads or writes: position,
normal, selection and deletion flags, radius, quality, principal curvatures and
principal directions. -/
structure VertexType where
  P : Point3m
  N : Point3m
  IsS : Bool
  IsD : Bool
  R : ℚ
  Q : Scalarm
  K1 : Scalarm
  K2 : Scalarm
  PD1 : Point3m
  PD2 : Point3m
  deriving DecidableEq

/-- A face of `CMeshO`: three vertex indices, its normal, its selection flag and
its deletion flag. -/
structure FaceType where
  V0 : Nat
  V1 : Nat
  V2 : Nat
  cN : Point3m
  IsS : Bool
  IsD : Bool
  deriving DecidableEq

/-- The mesh container `CMeshO`. -/
structure CMeshO where
  vert : List VertexType
  face : List FaceType
  deriving DecidableEq

/-! ## `EdgeAnglePredicate` (lines 325-344) -/

/-- The position `vcg::face::Pos` handed to the predicate, reduced to the two
faces it gives access to: `F()` and the face `FFlip()` on the other side of the
edge. -/
structure Pos where
  F : FaceType
  FFlip : FaceType

/-- The functor `EdgeAnglePredicate` with its only member `thCosAngle`. -/
structure EdgeAnglePredicate where
  thCosAngle : ℚ

/-- The call operator:
`return (ep.F()->cN() * ep.FFlip()->cN()) < thCosAngle;`. -/
def EdgeAnglePredicate.call (self : EdgeAnglePredicate) (ep : Pos) : Bool :=
  decide (ep.F.cN.dot ep.FFlip.cN < self.thCosAngle)

/-! ## Mesh models, the trace and the library interfaces -/

/-- The bits of `MeshModel::MeshElement` that the filter touches. -/
inductive Mask where
  | MM_VERTRADIUS
  | MM_FACEFACETOPO
  | MM_VERTCOLOR
  | MM_VERTQUALITY
  | MM_VERTCURVDIR
  deriving DecidableEq

/-- A `MeshModel`: its id in the document, its mesh and its data mask. -/
structure MeshModel where
  id : Int
  cm : CMeshO
  dataMask : List Mask
  deriving DecidableEq

namespace MeshModel

/-- `hasDataMask`. -/
def hasDataMask (m : MeshModel) (b : Mask) : Bool :=
  decide (b ∈ m.dataMask)

/-- `updateDataMask(b)`: the attribute is enabled; no attribute value changes. -/
def updateDataMask (m : MeshModel) (b : Mask) : MeshModel :=
  if b ∈ m.dataMask then m else { m with dataMask := b :: m.dataMask }

/-- `clearDataMask(b)`. -/
def clearDataMask (m : MeshModel) (b : Mask) : MeshModel :=
  { m with dataMask := m.dataMask.filter (fun x => decide (x ≠ b)) }

end MeshModel

/-- The messages handed to the progress callback and to the log. -/
inductive Msg where
  | createMls
  | mlsProjection
  | mlsColorization
  | curvatureToColor
  | removedUnreferenced (delvert : Int)
  | noVertexRadius
  | projected (vn : Nat)
  | marchingCubesDone
  deriving DecidableEq

/-- The observable actions of `applyFilter`, in the order they happen. The index
carried by the per-vertex events is the loop index `i`. -/
inductive Event where
  | cb (pos : Nat) (msg : Msg)
  | log (msg : Msg)
  | updateDataMask (b : Mask)
  | computeVertexRaddi (nbNeighbors : Int)
  | PerFace
  | NormalizePerFace
  | RefineOddEvenE
  | project (i : Nat)
  | approxMeanCurvature (i : Nat)
  | gradient (i : Nat)
  | hessian (i : Nat)
  | WeingartenMap (i : Nat)
  | writeQ (i : Nat) (c : Scalarm)
  | addNewMesh (id : Int)
  | BuildMesh (resolution : Int)
  | Select
  | DeleteFaceVert
  | delMesh (id : Int)
  deriving DecidableEq

/-- The progress callback `vcg::CallBackPos`: it returns false to ask for the
work to stop. -/
abbrev CallBackPos := Nat → Msg → Bool

/-- A 3x3 matrix `Matrix33m`. -/
abbrev Matrix33m := Fin 3 → Fin 3 → ℚ

/-- The interface `MlsSurface<CMeshO>` (rimls.h and apss.h are not part of the
translated file). `project` is the returned position, `projectNormal` what the
call leaves in the normal passed by pointer, `gradient` returns the vector and
the error mask, `MLS_OK` is the mask value of a successful evaluation. -/
structure MlsSurface where
  project : Point3m → Point3m
  projectNormal : Point3m → Point3m → Point3m
  gradient : Point3m → Point3m × Int
  hessian : Point3m → Matrix33m
  MLS_OK : Int

/-- The vcg routines the projection workflow calls. -/
structure Vcg where
  PerFace : CMeshO → CMeshO
  NormalizePerFace : CMeshO → CMeshO
  RefineOddEvenE : CMeshO → EdgeAnglePredicate → Bool → CallBackPos → CMeshO
  VertexFromFaceStrict : CMeshO → CMeshO
  cosOfDegrees : ℚ → ℚ

/-! ## Machine integers -/

/-- The percentage `1+98*i/size` of the per-vertex loops: `i` is an
`unsigned int`, so the product is taken modulo `2 ^ 32`; the division by the
`size_t` truncates. -/
def percent (i size : Nat) : Nat :=
  1 + (98 * i) % 2 ^ 32 / size

/-! ## The projection workflow (lines 467-502) -/

/-- Applies `f` to the element of index `i`, as an assignment to `vert[i]`
does. -/
def modifyVert (f : VertexType → VertexType) : Nat → List VertexType → List VertexType
  | _, [] => []
  | 0, v :: vs => f v :: vs
  | i + 1, v :: vs => v :: modifyVert f i vs

/-- A counted loop `for (i = 0; i < n; i++) body`. -/
def forLoop {σ : Type} (n : Nat) (body : Nat → σ → σ) (s : σ) : σ :=
  (List.range n).foldl (fun acc i => body i acc) s

/-- The assignment
`vert[i].P() = mls->project(vert[i].P(), &vert[i].N())`. -/
def projectVertex (mls : MlsSurface) (v : VertexType) : VertexType :=
  { v with P := mls.project v.P, N := mls.projectNormal v.P v.N }

/-- The body of the loop of lines 492-498 for the index `i` (the loop keeps
`i` below `vert.size()`, so `vert[i]` exists). -/
def projectionStep (mls : MlsSurface) (selectionOnly : Bool) (i : Nat)
    (s : CMeshO × List Event) : CMeshO × List Event :=
  let cm := s.1
  let tr := s.2 ++ [Event.cb (percent i cm.vert.length) Msg.mlsProjection]
  match cm.vert[i]? with
  | some v =>
    if (!selectionOnly) || v.IsS then
      ({ cm with vert := modifyVert (projectVertex mls) i cm.vert }, tr ++ [Event.project i])
    else
      (cm, tr)
  | none => (cm, tr)

/-- The projection sweep of lines 492-498 over all vertices of the mesh; the
second component is the trace of the sweep. -/
def projectionSweep (mls : MlsSurface) (selectionOnly : Bool) (cm : CMeshO) :
    CMeshO × List Event :=
  forLoop cm.vert.length (projectionStep mls selectionOnly) (cm, [])

/-- The events of the subdivision step of lines 483-489. -/
def subdivisionEvents : List Event :=
  [Event.updateDataMask Mask.MM_FACEFACETOPO, Event.PerFace, Event.NormalizePerFace,
    Event.RefineOddEvenE]

/-- One pass `k` of the loop of lines 478-499: the subdivision step when
`k != 0`, then the projection sweep. -/
def projectionPass (vcg : Vcg) (mls : MlsSurface) (edgePred : EdgeAnglePredicate)
    (selectionOnly : Bool) (cb : CallBackPos) (k : Nat) (mesh : MeshModel) :
    MeshModel × List Event :=
  let r : MeshModel × List Event :=
    if k ≠ 0 then
      let m1 := mesh.updateDataMask Mask.MM_FACEFACETOPO
      let c1 := vcg.PerFace m1.cm
      let c2 := vcg.NormalizePerFace c1
      let c3 := vcg.RefineOddEvenE c2 edgePred selectionOnly cb
      ({ m1 with cm := c3 }, subdivisionEvents)
    else
      (mesh, [])
  let sw := projectionSweep mls selectionOnly r.1.cm
  ({ r.1 with cm := sw.1 }, r.2 ++ sw.2)

/-- The loop `for (int k=0; k<nbRefinements+1; ++k)` of lines 477-499. The bound
`nbRefinements+1` is the sum in the integers: for `nbRefinements = 2 ^ 31 - 1`
the `int` sum of the source overflows, which is undefined behaviour, and no
wrap-around is assumed there. The result is the final mesh and the list of the
traces of the passes, in order. -/
def projectionLoop (vcg : Vcg) (mls : MlsSurface) (edgePred : EdgeAnglePredicate)
    (selectionOnly : Bool) (cb : CallBackPos) (nbRefinements : Int) (mesh : MeshModel) :
    MeshModel × List (List Event) :=
  forLoop (nbRefinements + 1).toNat
    (fun k s =>
      let r := projectionPass vcg mls edgePred selectionOnly cb k s.1
      (r.1, s.2 ++ [r.2]))
    (mesh, [])

/-- What one sweep does to a vertex: it is projected when the sweep is not
restricted to the selection or when the vertex is selected. -/
def sweepVertex (mls : MlsSurface) (selectionOnly : Bool) (v : VertexType) : VertexType :=
  if (!selectionOnly) || v.IsS then projectVertex mls v else v

/-- The events of the iteration `i` of a sweep over the mesh `cm`: the progress
call, then the projection when the vertex is processed. -/
def sweepEventsAt (selectionOnly : Bool) (cm : CMeshO) (i : Nat) : List Event :=
  Event.cb (percent i cm.vert.length) Msg.mlsProjection ::
    (match cm.vert[i]? with
      | some v => if (!selectionOnly) || v.IsS then [Event.project i] else []
      | none => [])

/-- The trace of a whole sweep over the mesh `cm`, index by index. -/
def sweepEvents (selectionOnly : Bool) (cm : CMeshO) : List Event :=
  (List.range cm.vert.length).flatMap (sweepEventsAt selectionOnly cm)

/-! ## The colorize workflow (lines 503-572) -/

/-- The curvature type `CT_MEAN`. -/
def CT_MEAN : Int := 0
/-- The curvature type `CT_GAUSS`. -/
def CT_GAUSS : Int := 1
/-- The curvature type `CT_K1`. -/
def CT_K1 : Int := 2
/-- The curvature type `CT_K2`. -/
def CT_K2 : Int := 3
/-- The curvature type `CT_APSS`. -/
def CT_APSS : Int := 4

/-- The ways a run stops before its end: a failed `assert` or the use of a null
pointer. -/
inductive Fault where
  | assertNaN
  | assertInvalidCurvatureType
  | assertFilterId
  | nullPointer
  deriving DecidableEq

/-- The object `implicits::WeingartenMap<Scalar> W(grad, hess)` seen through its
accessors (implicits.h is not part of the translated file). -/
structure WeingartenMap where
  K1Dir : Point3m
  K2Dir : Point3m
  K1 : Scalarm
  K2 : Scalarm
  MeanCurvature : Scalarm
  GaussCurvature : Scalarm

/-- The routines the colorize workflow calls: the constructor of the Weingarten
map, the Euclidean norm `Norm()` and the colouring of the vertices from the
histogram of their quality. -/
structure ColorizeLib where
  WeingartenMap : Point3m → Matrix33m → WeingartenMap
  Norm : Point3m → ℚ
  PerVertexQualityRamp : CMeshO → CMeshO

/-- The state of pass 1 of the colorize workflow: the mesh, the events so far and
the fault that stopped the run, if any. -/
structure ColorizeState where
  cm : CMeshO
  trace : List Event
  fault : Option Fault

/-- The test `errorMask == MLS_OK && grad.Norm() > 1e-8` of line 536. -/
def gradientValid (mls : MlsSurface) (lib : ColorizeLib) (g : Point3m × Int) : Bool :=
  decide (g.2 = mls.MLS_OK) && decide (1 / 10 ^ 8 < lib.Norm g.1)

/-- The `switch(ct)` of lines 546-553: the selected scalar of `W`, or nothing when
the `default` branch asserts. -/
def selectCurvature (ct : Int) (W : WeingartenMap) : Option Scalarm :=
  if ct = CT_MEAN then some W.MeanCurvature
  else if ct = CT_GAUSS then some W.GaussCurvature
  else if ct = CT_K1 then some W.K1
  else if ct = CT_K2 then some W.K2
  else none

/-- The assignment `vert[i].Q() = c` of line 557, on the vertex. -/
def setQ (c : Scalarm) (w : VertexType) : VertexType :=
  { w with Q := c }

/-- The four assignments of lines 541-544, on the vertex. -/
def setCurvature (W : WeingartenMap) (w : VertexType) : VertexType :=
  { w with PD1 := W.K1Dir, PD2 := W.K2Dir, K1 := W.K1, K2 := W.K2 }

/-- The body of the loop of lines 521-562 for the index `i` on the mesh `cm`:
the result holds the mesh after the iteration, the events of the iteration and
the fault raised in it, if any. `apss` is the pointer of the same name, `none`
when the surface is not an APSS one; its payload is `approxMeanCurvature`. The
running minima and maxima `minc`, `maxc`, `minabsc` are never read by the
workflow and are left out. -/
def colorizeVertex (mls : MlsSurface) (apss : Option (Point3m → Scalarm))
    (lib : ColorizeLib) (selectionOnly : Bool) (ct : Int) (cm : CMeshO) (i : Nat) :
    ColorizeState :=
  let tr := [Event.cb (percent i cm.vert.length) Msg.mlsColorization]
  match cm.vert[i]? with
  | none => ⟨cm, tr, none⟩
  | some v =>
    if (!selectionOnly) || v.IsS then
      let p := mls.project v.P
      let tr := tr ++ [Event.project i]
      if ct = CT_APSS then
        match apss with
        | none => ⟨cm, tr, some Fault.nullPointer⟩
        | some approxMeanCurvature =>
          let c := approxMeanCurvature p
          ⟨{ cm with vert := modifyVert (setQ c) i cm.vert },
            tr ++ [Event.approxMeanCurvature i, Event.writeQ i c], none⟩
      else
        let g := mls.gradient p
        let tr := tr ++ [Event.gradient i]
        if gradientValid mls lib g then
          let hess := mls.hessian p
          let W := lib.WeingartenMap g.1 hess
          let tr := tr ++ [Event.hessian i, Event.WeingartenMap i]
          let cm1 : CMeshO := { cm with vert := modifyVert (setCurvature W) i cm.vert }
          match selectCurvature ct W with
          | none => ⟨cm1, tr, some Fault.assertInvalidCurvatureType⟩
          | some c =>
            if c.IsNAN then ⟨cm1, tr, some Fault.assertNaN⟩
            else
              ⟨{ cm1 with vert := modifyVert (setQ c) i cm1.vert },
                tr ++ [Event.writeQ i c], none⟩
        else
          let c := Scalarm.fin 0
          ⟨{ cm with vert := modifyVert (setQ c) i cm.vert },
            tr ++ [Event.writeQ i c], none⟩
    else
      ⟨cm, tr, none⟩

/-- One iteration of pass 1 inside the loop: nothing happens any more once a
fault has stopped the run. -/
def colorizeStep (mls : MlsSurface) (apss : Option (Point3m → Scalarm))
    (lib : ColorizeLib) (selectionOnly : Bool) (ct : Int) (i : Nat) (s : ColorizeState) :
    ColorizeState :=
  match s.fault with
  | some _ => s
  | none =>
    let r := colorizeVertex mls apss lib selectionOnly ct s.cm i
    ⟨r.cm, s.trace ++ r.trace, r.fault⟩

/-- Pass 1 of the colorize workflow (lines 514-562). -/
def colorizePass1 (mls : MlsSurface) (apss : Option (Point3m → Scalarm))
    (lib : ColorizeLib) (selectionOnly : Bool) (ct : Int) (cm : CMeshO) : ColorizeState :=
  forLoop cm.vert.length (colorizeStep mls apss lib selectionOnly ct) ⟨cm, [], none⟩

/-- The colorize branch of lines 503-572 on the current mesh: the three attributes
are enabled, pass 1 runs, and when no fault stopped it pass 2 colours the
vertices. -/
def colorize (mls : MlsSurface) (apss : Option (Point3m → Scalarm)) (lib : ColorizeLib)
    (selectionOnly : Bool) (ct : Int) (mesh : MeshModel) :
    MeshModel × List Event × Option Fault :=
  let m1 := ((mesh.updateDataMask Mask.MM_VERTCOLOR).updateDataMask
    Mask.MM_VERTQUALITY).updateDataMask Mask.MM_VERTCURVDIR
  let ev := [Event.updateDataMask Mask.MM_VERTCOLOR, Event.updateDataMask Mask.MM_VERTQUALITY,
    Event.updateDataMask Mask.MM_VERTCURVDIR]
  let r := colorizePass1 mls apss lib selectionOnly ct m1.cm
  match r.fault with
  | some f => ({ m1 with cm := r.cm }, ev ++ r.trace, some f)
  | none =>
    ({ m1 with cm := lib.PerVertexQualityRamp r.cm },
      ev ++ r.trace ++ [Event.cb 99 Msg.curvatureToColor], none)

/-! ## The per-vertex radius (lines 403-410) -/

/-- Modelled from the spec: the default argument of `computeVertexRaddi`, declared
in mlssurface.h (absent); the spec gives 16 as the default neighbour count. -/
def defaultNbNeighbors : Int := 16

/-- The classes of the MLS library (rimls.h, apss.h and mlssurface.h are not part
of the translated file). `computeVertexRaddi` fills the radii of a mesh from a
neighbour count; `newRIMLS` and `newAPSS` stand for the constructor followed by
the setters of lines 447-463, and `newAPSS` also gives `approxMeanCurvature`. -/
structure Gael where
  computeVertexRaddi : Int → CMeshO → CMeshO
  newRIMLS : CMeshO → (ℚ × Int × ℚ) → (Int × ℚ) → MlsSurface
  newAPSS : CMeshO → (ℚ × Int × ℚ) → (ℚ × Option Bool) → MlsSurface × (Point3m → Scalarm)

/-- Lines 403-410: when the mesh has no per-vertex radius the attribute is
enabled, the radii are computed with the default neighbour count and one line is
logged; otherwise nothing happens. -/
def ensureVertexRadius (gael : Gael) (m : MeshModel) : MeshModel × List Event :=
  if !m.hasDataMask Mask.MM_VERTRADIUS then
    let m1 := m.updateDataMask Mask.MM_VERTRADIUS
    ({ m1 with cm := gael.computeVertexRaddi defaultNbNeighbors m1.cm },
      [Event.updateDataMask Mask.MM_VERTRADIUS, Event.computeVertexRaddi defaultNbNeighbors,
        Event.log Msg.noVertexRadius])
  else
    (m, [])

/-! ## Small components (smallcomponentselection.h, absent) -/

namespace SmallComponent

/-- The number of faces, among the first `n`, of the connected component `c`;
`comp j` is the component of the face of index `j`. -/
def faceCount (comp : Nat → Nat) (n : Nat) (c : Nat) : Nat :=
  ((List.range n).filter (fun j => comp j == c)).length

/-- The face count of the largest component. -/
def largest (comp : Nat → Nat) (n : Nat) : Nat :=
  ((List.range n).map (fun j => faceCount comp n (comp j))).foldr max 0

/-- A face is in a small component when the ratio of the face count of its
component to the face count of the largest component is below `nbFaceRatio`. -/
def isSmall (comp : Nat → Nat) (n : Nat) (nbFaceRatio : ℚ) (j : Nat) : Bool :=
  decide ((faceCount comp n (comp j) : ℚ) / (largest comp n : ℚ) < nbFaceRatio)

/-- Modelled from the spec: `SmallComponent::Select` of smallcomponentselection.h
(absent). The spec: components are evaluated by relative face count against the
largest component, and a component whose face-count ratio falls below the
threshold is marked. `comp` gives the connected component of each face and
`closed` tells which components are closed; with `nonClosedOnly` (described in
`initParameterList` as selecting only non closed components) closed components
are not marked. The selection flag of every face is set accordingly. -/
def Select (comp : Nat → Nat) (closed : Nat → Bool) (m : CMeshO) (nbFaceRatio : ℚ)
    (nonClosedOnly : Bool) : CMeshO :=
  { m with face := (m.face.zip (List.range m.face.length)).map (fun fj =>
      { fj.1 with IsS := isSmall comp m.face.length nbFaceRatio fj.2 &&
          !(nonClosedOnly && closed (comp fj.2)) }) }

/-- Whether a face uses the vertex of index `i`. -/
def usesVertex (f : FaceType) (i : Nat) : Bool :=
  f.V0 == i || f.V1 == i || f.V2 == i

/-- Modelled from the spec: `SmallComponent::DeleteFaceVert` of
smallcomponentselection.h (absent). The spec: the marked components are deleted.
Every selected face is flagged deleted, and so is every vertex that some selected
face uses and no unselected face uses. -/
def DeleteFaceVert (m : CMeshO) : CMeshO :=
  { vert := (m.vert.zip (List.range m.vert.length)).map (fun vi =>
      { vi.1 with IsD := vi.1.IsD ||
          (m.face.any (fun f => f.IsS && usesVertex f vi.2) &&
            m.face.all (fun f => f.IsS || !usesVertex f vi.2)) }),
    face := m.face.map (fun f => { f with IsD := f.IsD || f.IsS }) }

end SmallComponent

/-! ## The document, the parameters and the filter ids -/

/-- The filter ids named in the source. The enumeration and the masks `_RIMLS_`,
`_APSS_`, `_PROJECTION_`, `_AFRONT_`, `_MCUBE_`, `_COLORIZE_` are declared in
mlsplugin.h, which is not part of the translated file; an id carries the masks
that its name spells. -/
inductive FilterId where
  | FP_RIMLS_PROJECTION
  | FP_APSS_PROJECTION
  | FP_RIMLS_AFRONT
  | FP_APSS_AFRONT
  | FP_RIMLS_MCUBE
  | FP_APSS_MCUBE
  | FP_RIMLS_COLORIZE
  | FP_APSS_COLORIZE
  | FP_RADIUS_FROM_DENSITY
  | FP_SELECT_SMALL_COMPONENTS
  deriving DecidableEq

namespace FilterId

/-- The test `id & _RIMLS_`. -/
def RIMLS : FilterId → Bool
  | FP_RIMLS_PROJECTION | FP_RIMLS_AFRONT | FP_RIMLS_MCUBE | FP_RIMLS_COLORIZE => true
  | _ => false

/-- The test `id & _APSS_`. -/
def APSS : FilterId → Bool
  | FP_APSS_PROJECTION | FP_APSS_AFRONT | FP_APSS_MCUBE | FP_APSS_COLORIZE => true
  | _ => false

/-- The test `id & _PROJECTION_`. -/
def PROJECTION : FilterId → Bool
  | FP_RIMLS_PROJECTION | FP_APSS_PROJECTION => true
  | _ => false

/-- The test `id & _MCUBE_`. -/
def MCUBE : FilterId → Bool
  | FP_RIMLS_MCUBE | FP_APSS_MCUBE => true
  | _ => false

/-- The test `id & _COLORIZE_`. -/
def COLORIZE : FilterId → Bool
  | FP_RIMLS_COLORIZE | FP_APSS_COLORIZE => true
  | _ => false

end FilterId

/-- The values `applyFilter` reads from its `RichParameterList`, by name. -/
structure RichParameterList where
  ControlMesh : Int
  ProxyMesh : Int
  SelectionOnly : Bool
  FilterScale : ℚ
  ProjectionAccuracy : ℚ
  MaxProjectionIters : Int
  SphericalParameter : ℚ
  AccurateNormal : Bool
  SigmaN : ℚ
  MaxRefittingIters : Int
  MaxSubdivisions : Int
  ThAngleInDegree : ℚ
  CurvatureType : Int
  Resolution : Int
  NbNeighbors : Int
  NbFaceRatio : ℚ
  NonClosedOnly : Bool

/-- The `MeshDocument` of the host (mesh_document.h is not part of the translated
file), reduced to the list of its meshes, the id of the current mesh and the
counter that numbers new meshes. -/
structure MeshDocument where
  meshList : List MeshModel
  current : Option Int
  meshIdCounter : Int
  deriving DecidableEq

namespace MeshDocument

/-- `getMesh(id)`: the mesh of that id, or the null pointer. -/
def getMesh (md : MeshDocument) (id : Int) : Option MeshModel :=
  md.meshList.find? (fun m => m.id == id)

/-- `mm()`: the current mesh. -/
def mm (md : MeshDocument) : Option MeshModel :=
  md.current.bind md.getMesh

/-- Writes through a pointer to a mesh of the document: the mesh with the id of
`m` becomes `m`. -/
def setMesh (md : MeshDocument) (m : MeshModel) : MeshDocument :=
  { md with meshList := md.meshList.map (fun x => if x.id = m.id then m else x) }

/-- `addNewMesh`: an empty mesh with a fresh id is appended and made current; the
result is the document and the id of the new mesh. -/
def addNewMesh (md : MeshDocument) : MeshDocument × Int :=
  ({ meshList := md.meshList ++ [⟨md.meshIdCounter, ⟨[], []⟩, []⟩],
     current := some md.meshIdCounter,
     meshIdCounter := md.meshIdCounter + 1 }, md.meshIdCounter)

/-- `delMesh`: the mesh of that id leaves the list; when it was current the first
remaining mesh becomes current. -/
def delMesh (md : MeshDocument) (id : Int) : MeshDocument :=
  { md with
    meshList := md.meshList.filter (fun m => m.id != id),
    current :=
      if md.current = some id then
        ((md.meshList.filter (fun m => m.id != id)).head?).map (fun m => m.id)
      else md.current }

end MeshDocument

/-- The number `vn` of vertices that are not deleted. -/
def CMeshO.vn (cm : CMeshO) : Nat :=
  (cm.vert.filter (fun v => !v.IsD)).length

/-- The number `fn` of faces that are not deleted. -/
def CMeshO.fn (cm : CMeshO) : Nat :=
  (cm.face.filter (fun f => !f.IsD)).length

/-- The remaining routines of vcg, of the host and of the marching-cubes walker
(mlsmarchingcube.h) that `applyFilter` calls. `BuildMesh` receives the mesh to
fill, the surface, `walker.resolution` and the callback; `component` and `closed`
describe the connected components of the faces of a mesh. -/
structure Host where
  RemoveUnreferencedVertex : CMeshO → Int × CMeshO
  CompactVertexVector : CMeshO → CMeshO
  AppendMesh : CMeshO → CMeshO → CMeshO
  updateBoxAndNormals : CMeshO → CMeshO
  BuildMesh : CMeshO → MlsSurface → Int → CallBackPos → CMeshO
  component : CMeshO → Nat → Nat
  closed : CMeshO → Nat → Bool

/-- Everything `applyFilter` calls outside the translated file. -/
structure Env where
  vcg : Vcg
  gael : Gael
  lib : ColorizeLib
  host : Host

/-- What a call of `applyFilter` leaves: the document, the trace, the fault that
stopped the call (if any) and the returned map `outValues`, which no path of the
filter ever fills. -/
structure Outcome where
  md : MeshDocument
  trace : List Event
  fault : Option Fault
  outValues : List (Nat × Int)

/-! ## The marching-cubes workflow (lines 584-616) -/

/-- The body of the loop of lines 599-603 for the index `i`: the value returned
by the callback is dropped. -/
def mcubeProjectionStep (mls : MlsSurface) (i : Nat) (s : CMeshO × List Event) :
    CMeshO × List Event :=
  ({ s.1 with vert := modifyVert (projectVertex mls) i s.1.vert },
    s.2 ++ [Event.cb (percent i s.1.vert.length) Msg.mlsProjection, Event.project i])

/-- The accurate projection of lines 599-603. -/
def mcubeProjection (mls : MlsSurface) (cm : CMeshO) : CMeshO × List Event :=
  forLoop cm.vert.length (mcubeProjectionStep mls) (cm, [])

/-- The marching-cubes branch (lines 584-616): a new mesh is added to the
document, the walker fills it at the resolution read from the parameters, its
vertices are projected, the small components are selected with the ratio `0.1`
(the third argument of `Select` is left to its default, taken to be false) and
deleted. The result is the document, the id of the new mesh and the trace. -/
def marchingCubes (host : Host) (mls : MlsSurface) (par : RichParameterList)
    (md : MeshDocument) (cb : CallBackPos) : MeshDocument × Int × List Event :=
  let a := md.addNewMesh
  let mesh : MeshModel := ⟨a.2, ⟨[], []⟩, []⟩
  let resolution := par.Resolution
  let cm1 := host.BuildMesh mesh.cm mls resolution cb
  let pr := mcubeProjection mls cm1
  let m2 := ({ mesh with cm := pr.1 } : MeshModel).updateDataMask Mask.MM_FACEFACETOPO
  let cm3 := SmallComponent.Select (host.component m2.cm) (host.closed m2.cm) m2.cm (1 / 10)
    false
  let cm4 := SmallComponent.DeleteFaceVert cm3
  let m5 := ({ m2 with cm := cm4 } : MeshModel).clearDataMask Mask.MM_FACEFACETOPO
  (a.1.setMesh m5, a.2,
    [Event.addNewMesh a.2, Event.BuildMesh resolution] ++ pr.2 ++
      [Event.updateDataMask Mask.MM_FACEFACETOPO, Event.Select, Event.DeleteFaceVert,
        Event.log Msg.marchingCubesDone])

/-! ## `applyFilter` (lines 366-630) -/

/-- Lines 395-401: unreferenced vertices are removed when the mesh has faces, and
the vertex vector is compacted. -/
def preClean (host : Host) (m : MeshModel) : MeshModel × List Event :=
  let r : CMeshO × List Event :=
    if 0 < m.cm.fn then
      let d := host.RemoveUnreferencedVertex m.cm
      (d.2, if d.1 ≠ 0 then [Event.log (Msg.removedUnreferenced d.1)] else [])
    else
      (m.cm, [])
  ({ m with cm := host.CompactVertexVector r.1 }, r.2)

/-- Lines 412-429: the choice of `pPoints`. The result is the document, the id
`pPoints` points to (`none` for a null pointer) and the trace; the whole result
is `none` when the null pointer `ref` is used. -/
def selectPoints (host : Host) (id : FilterId) (par : RichParameterList)
    (md : MeshDocument) : Option (MeshDocument × Option Int × List Event) :=
  if id.PROJECTION then
    if par.ControlMesh = par.ProxyMesh then
      match md.getMesh par.ControlMesh with
      | none => none
      | some ref =>
        let a := md.addNewMesh
        let pPoints : MeshModel :=
          ⟨a.2, host.AppendMesh ⟨[], []⟩ ref.cm, ref.dataMask⟩
        some (a.1.setMesh pPoints, some a.2, [Event.addNewMesh a.2])
    else
      some (md, (md.getMesh par.ControlMesh).map (fun m => m.id), [])
  else
    some (md, (md.mm).map (fun m => m.id), [])

/-- Lines 433-463: the construction of the surface and the calls of its setters.
The result is `none` when the id is neither a RIMLS nor an APSS one
(`assert(0)`); the second component is the pointer `apss`. -/
def createMls (gael : Gael) (id : FilterId) (par : RichParameterList) (points : CMeshO) :
    Option (MlsSurface × Option (Point3m → Scalarm)) :=
  let common := (par.FilterScale, par.MaxProjectionIters, par.ProjectionAccuracy)
  if id.RIMLS then
    some (gael.newRIMLS points common (par.MaxRefittingIters, par.SigmaN), none)
  else if id.APSS then
    let hint : Option Bool := if !id.COLORIZE then some par.AccurateNormal else none
    let r := gael.newAPSS points common (par.SphericalParameter, hint)
    some (r.1, some r.2)
  else
    none

/-- The projection branch (lines 467-502) on the document. The result is the
document, the pointer `mesh`, the trace and the fault. -/
def projection (vcg : Vcg) (mls : MlsSurface) (par : RichParameterList)
    (md : MeshDocument) (cb : CallBackPos) :
    MeshDocument × Option Int × List Event × Option Fault :=
  match md.getMesh par.ProxyMesh with
  | none => (md, none, [], some Fault.nullPointer)
  | some mesh =>
    let selectionOnly := par.SelectionOnly
    let m0 : MeshModel :=
      if selectionOnly then { mesh with cm := vcg.VertexFromFaceStrict mesh.cm } else mesh
    let edgePred : EdgeAnglePredicate := ⟨vcg.cosOfDegrees par.ThAngleInDegree⟩
    let nbRefinements := par.MaxSubdivisions
    let r := projectionLoop vcg mls edgePred selectionOnly cb nbRefinements m0
    (md.setMesh r.1, some mesh.id,
      r.2.flatten ++ [Event.log (Msg.projected r.1.cm.vn)], none)

/-- The part of `applyFilter` after the construction of the surface: the branch
of the filter, then lines 618-625. -/
def runBranch (env : Env) (id : FilterId) (par : RichParameterList) (md : MeshDocument)
    (cb : CallBackPos) (pPoints : Int) (mls : MlsSurface)
    (apss : Option (Point3m → Scalarm)) : Outcome :=
  let b : MeshDocument × Option Int × List Event × Option Fault :=
    if id.PROJECTION then
      projection env.vcg mls par md cb
    else if id.COLORIZE then
      match md.mm with
      | none => (md, none, [], some Fault.nullPointer)
      | some mesh =>
        let c := colorize mls apss env.lib par.SelectionOnly par.CurvatureType mesh
        (md.setMesh c.1, some mesh.id, c.2.1, c.2.2)
    else if id.MCUBE then
      let r := marchingCubes env.host mls par md cb
      (r.1, some r.2.1, r.2.2, none)
    else
      (md, none, [], none)
  match b.2.2.2 with
  | some f => ⟨b.1, b.2.2.1, some f, []⟩
  | none =>
    let d : MeshDocument × List Event :=
      if id.PROJECTION && decide ((b.1.getMesh par.ControlMesh).map (fun m => m.id)
          ≠ some pPoints) then
        (b.1.delMesh pPoints, [Event.delMesh pPoints])
      else
        (b.1, [])
    let md2 : MeshDocument :=
      match b.2.1.bind d.1.getMesh with
      | some mesh => d.1.setMesh { mesh with cm := env.host.updateBoxAndNormals mesh.cm }
      | none => d.1
    ⟨md2, b.2.2.1 ++ d.2, none, []⟩

/-- The MLS part of `applyFilter` (lines 393-627). -/
def applyMls (env : Env) (id : FilterId) (par : RichParameterList) (md : MeshDocument)
    (cb : CallBackPos) : Outcome :=
  match md.mm with
  | none => ⟨md, [], some Fault.nullPointer, []⟩
  | some cur =>
    let c1 := preClean env.host cur
    let c2 := ensureVertexRadius env.gael c1.1
    let md1 := md.setMesh c2.1
    let tr1 := c1.2 ++ c2.2
    match selectPoints env.host id par md1 with
    | none => ⟨md1, tr1, some Fault.nullPointer, []⟩
    | some pp =>
      match pp.2.1, pp.2.1.bind pp.1.getMesh with
      | some pPoints, some points =>
        let tr2 := tr1 ++ pp.2.2 ++ [Event.cb 1 Msg.createMls]
        match createMls env.gael id par points.cm with
        | none => ⟨pp.1, tr2, some Fault.assertFilterId, []⟩
        | some s =>
          let r := runBranch env id par pp.1 cb pPoints s.1 s.2
          ⟨r.md, tr2 ++ r.trace, r.fault, r.outValues⟩
      | _, _ => ⟨pp.1, tr1 ++ pp.2.2 ++ [Event.cb 1 Msg.createMls],
          some Fault.nullPointer, []⟩

/-- The function `MlsPlugin::applyFilter`. -/
def applyFilter (env : Env) (id : FilterId) (par : RichParameterList) (md : MeshDocument)
    (cb : CallBackPos) : Outcome :=
  if id = FilterId.FP_RADIUS_FROM_DENSITY then
    match md.mm with
    | none => ⟨md, [], some Fault.nullPointer, []⟩
    | some m =>
      let m1 := m.updateDataMask Mask.MM_VERTRADIUS
      ⟨md.setMesh { m1 with cm := env.gael.computeVertexRaddi par.NbNeighbors m1.cm },
        [Event.updateDataMask Mask.MM_VERTRADIUS, Event.computeVertexRaddi par.NbNeighbors],
        none, []⟩
  else if id = FilterId.FP_SELECT_SMALL_COMPONENTS then
    match md.mm with
    | none => ⟨md, [], some Fault.nullPointer, []⟩
    | some mesh =>
      let m1 := mesh.updateDataMask Mask.MM_FACEFACETOPO
      let nonClosedOnly := par.NonClosedOnly
      let ratio := par.NbFaceRatio
      let cm1 := SmallComponent.Select (env.host.component m1.cm) (env.host.closed m1.cm)
        m1.cm ratio nonClosedOnly
      ⟨md.setMesh { m1 with cm := cm1 },
        [Event.updateDataMask Mask.MM_FACEFACETOPO, Event.Select], none, []⟩
  else
    applyMls env id par md cb

/-! ## Concrete objects used to evaluate the definitions -/

/-- A surface model that projects onto the plane `Z = 0`. -/
def sampleMls : MlsSurface where
  project := fun p => { p with Z := 0 }
  projectNormal := fun _ _ => ⟨0, 0, 1⟩
  gradient := fun _ => (⟨0, 0, 1⟩, 0)
  hessian := fun _ _ _ => 0
  MLS_OK := 0

/-- A vertex at `(x, y, z)` with normal `(0, 0, 1)`, selected or not. -/
def sampleVertex (x y z : ℚ) (sel : Bool) : VertexType where
  P := ⟨x, y, z⟩
  N := ⟨0, 0, 1⟩
  IsS := sel
  IsD := false
  R := 1
  Q := Scalarm.fin 7
  K1 := Scalarm.fin 0
  K2 := Scalarm.fin 0
  PD1 := ⟨1, 0, 0⟩
  PD2 := ⟨0, 1, 0⟩

/-- A face with the given unit normal. -/
def sampleFace (n : Point3m) : FaceType where
  V0 := 0
  V1 := 1
  V2 := 2
  cN := n
  IsS := false
  IsD := false

/-- One triangle above the plane `Z = 0`; only its second vertex is selected. -/
def sampleCMesh : CMeshO where
  vert := [sampleVertex 0 0 1 false, sampleVertex 1 0 2 true, sampleVertex 0 1 3 false]
  face := [sampleFace ⟨0, 0, 1⟩]

/-- The triangle as a mesh model of id 0 without any optional attribute. -/
def sampleMesh : MeshModel where
  id := 0
  cm := sampleCMesh
  dataMask := []

/-- Library routines for the examples: the refinement appends one vertex. -/
def sampleVcg : Vcg where
  PerFace := fun cm => cm
  NormalizePerFace := fun cm => cm
  RefineOddEvenE := fun cm _ _ _ => { cm with vert := cm.vert ++ [sampleVertex 2 2 2 true] }
  VertexFromFaceStrict := fun cm => cm
  cosOfDegrees := fun _ => 1

/-- A callback that always asks to continue. -/
def cbContinue : CallBackPos := fun _ _ => true

/-- A Weingarten map with principal curvatures 2 and 1. -/
def sampleW : WeingartenMap where
  K1Dir := ⟨1, 0, 0⟩
  K2Dir := ⟨0, 1, 0⟩
  K1 := Scalarm.fin 2
  K2 := Scalarm.fin 1
  MeanCurvature := Scalarm.fin (3 / 2)
  GaussCurvature := Scalarm.fin 2

/-- Library routines for the colorize examples; the norm is exact on the axis
vectors the examples use. -/
def sampleLib : ColorizeLib where
  WeingartenMap := fun _ _ => sampleW
  Norm := fun g => |g.X| + |g.Y| + |g.Z|
  PerVertexQualityRamp := fun cm => cm

/-- Library routines whose Weingarten map has an infinite mean curvature. -/
def infiniteLib : ColorizeLib where
  WeingartenMap := fun _ _ => { sampleW with MeanCurvature := Scalarm.pinf }
  Norm := fun g => |g.X| + |g.Y| + |g.Z|
  PerVertexQualityRamp := fun cm => cm

/-- Library routines whose Weingarten map has a NaN mean curvature. -/
def nanLib : ColorizeLib where
  WeingartenMap := fun _ _ => { sampleW with MeanCurvature := Scalarm.nan }
  Norm := fun g => |g.X| + |g.Y| + |g.Z|
  PerVertexQualityRamp := fun cm => cm

/-- A point cloud of one vertex. -/
def oneVertex : CMeshO where
  vert := [sampleVertex 0 0 1 false]
  face := []

/-- A walker that returns the sample triangle, or leaves the mesh as it is when
the callback asks to stop. -/
def sampleHost : Host where
  RemoveUnreferencedVertex := fun cm => (0, cm)
  CompactVertexVector := fun cm => cm
  AppendMesh := fun _ src => src
  updateBoxAndNormals := fun cm => cm
  BuildMesh := fun cm _ _ cb => if cb 0 Msg.mlsProjection then sampleCMesh else cm
  component := fun _ _ => 0
  closed := fun _ _ => false

/-- MLS classes for the examples: every surface is `sampleMls`. -/
def sampleGael : Gael where
  computeVertexRaddi := fun _ cm => cm
  newRIMLS := fun _ _ _ => sampleMls
  newAPSS := fun _ _ _ => (sampleMls, fun _ => Scalarm.fin 1)

/-- The libraries of the examples. -/
def sampleEnv : Env where
  vcg := sampleVcg
  gael := sampleGael
  lib := sampleLib
  host := sampleHost

/-- The parameters of the examples, with the given grid resolution. -/
def samplePar (resolution : Int) : RichParameterList where
  ControlMesh := 0
  ProxyMesh := 0
  SelectionOnly := false
  FilterScale := 2
  ProjectionAccuracy := 1 / 10000
  MaxProjectionIters := 15
  SphericalParameter := 1
  AccurateNormal := true
  SigmaN := 3 / 4
  MaxRefittingIters := 3
  MaxSubdivisions := 0
  ThAngleInDegree := 2
  CurvatureType := 0
  Resolution := resolution
  NbNeighbors := 16
  NbFaceRatio := 1 / 10
  NonClosedOnly := false

/-- A document whose only mesh is the sample triangle. -/
def sampleDoc : MeshDocument where
  meshList := [sampleMesh]
  current := some 0
  meshIdCounter := 1

/-- A mesh of 1050 faces. -/
def twoComponentMesh : CMeshO where
  vert := []
  face := List.replicate 1050 (sampleFace ⟨0, 0, 1⟩)

/-- The components of `twoComponentMesh`: the first 1000 faces form the component
0, the last 50 the component 1. -/
def twoComponents (j : Nat) : Nat := if j < 1000 then 0 else 1

/-! ## Closed forms of one iteration of pass 1 -/

/-- What the iteration of pass 1 that visits the vertex `v` leaves in it: the
writes of `colorizeVertex` on that vertex (when an assertion stops the iteration,
the writes made before it). -/
def colorizedVertex (mls : MlsSurface) (apss : Option (Point3m → Scalarm))
    (lib : ColorizeLib) (selectionOnly : Bool) (ct : Int) (v : VertexType) : VertexType :=
  if (!selectionOnly) || v.IsS then
    if ct = CT_APSS then
      match apss with
      | none => v
      | some approxMeanCurvature => setQ (approxMeanCurvature (mls.project v.P)) v
    else
      if gradientValid mls lib (mls.gradient (mls.project v.P)) then
        match selectCurvature ct (lib.WeingartenMap (mls.gradient (mls.project v.P)).1
            (mls.hessian (mls.project v.P))) with
        | none =>
          setCurvature (lib.WeingartenMap (mls.gradient (mls.project v.P)).1
            (mls.hessian (mls.project v.P))) v
        | some c =>
          if c.IsNAN then
            setCurvature (lib.WeingartenMap (mls.gradient (mls.project v.P)).1
              (mls.hessian (mls.project v.P))) v
          else
            setQ c (setCurvature (lib.WeingartenMap (mls.gradient (mls.project v.P)).1
              (mls.hessian (mls.project v.P))) v)
      else
        setQ (Scalarm.fin 0) v
  else
    v

/-- The fault that the iteration of pass 1 that visits the vertex `v` raises, if
any. -/
def colorizeFault (mls : MlsSurface) (apss : Option (Point3m → Scalarm))
    (lib : ColorizeLib) (selectionOnly : Bool) (ct : Int) (v : VertexType) : Option Fault :=
  if (!selectionOnly) || v.IsS then
    if ct = CT_APSS then
      match apss with
      | none => some Fault.nullPointer
      | some _ => none
    else
      if gradientValid mls lib (mls.gradient (mls.project v.P)) then
        match selectCurvature ct (lib.WeingartenMap (mls.gradient (mls.project v.P)).1
            (mls.hessian (mls.project v.P))) with
        | none => some Fault.assertInvalidCurvatureType
        | some c => if c.IsNAN then some Fault.assertNaN else none
      else
        none
  else
    none

/-! ## The parameters by name: `initParameterList` (lines 182-318) -/

/-- The test `id & _AFRONT_`. -/
def FilterId.AFRONT : FilterId → Bool
  | FilterId.FP_RIMLS_AFRONT | FilterId.FP_APSS_AFRONT => true
  | _ => false

/-- The list `typeList` that the constructor registers (lines 64-74). -/
def typeList : List FilterId :=
  [FilterId.FP_RIMLS_PROJECTION, FilterId.FP_APSS_PROJECTION, FilterId.FP_RIMLS_MCUBE,
    FilterId.FP_APSS_MCUBE, FilterId.FP_RIMLS_COLORIZE, FilterId.FP_APSS_COLORIZE,
    FilterId.FP_RADIUS_FROM_DENSITY, FilterId.FP_SELECT_SMALL_COMPONENTS]

/-- The names of the parameters, as the string literals of the source spell
them. -/
inductive ParName where
  | NbFaceRatio
  | NonClosedOnly
  | NbNeighbors
  | ControlMesh
  | ProxyMesh
  | SelectionOnly
  | FilterScale
  | ProjectionAccuracy
  | MaxProjectionIters
  | SphericalParameter
  | AccurateNormal
  | SigmaN
  | MaxRefittingIters
  | MaxSubdivisions
  | ThAngleInDegree
  | CurvatureType
  | Resolution
  deriving DecidableEq

/-- The entries of the `QStringList` of the parameter `CurvatureType`. -/
inductive EnumValue where
  | Mean
  | Gauss
  | K1
  | K2
  | ApproxMean
  deriving DecidableEq

/-- A parameter as `initParameterList` adds it: its kind, its name and its default
value (and, for an enumeration, its entries). The texts shown in the dialog are
left out. -/
inductive RichParameter where
  | RichFloat (name : ParName) (defaultValue : ℚ)
  | RichBool (name : ParName) (defaultValue : Bool)
  | RichInt (name : ParName) (defaultValue : Int)
  | RichMesh (name : ParName) (defaultValue : Int)
  | RichEnum (name : ParName) (defaultValue : Int) (values : List EnumValue)

/-- The name of a parameter. -/
def RichParameter.name : RichParameter → ParName
  | RichFloat n _ => n
  | RichBool n _ => n
  | RichInt n _ => n
  | RichMesh n _ => n
  | RichEnum n _ _ => n

/-- The number `sfn` of selected faces. -/
def CMeshO.sfn (cm : CMeshO) : Nat :=
  (cm.face.filter (fun f => f.IsS && !f.IsD)).length

/-- The function `MlsPlugin::initParameterList` for the filter `id` and the
current mesh `target` of the document. -/
def initParameterList (id : FilterId) (target : MeshModel) : List RichParameter :=
  if id = FilterId.FP_SELECT_SMALL_COMPONENTS then
    [RichParameter.RichFloat ParName.NbFaceRatio (1 / 10),
      RichParameter.RichBool ParName.NonClosedOnly false]
  else if id = FilterId.FP_RADIUS_FROM_DENSITY then
    [RichParameter.RichInt ParName.NbNeighbors 16]
  else
    (if id.PROJECTION then
      [RichParameter.RichMesh ParName.ControlMesh target.id,
        RichParameter.RichMesh ParName.ProxyMesh target.id]
    else []) ++
    (if id.PROJECTION || id.COLORIZE then
      [RichParameter.RichBool ParName.SelectionOnly (decide (0 < target.cm.sfn))]
    else []) ++
    (if id.APSS || id.RIMLS then
      [RichParameter.RichFloat ParName.FilterScale 2,
        RichParameter.RichFloat ParName.ProjectionAccuracy (1 / 10000),
        RichParameter.RichInt ParName.MaxProjectionIters 15]
    else []) ++
    (if id.APSS then
      [RichParameter.RichFloat ParName.SphericalParameter 1] ++
        (if !id.COLORIZE then [RichParameter.RichBool ParName.AccurateNormal true] else [])
    else []) ++
    (if id.RIMLS then
      [RichParameter.RichFloat ParName.SigmaN (3 / 4),
        RichParameter.RichInt ParName.MaxRefittingIters 3]
    else []) ++
    (if id.PROJECTION then
      [RichParameter.RichInt ParName.MaxSubdivisions 0,
        RichParameter.RichFloat ParName.ThAngleInDegree 2]
    else []) ++
    (if id.AFRONT then [] else []) ++
    (if id.COLORIZE then
      [RichParameter.RichEnum ParName.CurvatureType CT_MEAN
        ([EnumValue.Mean, EnumValue.Gauss, EnumValue.K1, EnumValue.K2] ++
          (if id.APSS then [EnumValue.ApproxMean] else []))]
    else []) ++
    (if id.MCUBE then [RichParameter.RichInt ParName.Resolution 200] else [])

/-- The entries of the enumeration of the given name in a parameter list, if the
list defines such an enumeration. -/
def enumValues (pl : List RichParameter) (n : ParName) : Option (List EnumValue) :=
  pl.findSome? (fun p =>
    match p with
    | RichParameter.RichEnum m _ vs => if m = n then some vs else none
    | _ => none)

/-- Whether `ct` is the index of one of the entries that `initParameterList`
offers for `CurvatureType` with the filter `id`. -/
def curvatureTypeOffered (id : FilterId) (target : MeshModel) (ct : Int) : Bool :=
  match enumValues (initParameterList id target) ParName.CurvatureType with
  | some vs => decide (0 ≤ ct) && decide (ct < (vs.length : Int))
  | none => false

/-! ## The parameters by name: what `applyFilter` reads -/

/-- The names that `applyFilter` passes to `par.getInt`, `par.getFloat`,
`par.getBool`, `par.getMeshId` and `par.getEnum` for the filter `id`, in program
order, along a run that no fault stops: lines 380, 387-388, 415-426, 447-449,
453-455, 460-462, 469-477, 510-512, 592 and 619. -/
def parametersRead (id : FilterId) : List ParName :=
  if id = FilterId.FP_RADIUS_FROM_DENSITY then
    [ParName.NbNeighbors]
  else if id = FilterId.FP_SELECT_SMALL_COMPONENTS then
    [ParName.NonClosedOnly, ParName.NbFaceRatio]
  else
    (if id.PROJECTION then [ParName.ControlMesh, ParName.ProxyMesh, ParName.ControlMesh]
    else []) ++
    (if id.RIMLS || id.APSS then
      [ParName.FilterScale, ParName.MaxProjectionIters, ParName.ProjectionAccuracy] ++
      (if id.RIMLS then [ParName.MaxRefittingIters, ParName.SigmaN] else []) ++
      (if !id.RIMLS && id.APSS then
        [ParName.SphericalParameter] ++
          (if !id.COLORIZE then [ParName.AccurateNormal] else [])
      else []) ++
      (if id.PROJECTION then
        [ParName.ProxyMesh, ParName.SelectionOnly, ParName.ThAngleInDegree,
          ParName.MaxSubdivisions]
      else if id.COLORIZE then [ParName.SelectionOnly, ParName.CurvatureType]
      else if id.MCUBE then [ParName.Resolution]
      else []) ++
      (if id.PROJECTION then [ParName.ControlMesh] else [])
    else [])

/-- A value read from the parameter list. -/
inductive ParValue where
  | float (q : ℚ)
  | bool (b : Bool)
  | int (i : Int)
  deriving DecidableEq

/-- The value that the record of parameter values holds under a name. -/
def RichParameterList.get (par : RichParameterList) : ParName → ParValue
  | ParName.NbFaceRatio => ParValue.float par.NbFaceRatio
  | ParName.NonClosedOnly => ParValue.bool par.NonClosedOnly
  | ParName.NbNeighbors => ParValue.int par.NbNeighbors
  | ParName.ControlMesh => ParValue.int par.ControlMesh
  | ParName.ProxyMesh => ParValue.int par.ProxyMesh
  | ParName.SelectionOnly => ParValue.bool par.SelectionOnly
  | ParName.FilterScale => ParValue.float par.FilterScale
  | ParName.ProjectionAccuracy => ParValue.float par.ProjectionAccuracy
  | ParName.MaxProjectionIters => ParValue.int par.MaxProjectionIters
  | ParName.SphericalParameter => ParValue.float par.SphericalParameter
  | ParName.AccurateNormal => ParValue.bool par.AccurateNormal
  | ParName.SigmaN => ParValue.float par.SigmaN
  | ParName.MaxRefittingIters => ParValue.int par.MaxRefittingIters
  | ParName.MaxSubdivisions => ParValue.int par.MaxSubdivisions
  | ParName.ThAngleInDegree => ParValue.float par.ThAngleInDegree
  | ParName.CurvatureType => ParValue.int par.CurvatureType
  | ParName.Resolution => ParValue.int par.Resolution

/-! ## The point set of the surface -/

/-- The invariant of the document that makes the id given by `addNewMesh` a new
one: every mesh of the list has an id below the counter. -/
def MeshDocument.freshIds (md : MeshDocument) : Bool :=
  md.meshList.all (fun m => decide (m.id < md.meshIdCounter))

/-- The state of `applyFilter` when the surface is constructed (lines 438-441),
computed as `applyMls` computes it: the document, the pointer `pPoints`, the mesh
it points to and the trace so far. The result is `none` when a null pointer
stops the run before. -/
def pointSet (env : Env) (id : FilterId) (par : RichParameterList) (md : MeshDocument) :
    Option (MeshDocument × Int × MeshModel × List Event) :=
  match md.mm with
  | none => none
  | some cur =>
    let c1 := preClean env.host cur
    let c2 := ensureVertexRadius env.gael c1.1
    let md1 := md.setMesh c2.1
    let tr1 := c1.2 ++ c2.2
    match selectPoints env.host id par md1 with
    | none => none
    | some pp =>
      match pp.2.1, pp.2.1.bind pp.1.getMesh with
      | some pPoints, some points => some (pp.1, pPoints, points, tr1 ++ pp.2.2)
      | _, _ => none

/-- The percentages handed to the callback, in the order of the trace. -/
def cbPositions (tr : List Event) : List Nat :=
  tr.filterMap (fun e =>
    match e with
    | Event.cb pos _ => some pos
    | _ => none)

/-- A mesh of one vertex, of id 1, without any optional attribute. -/
def secondMesh : MeshModel where
  id := 1
  cm := oneVertex
  dataMask := []

/-- A document of two meshes; the sample triangle, of id 0, is the current
one. -/
def twoMeshDoc : MeshDocument where
  meshList := [sampleMesh, secondMesh]
  current := some 0
  meshIdCounter := 2

/-! ## The passes of the projection branch -/

/-- The proxy mesh when the loop of lines 478-499 starts: its vertex selection has
been derived from the faces when `SelectionOnly` is set (lines 472-473). -/
def projectionStart (vcg : Vcg) (par : RichParameterList) (mesh : MeshModel) : MeshModel :=
  if par.SelectionOnly then { mesh with cm := vcg.VertexFromFaceStrict mesh.cm } else mesh

/-- The traces of the passes of the projection branch on the proxy mesh `mesh`,
as `projection` runs them. -/
def projectionPasses (vcg : Vcg) (mls : MlsSurface) (par : RichParameterList)
    (cb : CallBackPos) (mesh : MeshModel) : List (List Event) :=
  (projectionLoop vcg mls ⟨vcg.cosOfDegrees par.ThAngleInDegree⟩ par.SelectionOnly cb
    par.MaxSubdivisions (projectionStart vcg par mesh)).2

/-! ## The proxy mesh from pass to pass -/

/-- What the subdivision step of lines 483-489 makes of the proxy mesh: the
face-face topology is requested, the per-face normals are computed and
normalised, and `RefineOddEvenE` refines the result. -/
def subdivisionStep (vcg : Vcg) (edgePred : EdgeAnglePredicate) (selectionOnly : Bool)
    (cb : CallBackPos) (mesh : MeshModel) : MeshModel :=
  { mesh.updateDataMask Mask.MM_FACEFACETOPO with
    cm := vcg.RefineOddEvenE
      (vcg.NormalizePerFace (vcg.PerFace (mesh.updateDataMask Mask.MM_FACEFACETOPO).cm))
      edgePred selectionOnly cb }

/-- What the projection sweep of lines 492-498 makes of the proxy mesh. -/
def sweptMesh (mls : MlsSurface) (selectionOnly : Bool) (mesh : MeshModel) : MeshModel :=
  { mesh with cm := (projectionSweep mls selectionOnly mesh.cm).1 }

/-- The proxy mesh that the projection sweep of pass `k` runs over, when the
loop starts from `mesh`: in pass 0 it is `mesh` itself, and in pass `k + 1` it is
the result of one subdivision step on the mesh that the sweep of pass `k` left. -/
def meshOfPass (vcg : Vcg) (mls : MlsSurface) (edgePred : EdgeAnglePredicate)
    (selectionOnly : Bool) (cb : CallBackPos) (mesh : MeshModel) : Nat → MeshModel
  | 0 => mesh
  | k + 1 =>
    subdivisionStep vcg edgePred selectionOnly cb
      (sweptMesh mls selectionOnly (meshOfPass vcg mls edgePred selectionOnly cb mesh k))

/-! ## Loops -/

theorem forLoop_zero {σ : Type} (body : Nat → σ → σ) (s : σ) : forLoop 0 body s = s := by
  simp [forLoop]

theorem forLoop_succ {σ : Type} (n : Nat) (body : Nat → σ → σ) (s : σ) :
    forLoop (n + 1) body s = body n (forLoop n body s) := by
  simp [forLoop, List.range_succ, List.foldl_append]

theorem modifyVert_length (f : VertexType → VertexType) (i : Nat) (l : List VertexType) :
    (modifyVert f i l).length = l.length := by
  induction l generalizing i with
  | nil => simp [modifyVert]
  | cons v vs ih =>
    cases i with
    | zero => simp [modifyVert]
    | succ i => simp [modifyVert, ih]

theorem modifyVert_append (f : VertexType → VertexType) (l1 : List VertexType) (v : VertexType)
    (l2 : List VertexType) :
    modifyVert f l1.length (l1 ++ v :: l2) = l1 ++ f v :: l2 := by
  induction l1 with
  | nil => simp [modifyVert]
  | cons a l1 ih => simp [modifyVert, ih]

/-! ## The projection sweep -/

theorem projectionSweep_invariant (mls : MlsSurface) (selectionOnly : Bool) (cm : CMeshO)
    (n : Nat) (hn : n ≤ cm.vert.length) :
    forLoop n (projectionStep mls selectionOnly) (cm, []) =
      ({ cm with vert := (cm.vert.take n).map (sweepVertex mls selectionOnly)
                          ++ cm.vert.drop n },
        (List.range n).flatMap (sweepEventsAt selectionOnly cm)) := by
  induction n with
  | zero => simp [forLoop_zero]
  | succ n ih =>
    have hlt : n < cm.vert.length := hn
    rw [forLoop_succ, ih (Nat.le_of_lt hlt)]
    have hget : cm.vert[n]? = some cm.vert[n] := List.getElem?_eq_getElem hlt
    have hdrop : cm.vert.drop n = cm.vert[n] :: cm.vert.drop (n + 1) :=
      List.drop_eq_getElem_cons hlt
    have htake : cm.vert.take (n + 1) = cm.vert.take n ++ [cm.vert[n]] := by
      rw [List.take_succ, hget]; rfl
    have hlen : ((cm.vert.take n).map (sweepVertex mls selectionOnly)).length = n := by
      simp [Nat.min_eq_left (Nat.le_of_lt hlt)]
    have hcur : ((cm.vert.take n).map (sweepVertex mls selectionOnly)
        ++ cm.vert.drop n)[n]? = some cm.vert[n] := by
      rw [List.getElem?_append_right (by omega), hlen, hdrop]; simp
    have hmod : modifyVert (projectVertex mls) n
        ((cm.vert.take n).map (sweepVertex mls selectionOnly) ++ cm.vert.drop n) =
        (cm.vert.take n).map (sweepVertex mls selectionOnly)
          ++ projectVertex mls cm.vert[n] :: cm.vert.drop (n + 1) := by
      rw [hdrop]
      have := modifyVert_append (projectVertex mls)
        ((cm.vert.take n).map (sweepVertex mls selectionOnly)) cm.vert[n]
        (cm.vert.drop (n + 1))
      rw [hlen] at this
      exact this
    have hsz : ((cm.vert.take n).map (sweepVertex mls selectionOnly)
        ++ cm.vert.drop n).length = cm.vert.length := by
      simp; omega
    simp only [projectionStep, hcur, hmod, hsz, List.range_succ, List.flatMap_append,
      List.flatMap_singleton, sweepEventsAt, hget, htake, List.map_append, List.map_cons,
      List.map_nil, sweepVertex]
    by_cases hc : ((!selectionOnly) || cm.vert[n].IsS) = true
    · simp [hc, List.append_assoc]
    · simp [hc, hdrop.symm]

theorem projectionSweep_eq (mls : MlsSurface) (selectionOnly : Bool) (cm : CMeshO) :
    projectionSweep mls selectionOnly cm =
      ({ cm with vert := cm.vert.map (sweepVertex mls selectionOnly) },
        sweepEvents selectionOnly cm) := by
  unfold projectionSweep
  rw [projectionSweep_invariant mls selectionOnly cm cm.vert.length (Nat.le_refl _)]
  simp [sweepEvents]

theorem mem_sweepEvents (selectionOnly : Bool) (cm : CMeshO) (e : Event)
    (h : e ∈ sweepEvents selectionOnly cm) :
    (∃ p, e = Event.cb p Msg.mlsProjection) ∨ (∃ i, e = Event.project i) := by
  simp only [sweepEvents, List.mem_flatMap, sweepEventsAt] at h
  obtain ⟨i, _, hi⟩ := h
  rcases List.mem_cons.mp hi with h1 | h1
  · exact Or.inl ⟨_, h1⟩
  · right
    refine ⟨i, ?_⟩
    split at h1
    · split at h1 <;> simp_all
    · simp at h1

/-! ## `EdgeAnglePredicate` -/

/-- C1 (as the code has it): `EdgeAnglePredicate` returns true exactly when the
scalar product of the normals of the two faces adjacent to the edge is strictly
below `thCosAngle`, that is when the normals differ by more than the crease
angle. -/
theorem EdgeAnglePredicate_call_iff (self : EdgeAnglePredicate) (ep : Pos) :
    self.call ep = true ↔ ep.F.cN.dot ep.FFlip.cN < self.thCosAngle := by
  simp [EdgeAnglePredicate.call]

/-- C1 fails as stated: for the unit normals `(1,0,0)` and `(0,1,0)` (an angle
of 90 degrees) and `thCosAngle = 1/2` (a crease angle of 60 degrees) the predicate
returns true although the scalar product 0 is not above `thCosAngle`. -/
theorem EdgeAnglePredicate_selects_crease :
    (EdgeAnglePredicate.mk (1 / 2)).call
        ⟨sampleFace ⟨1, 0, 0⟩, sampleFace ⟨0, 1, 0⟩⟩ = true ∧
      ¬ ((sampleFace ⟨1, 0, 0⟩).cN.dot (sampleFace ⟨0, 1, 0⟩).cN > 1 / 2) ∧
      (sampleFace ⟨1, 0, 0⟩).cN.dot (sampleFace ⟨1, 0, 0⟩).cN = 1 ∧
      (sampleFace ⟨0, 1, 0⟩).cN.dot (sampleFace ⟨0, 1, 0⟩).cN = 1 := by
  simp [EdgeAnglePredicate.call, sampleFace, Point3m.dot]

/-! ## The refinement and projection loop -/

theorem projectionPass_zero (vcg : Vcg) (mls : MlsSurface) (edgePred : EdgeAnglePredicate)
    (selectionOnly : Bool) (cb : CallBackPos) (mesh : MeshModel) :
    projectionPass vcg mls edgePred selectionOnly cb 0 mesh =
      (sweptMesh mls selectionOnly mesh, sweepEvents selectionOnly mesh.cm) := by
  simp [projectionPass, sweptMesh, projectionSweep_eq]

theorem projectionPass_succ (vcg : Vcg) (mls : MlsSurface) (edgePred : EdgeAnglePredicate)
    (selectionOnly : Bool) (cb : CallBackPos) (k : Nat) (hk : k ≠ 0) (mesh : MeshModel) :
    projectionPass vcg mls edgePred selectionOnly cb k mesh =
      (sweptMesh mls selectionOnly (subdivisionStep vcg edgePred selectionOnly cb mesh),
        subdivisionEvents ++
          sweepEvents selectionOnly (subdivisionStep vcg edgePred selectionOnly cb mesh).cm) := by
  simp [projectionPass, sweptMesh, subdivisionStep, projectionSweep_eq, hk]

/-- The loop of lines 478-499 run for `N + 1` passes: the mesh it leaves and the
traces of its passes. -/
theorem projectionLoop_unroll (vcg : Vcg) (mls : MlsSurface)
    (edgePred : EdgeAnglePredicate) (selectionOnly : Bool) (cb : CallBackPos)
    (mesh : MeshModel) (N : Nat) :
    forLoop (N + 1) (fun k s =>
        ((projectionPass vcg mls edgePred selectionOnly cb k s.1).1,
          s.2 ++ [(projectionPass vcg mls edgePred selectionOnly cb k s.1).2]))
        ((mesh, []) : MeshModel × List (List Event)) =
      (sweptMesh mls selectionOnly (meshOfPass vcg mls edgePred selectionOnly cb mesh N),
        (List.range (N + 1)).map (fun k =>
          (if k = 0 then [] else subdivisionEvents) ++
            sweepEvents selectionOnly
              (meshOfPass vcg mls edgePred selectionOnly cb mesh k).cm)) := by
  induction N with
  | zero =>
    rw [forLoop_succ, forLoop_zero]
    simp [projectionPass_zero, meshOfPass, List.range_succ]
  | succ N ih =>
    rw [forLoop_succ, ih]
    simp only [projectionPass_succ vcg mls edgePred selectionOnly cb (N + 1) (by omega)]
    rw [List.range_succ (N + 1), List.map_append]
    simp [meshOfPass]

theorem toNat_succ_natCast (n : Nat) : ((n : Int) + 1).toNat = n + 1 := by
  omega

/-- The passes of the loop for any bound: the trace of pass `k` is the
subdivision step (absent in pass 0) and the sweep over the mesh of that pass. -/
theorem projectionLoop_traces (vcg : Vcg) (mls : MlsSurface)
    (edgePred : EdgeAnglePredicate) (selectionOnly : Bool) (cb : CallBackPos)
    (nbRefinements : Int) (mesh : MeshModel) :
    (projectionLoop vcg mls edgePred selectionOnly cb nbRefinements mesh).2 =
      (List.range (nbRefinements + 1).toNat).map (fun k =>
        (if k = 0 then [] else subdivisionEvents) ++
          sweepEvents selectionOnly
            (meshOfPass vcg mls edgePred selectionOnly cb mesh k).cm) := by
  unfold projectionLoop
  cases (nbRefinements + 1).toNat with
  | zero => simp [forLoop_zero]
  | succ N =>
    exact congrArg Prod.snd (projectionLoop_unroll vcg mls edgePred selectionOnly cb mesh N)

/-- C2: for every `MaxSubdivisions = n >= 0` the loop of the projection workflow
runs exactly `n + 1` passes. The trace of pass 0 is the trace of one projection
sweep over the vertices of the initial mesh, without any subdivision event. The
trace of each pass `k` of `1..n` is the subdivision step (face-face topology,
per-face normals, their normalisation, `RefineOddEvenE`) followed by the trace of
one projection sweep over the vertices of the mesh of that pass, which is the
result of that subdivision step on the mesh the sweep of pass `k - 1` left. The
mesh the loop leaves is the one the sweep of pass `n` leaves. -/
theorem projectionLoop_passes (vcg : Vcg) (mls : MlsSurface) (edgePred : EdgeAnglePredicate)
    (selectionOnly : Bool) (cb : CallBackPos) (mesh : MeshModel) (n : Nat) :
    (projectionLoop vcg mls edgePred selectionOnly cb (n : Int) mesh).2.length = n + 1 ∧
    (projectionLoop vcg mls edgePred selectionOnly cb (n : Int) mesh).2[0]? =
      some (sweepEvents selectionOnly mesh.cm) ∧
    (∀ k, 1 ≤ k → k ≤ n →
      meshOfPass vcg mls edgePred selectionOnly cb mesh k =
        subdivisionStep vcg edgePred selectionOnly cb
          (sweptMesh mls selectionOnly
            (meshOfPass vcg mls edgePred selectionOnly cb mesh (k - 1))) ∧
      (projectionLoop vcg mls edgePred selectionOnly cb (n : Int) mesh).2[k]? =
        some (subdivisionEvents ++
          sweepEvents selectionOnly
            (meshOfPass vcg mls edgePred selectionOnly cb mesh k).cm)) ∧
    (projectionLoop vcg mls edgePred selectionOnly cb (n : Int) mesh).1 =
      sweptMesh mls selectionOnly (meshOfPass vcg mls edgePred selectionOnly cb mesh n) := by
  have hrun := projectionLoop_unroll vcg mls edgePred selectionOnly cb mesh n
  unfold projectionLoop
  rw [toNat_succ_natCast, hrun]
  refine ⟨by simp, by simp [meshOfPass], fun k h1 h2 => ⟨?_, ?_⟩, rfl⟩
  · obtain ⟨j, rfl⟩ : ∃ j, k = j + 1 := ⟨k - 1, by omega⟩
    rfl
  · have hk : ¬ k = 0 := by omega
    simp only [List.getElem?_map]
    rw [List.getElem?_range (by omega)]
    simp [hk]

/-- C2 at a concrete input: two subdivisions of the sample triangle give three
passes, over 3, 4 and 5 vertices. -/
theorem projectionLoop_passes_witness :
    (projectionLoop sampleVcg sampleMls ⟨1 / 2⟩ true cbContinue ((2 : Nat) : Int)
        sampleMesh).2.length = 2 + 1 ∧
    (List.range 3).map (fun k =>
      (meshOfPass sampleVcg sampleMls ⟨1 / 2⟩ true cbContinue sampleMesh k).cm.vert.length) =
        [3, 4, 5] :=
  ⟨(projectionLoop_passes sampleVcg sampleMls ⟨1 / 2⟩ true cbContinue sampleMesh 2).1, by rfl⟩

theorem forall₂_sweepVertex (mls : MlsSurface) (selectionOnly : Bool)
    (l : List VertexType) :
    List.Forall₂ (fun v w => { w with P := v.P, N := v.N } = v) l
      (l.map (sweepVertex mls selectionOnly)) := by
  induction l with
  | nil => simp
  | cons v vs ih =>
    refine List.Forall₂.cons ?_ ih
    unfold sweepVertex projectVertex
    split <;> rfl

/-- C3: with `MaxSubdivisions = 0` the loop is a single pass whose trace is the
trace of one projection sweep; `RefineOddEvenE` does not occur in it; the face
list, the number of vertices, the id and the data mask of the proxy mesh are
unchanged; and each vertex differs from the vertex it was at most in its position
and its normal. -/
theorem projectionLoop_zero_subdivisions (vcg : Vcg) (mls : MlsSurface)
    (edgePred : EdgeAnglePredicate) (selectionOnly : Bool) (cb : CallBackPos)
    (mesh : MeshModel) :
    (projectionLoop vcg mls edgePred selectionOnly cb 0 mesh).2 =
      [sweepEvents selectionOnly mesh.cm] ∧
    Event.RefineOddEvenE ∉
      (projectionLoop vcg mls edgePred selectionOnly cb 0 mesh).2.flatten ∧
    (projectionLoop vcg mls edgePred selectionOnly cb 0 mesh).1.cm.face = mesh.cm.face ∧
    (projectionLoop vcg mls edgePred selectionOnly cb 0 mesh).1.cm.vert.length =
      mesh.cm.vert.length ∧
    (projectionLoop vcg mls edgePred selectionOnly cb 0 mesh).1.id = mesh.id ∧
    (projectionLoop vcg mls edgePred selectionOnly cb 0 mesh).1.dataMask = mesh.dataMask ∧
    List.Forall₂ (fun v w => { w with P := v.P, N := v.N } = v) mesh.cm.vert
      (projectionLoop vcg mls edgePred selectionOnly cb 0 mesh).1.cm.vert := by
  have hw : ((0 : Int) + 1).toNat = 1 := rfl
  have hrun : projectionLoop vcg mls edgePred selectionOnly cb 0 mesh =
      ({ mesh with cm := { mesh.cm with vert := mesh.cm.vert.map (sweepVertex mls selectionOnly) } },
        [sweepEvents selectionOnly mesh.cm]) := by
    unfold projectionLoop
    rw [hw, forLoop_succ, forLoop_zero]
    simp [projectionPass, projectionSweep_eq]
  rw [hrun]
  refine ⟨rfl, ?_, rfl, by simp, rfl, rfl, forall₂_sweepVertex mls selectionOnly _⟩
  intro hmem
  simp only [List.flatten, List.append_nil] at hmem
  rcases mem_sweepEvents selectionOnly mesh.cm _ hmem with ⟨p, hp⟩ | ⟨i, hi⟩
  · cases hp
  · cases hi

/-- C10: a projection sweep leaves the faces alone and replaces every vertex as
follows: when `SelectionOnly` is set and the vertex is not selected it is kept as
it is (position and normal included); otherwise its position becomes the
projection of its position by the model (and its normal what the projection
stores); all other attributes are kept. -/
theorem projectionSweep_vertices (mls : MlsSurface) (selectionOnly : Bool) (cm : CMeshO) :
    (projectionSweep mls selectionOnly cm).1.face = cm.face ∧
    (projectionSweep mls selectionOnly cm).1.vert =
      cm.vert.map (fun v =>
        if selectionOnly && !v.IsS then v
        else { v with P := mls.project v.P, N := mls.projectNormal v.P v.N }) := by
  rw [projectionSweep_eq]
  refine ⟨rfl, ?_⟩
  apply List.map_congr_left
  intro v _
  unfold sweepVertex projectVertex
  cases selectionOnly <;> cases hv : v.IsS <;> simp [hv]

/-! ## The colorize workflow -/

theorem modifyVert_getElem? (f : VertexType → VertexType) (i j : Nat) (l : List VertexType) :
    (modifyVert f i l)[j]? = if j = i then (l[j]?).map f else l[j]? := by
  induction l generalizing i j with
  | nil => simp [modifyVert]
  | cons v vs ih =>
    cases i with
    | zero =>
      cases j with
      | zero => simp [modifyVert]
      | succ j => simp [modifyVert]
    | succ i =>
      cases j with
      | zero => simp [modifyVert]
      | succ j => simp [modifyVert, ih]

/-! ### The cases of one iteration of pass 1 -/

theorem colorizeVertex_out_of_range (mls : MlsSurface) (apss : Option (Point3m → Scalarm))
    (lib : ColorizeLib) (selectionOnly : Bool) (ct : Int) (cm : CMeshO) (i : Nat)
    (hv : cm.vert[i]? = none) :
    colorizeVertex mls apss lib selectionOnly ct cm i =
      ⟨cm, [Event.cb (percent i cm.vert.length) Msg.mlsColorization], none⟩ := by
  simp [colorizeVertex, hv]

theorem colorizeVertex_skipped (mls : MlsSurface) (apss : Option (Point3m → Scalarm))
    (lib : ColorizeLib) (selectionOnly : Bool) (ct : Int) (cm : CMeshO) (i : Nat)
    (v : VertexType) (hv : cm.vert[i]? = some v)
    (hp : ¬ ((!selectionOnly) || v.IsS) = true) :
    colorizeVertex mls apss lib selectionOnly ct cm i =
      ⟨cm, [Event.cb (percent i cm.vert.length) Msg.mlsColorization], none⟩ := by
  simp [colorizeVertex, hv, hp]

theorem colorizeVertex_apss_null (mls : MlsSurface)
    (lib : ColorizeLib) (selectionOnly : Bool) (ct : Int) (cm : CMeshO) (i : Nat)
    (v : VertexType) (hv : cm.vert[i]? = some v)
    (hp : ((!selectionOnly) || v.IsS) = true) (hct : ct = CT_APSS) :
    colorizeVertex mls none lib selectionOnly ct cm i =
      ⟨cm, [Event.cb (percent i cm.vert.length) Msg.mlsColorization, Event.project i],
        some Fault.nullPointer⟩ := by
  simp [colorizeVertex, hv, hp, hct]

theorem colorizeVertex_apss (mls : MlsSurface) (a : Point3m → Scalarm)
    (lib : ColorizeLib) (selectionOnly : Bool) (ct : Int) (cm : CMeshO) (i : Nat)
    (v : VertexType) (hv : cm.vert[i]? = some v)
    (hp : ((!selectionOnly) || v.IsS) = true) (hct : ct = CT_APSS) :
    colorizeVertex mls (some a) lib selectionOnly ct cm i =
      ⟨{ cm with vert := modifyVert (setQ (a (mls.project v.P))) i cm.vert },
        [Event.cb (percent i cm.vert.length) Msg.mlsColorization, Event.project i,
          Event.approxMeanCurvature i, Event.writeQ i (a (mls.project v.P))], none⟩ := by
  simp [colorizeVertex, hv, hp, hct]

theorem colorizeVertex_degenerate (mls : MlsSurface) (apss : Option (Point3m → Scalarm))
    (lib : ColorizeLib) (selectionOnly : Bool) (ct : Int) (cm : CMeshO) (i : Nat)
    (v : VertexType) (hv : cm.vert[i]? = some v)
    (hp : ((!selectionOnly) || v.IsS) = true) (hct : ¬ ct = CT_APSS)
    (hg : ¬ gradientValid mls lib (mls.gradient (mls.project v.P)) = true) :
    colorizeVertex mls apss lib selectionOnly ct cm i =
      ⟨{ cm with vert := modifyVert (setQ (Scalarm.fin 0)) i cm.vert },
        [Event.cb (percent i cm.vert.length) Msg.mlsColorization, Event.project i,
          Event.gradient i, Event.writeQ i (Scalarm.fin 0)], none⟩ := by
  simp [colorizeVertex, hv, hp, hct, hg]

theorem colorizeVertex_invalid_type (mls : MlsSurface) (apss : Option (Point3m → Scalarm))
    (lib : ColorizeLib) (selectionOnly : Bool) (ct : Int) (cm : CMeshO) (i : Nat)
    (v : VertexType) (hv : cm.vert[i]? = some v)
    (hp : ((!selectionOnly) || v.IsS) = true) (hct : ¬ ct = CT_APSS)
    (hg : gradientValid mls lib (mls.gradient (mls.project v.P)) = true)
    (hs : selectCurvature ct (lib.WeingartenMap (mls.gradient (mls.project v.P)).1
      (mls.hessian (mls.project v.P))) = none) :
    colorizeVertex mls apss lib selectionOnly ct cm i =
      ⟨{ cm with vert := modifyVert (setCurvature (lib.WeingartenMap
            (mls.gradient (mls.project v.P)).1 (mls.hessian (mls.project v.P)))) i cm.vert },
        [Event.cb (percent i cm.vert.length) Msg.mlsColorization, Event.project i,
          Event.gradient i, Event.hessian i, Event.WeingartenMap i],
        some Fault.assertInvalidCurvatureType⟩ := by
  simp [colorizeVertex, hv, hp, hct, hg, hs]

theorem colorizeVertex_nan (mls : MlsSurface) (apss : Option (Point3m → Scalarm))
    (lib : ColorizeLib) (selectionOnly : Bool) (ct : Int) (cm : CMeshO) (i : Nat)
    (v : VertexType) (c : Scalarm) (hv : cm.vert[i]? = some v)
    (hp : ((!selectionOnly) || v.IsS) = true) (hct : ¬ ct = CT_APSS)
    (hg : gradientValid mls lib (mls.gradient (mls.project v.P)) = true)
    (hs : selectCurvature ct (lib.WeingartenMap (mls.gradient (mls.project v.P)).1
      (mls.hessian (mls.project v.P))) = some c)
    (hn : c.IsNAN = true) :
    colorizeVertex mls apss lib selectionOnly ct cm i =
      ⟨{ cm with vert := modifyVert (setCurvature (lib.WeingartenMap
            (mls.gradient (mls.project v.P)).1 (mls.hessian (mls.project v.P)))) i cm.vert },
        [Event.cb (percent i cm.vert.length) Msg.mlsColorization, Event.project i,
          Event.gradient i, Event.hessian i, Event.WeingartenMap i],
        some Fault.assertNaN⟩ := by
  simp [colorizeVertex, hv, hp, hct, hg, hs, hn]

theorem colorizeVertex_written (mls : MlsSurface) (apss : Option (Point3m → Scalarm))
    (lib : ColorizeLib) (selectionOnly : Bool) (ct : Int) (cm : CMeshO) (i : Nat)
    (v : VertexType) (c : Scalarm) (hv : cm.vert[i]? = some v)
    (hp : ((!selectionOnly) || v.IsS) = true) (hct : ¬ ct = CT_APSS)
    (hg : gradientValid mls lib (mls.gradient (mls.project v.P)) = true)
    (hs : selectCurvature ct (lib.WeingartenMap (mls.gradient (mls.project v.P)).1
      (mls.hessian (mls.project v.P))) = some c)
    (hn : ¬ c.IsNAN = true) :
    colorizeVertex mls apss lib selectionOnly ct cm i =
      ⟨{ cm with vert := modifyVert (setQ c) i (modifyVert (setCurvature (lib.WeingartenMap
            (mls.gradient (mls.project v.P)).1 (mls.hessian (mls.project v.P)))) i cm.vert) },
        [Event.cb (percent i cm.vert.length) Msg.mlsColorization, Event.project i,
          Event.gradient i, Event.hessian i, Event.WeingartenMap i, Event.writeQ i c],
        none⟩ := by
  simp [colorizeVertex, hv, hp, hct, hg, hs, hn]

/-! ### Invariants of pass 1 -/

theorem modifyVert_modifyVert (f g : VertexType → VertexType) (i : Nat)
    (l : List VertexType) :
    modifyVert f i (modifyVert g i l) = modifyVert (fun v => f (g v)) i l := by
  induction l generalizing i with
  | nil => simp [modifyVert]
  | cons v vs ih =>
    cases i with
    | zero => simp [modifyVert]
    | succ i => simp [modifyVert, ih]

/-- A relation between a vertex and its image that `f` respects and that holds
between a vertex and itself holds index by index after `modifyVert f`. -/
theorem modifyVert_rel (R : VertexType → VertexType → Prop) (f : VertexType → VertexType)
    (hrefl : ∀ v, R v v) (hf : ∀ v, R v (f v)) (i : Nat) (l : List VertexType)
    (j : Nat) (v : VertexType) (hv : l[j]? = some v) :
    ∃ w : VertexType, (modifyVert f i l)[j]? = some w ∧ R v w := by
  rw [modifyVert_getElem?, hv]
  by_cases hj : j = i
  · exact ⟨f v, by simp [hj], hf v⟩
  · exact ⟨v, by simp [hj], hrefl v⟩

/-- What one iteration of pass 1 does to the vertices: the number of vertices, the
positions and the selection flags are kept, and when the curvature type is not
`CT_APSS` a quality that changes passed the test of the assertion of line 555
(`math::IsNAN` does not hold of it). -/
theorem colorizeVertex_vert (mls : MlsSurface) (apss : Option (Point3m → Scalarm))
    (lib : ColorizeLib) (selectionOnly : Bool) (ct : Int) (cm : CMeshO) (i : Nat) :
    (colorizeVertex mls apss lib selectionOnly ct cm i).cm.vert.length = cm.vert.length ∧
    ∀ (j : Nat) (v : VertexType), cm.vert[j]? = some v →
      ∃ w : VertexType,
        (colorizeVertex mls apss lib selectionOnly ct cm i).cm.vert[j]? = some w ∧
        (w.P = v.P ∧ w.IsS = v.IsS ∧ (ct ≠ CT_APSS → w.Q = v.Q ∨ w.Q.IsNAN = false)) := by
  let R : VertexType → VertexType → Prop := fun v w =>
    w.P = v.P ∧ w.IsS = v.IsS ∧ (ct ≠ CT_APSS → w.Q = v.Q ∨ w.Q.IsNAN = false)
  have hrefl : ∀ v : VertexType, R v v := fun v => ⟨rfl, rfl, fun _ => Or.inl rfl⟩
  have hkeep : ∀ (j : Nat) (v : VertexType), cm.vert[j]? = some v →
      ∃ w : VertexType, cm.vert[j]? = some w ∧
        (w.P = v.P ∧ w.IsS = v.IsS ∧ (ct ≠ CT_APSS → w.Q = v.Q ∨ w.Q.IsNAN = false)) :=
    fun j v hv => ⟨v, hv, hrefl v⟩
  have hcurv : ∀ (W : WeingartenMap) (v : VertexType), R v (setCurvature W v) :=
    fun W v => ⟨rfl, rfl, fun _ => Or.inl rfl⟩
  cases hv : cm.vert[i]? with
  | none =>
    rw [colorizeVertex_out_of_range mls apss lib selectionOnly ct cm i hv]
    exact ⟨rfl, hkeep⟩
  | some v0 =>
    by_cases hp : ((!selectionOnly) || v0.IsS) = true
    · by_cases hct : ct = CT_APSS
      · cases apss with
        | none =>
          rw [colorizeVertex_apss_null mls lib selectionOnly ct cm i v0 hv hp hct]
          exact ⟨rfl, hkeep⟩
        | some a =>
          rw [colorizeVertex_apss mls a lib selectionOnly ct cm i v0 hv hp hct]
          refine ⟨modifyVert_length _ _ _, fun j v hj => ?_⟩
          exact modifyVert_rel R (setQ (a (mls.project v0.P))) hrefl
            (fun v => ⟨rfl, rfl, fun h => absurd hct h⟩) i cm.vert j v hj
      · by_cases hg : gradientValid mls lib (mls.gradient (mls.project v0.P)) = true
        · cases hs : selectCurvature ct (lib.WeingartenMap
              (mls.gradient (mls.project v0.P)).1 (mls.hessian (mls.project v0.P))) with
          | none =>
            rw [colorizeVertex_invalid_type mls apss lib selectionOnly ct cm i v0 hv hp hct
              hg hs]
            refine ⟨modifyVert_length _ _ _, fun j v hj => ?_⟩
            exact modifyVert_rel R (setCurvature _) hrefl (hcurv _) i cm.vert j v hj
          | some c =>
            by_cases hn : c.IsNAN = true
            · rw [colorizeVertex_nan mls apss lib selectionOnly ct cm i v0 c hv hp hct hg hs
                hn]
              refine ⟨modifyVert_length _ _ _, fun j v hj => ?_⟩
              exact modifyVert_rel R (setCurvature _) hrefl (hcurv _) i cm.vert j v hj
            · rw [colorizeVertex_written mls apss lib selectionOnly ct cm i v0 c hv hp hct hg
                hs hn]
              refine ⟨by simp [modifyVert_length], fun j v hj => ?_⟩
              simp only [modifyVert_modifyVert]
              exact modifyVert_rel R (fun v => setQ c (setCurvature _ v)) hrefl
                (fun v => ⟨rfl, rfl, fun _ => Or.inr (by simpa [setQ] using hn)⟩)
                i cm.vert j v hj
        · rw [colorizeVertex_degenerate mls apss lib selectionOnly ct cm i v0 hv hp hct hg]
          refine ⟨modifyVert_length _ _ _, fun j v hj => ?_⟩
          exact modifyVert_rel R (setQ (Scalarm.fin 0)) hrefl
            (fun v => ⟨rfl, rfl, fun _ => Or.inr rfl⟩) i cm.vert j v hj
    · rw [colorizeVertex_skipped mls apss lib selectionOnly ct cm i v0 hv hp]
      exact ⟨rfl, hkeep⟩

/-- The events of one iteration of pass 1: a Hessian or a Weingarten map appears
only for the index of the iteration, a curvature type other than `CT_APSS`, and a
processed vertex whose gradient passed the test of line 536; and when the
curvature type is not `CT_APSS`, a quality that is written passed the test of the
assertion of line 555 (`math::IsNAN` does not hold of it). -/
theorem colorizeVertex_trace (mls : MlsSurface) (apss : Option (Point3m → Scalarm))
    (lib : ColorizeLib) (selectionOnly : Bool) (ct : Int) (cm : CMeshO) (i : Nat) :
    (∀ j : Nat, (Event.hessian j ∈ (colorizeVertex mls apss lib selectionOnly ct cm i).trace ∨
        Event.WeingartenMap j ∈ (colorizeVertex mls apss lib selectionOnly ct cm i).trace) →
      j = i ∧ ct ≠ CT_APSS ∧ ∃ v : VertexType, cm.vert[i]? = some v ∧
        ((!selectionOnly) || v.IsS) = true ∧
        gradientValid mls lib (mls.gradient (mls.project v.P)) = true) ∧
    (ct ≠ CT_APSS → ∀ (j : Nat) (c : Scalarm),
      Event.writeQ j c ∈ (colorizeVertex mls apss lib selectionOnly ct cm i).trace →
        c.IsNAN = false) := by
  cases hv : cm.vert[i]? with
  | none =>
    rw [colorizeVertex_out_of_range mls apss lib selectionOnly ct cm i hv]
    simp
  | some v0 =>
    by_cases hp : ((!selectionOnly) || v0.IsS) = true
    · by_cases hct : ct = CT_APSS
      · cases apss with
        | none =>
          rw [colorizeVertex_apss_null mls lib selectionOnly ct cm i v0 hv hp hct]
          simp
        | some a =>
          rw [colorizeVertex_apss mls a lib selectionOnly ct cm i v0 hv hp hct]
          simp [hct]
      · by_cases hg : gradientValid mls lib (mls.gradient (mls.project v0.P)) = true
        · cases hs : selectCurvature ct (lib.WeingartenMap
              (mls.gradient (mls.project v0.P)).1 (mls.hessian (mls.project v0.P))) with
          | none =>
            rw [colorizeVertex_invalid_type mls apss lib selectionOnly ct cm i v0 hv hp hct
              hg hs]
            refine ⟨fun j hj => ⟨?_, hct, v0, rfl, hp, hg⟩, by simp⟩
            simpa using hj
          | some c =>
            by_cases hn : c.IsNAN = true
            · rw [colorizeVertex_nan mls apss lib selectionOnly ct cm i v0 c hv hp hct hg hs
                hn]
              refine ⟨fun j hj => ⟨?_, hct, v0, rfl, hp, hg⟩, by simp⟩
              simpa using hj
            · rw [colorizeVertex_written mls apss lib selectionOnly ct cm i v0 c hv hp hct hg
                hs hn]
              refine ⟨fun j hj => ⟨?_, hct, v0, rfl, hp, hg⟩, ?_⟩
              · simpa using hj
              · intro _ j c0 hj
                simp at hj
                rw [hj.2]
                simpa using hn
        · rw [colorizeVertex_degenerate mls apss lib selectionOnly ct cm i v0 hv hp hct hg]
          refine ⟨by simp, ?_⟩
          intro _ j c0 hj
          simp at hj
          rw [hj.2]
          rfl
    · rw [colorizeVertex_skipped mls apss lib selectionOnly ct cm i v0 hv hp]
      simp

/-- The invariant of pass 1 after any number of iterations, stated against the
mesh the pass started from. -/
theorem colorizePass1_invariant (mls : MlsSurface) (apss : Option (Point3m → Scalarm))
    (lib : ColorizeLib) (selectionOnly : Bool) (ct : Int) (cm : CMeshO) (n : Nat) :
    (forLoop n (colorizeStep mls apss lib selectionOnly ct) ⟨cm, [], none⟩).cm.vert.length =
      cm.vert.length ∧
    (∀ (j : Nat) (v : VertexType), cm.vert[j]? = some v →
      ∃ w : VertexType,
        (forLoop n (colorizeStep mls apss lib selectionOnly ct) ⟨cm, [], none⟩).cm.vert[j]? =
          some w ∧
        (w.P = v.P ∧ w.IsS = v.IsS ∧ (ct ≠ CT_APSS → w.Q = v.Q ∨ w.Q.IsNAN = false))) ∧
    (∀ j : Nat,
      (Event.hessian j ∈
          (forLoop n (colorizeStep mls apss lib selectionOnly ct) ⟨cm, [], none⟩).trace ∨
        Event.WeingartenMap j ∈
          (forLoop n (colorizeStep mls apss lib selectionOnly ct) ⟨cm, [], none⟩).trace) →
      ct ≠ CT_APSS ∧ ∃ v : VertexType, cm.vert[j]? = some v ∧
        ((!selectionOnly) || v.IsS) = true ∧
        gradientValid mls lib (mls.gradient (mls.project v.P)) = true) ∧
    (ct ≠ CT_APSS → ∀ (j : Nat) (c : Scalarm),
      Event.writeQ j c ∈
          (forLoop n (colorizeStep mls apss lib selectionOnly ct) ⟨cm, [], none⟩).trace →
        c.IsNAN = false) := by
  induction n with
  | zero =>
    rw [forLoop_zero]
    exact ⟨rfl, fun j v hv => ⟨v, hv, rfl, rfl, fun _ => Or.inl rfl⟩, by simp, by simp⟩
  | succ n ih =>
    rw [forLoop_succ]
    generalize forLoop n (colorizeStep mls apss lib selectionOnly ct) ⟨cm, [], none⟩ = s at ih ⊢
    obtain ⟨hlen, hvert, hhess, hq⟩ := ih
    unfold colorizeStep
    cases hf : s.fault with
    | some f => exact ⟨hlen, hvert, hhess, hq⟩
    | none =>
      obtain ⟨hlen1, hvert1⟩ := colorizeVertex_vert mls apss lib selectionOnly ct s.cm n
      obtain ⟨hhess1, hq1⟩ := colorizeVertex_trace mls apss lib selectionOnly ct s.cm n
      refine ⟨hlen1.trans hlen, ?_, ?_, ?_⟩
      · intro j v hv
        obtain ⟨w, hw, hwP, hwS, hwQ⟩ := hvert j v hv
        obtain ⟨w1, hw1, hw1P, hw1S, hw1Q⟩ := hvert1 j w hw
        refine ⟨w1, hw1, hw1P.trans hwP, hw1S.trans hwS, fun hct => ?_⟩
        rcases hw1Q hct with h1 | h1
        · rcases hwQ hct with h2 | h2
          · exact Or.inl (h1.trans h2)
          · exact Or.inr (by rw [h1]; exact h2)
        · exact Or.inr h1
      · intro j hj
        have hj1 : (Event.hessian j ∈ s.trace ∨ Event.WeingartenMap j ∈ s.trace) ∨
            (Event.hessian j ∈ (colorizeVertex mls apss lib selectionOnly ct s.cm n).trace ∨
              Event.WeingartenMap j ∈
                (colorizeVertex mls apss lib selectionOnly ct s.cm n).trace) := by
          simp only [List.mem_append] at hj
          tauto
        rcases hj1 with hold | hnew
        · exact hhess j hold
        · obtain ⟨hjn, hct, w, hw, hp, hg⟩ := hhess1 j hnew
          subst hjn
          have hlt : j < cm.vert.length := by
            have := (List.getElem?_eq_some_iff.mp hw).1
            omega
          obtain ⟨w0, hw0, hP, hS, _⟩ := hvert j cm.vert[j] (List.getElem?_eq_getElem hlt)
          have hww : w0 = w := Option.some.inj (hw0.symm.trans hw)
          subst hww
          exact ⟨hct, cm.vert[j], List.getElem?_eq_getElem hlt, by rw [← hS]; exact hp,
            by rw [← hP]; exact hg⟩
      · intro hct j c hj
        simp only [List.mem_append] at hj
        rcases hj with hold | hnew
        · exact hq hct j c hold
        · exact hq1 hct j c hnew

theorem eps_lt_one : ((10 : ℚ) ^ 8)⁻¹ < 1 := by norm_num

/-- C4: in pass 1 of the colorize workflow, whatever the curvature type, the
Hessian of the vertex `i` is evaluated or its Weingarten map constructed only if
the curvature type is not `CT_APSS`, the vertex is processed, the gradient at
its projection reported `MLS_OK` and the norm of that gradient is strictly above
`1e-8`. -/
theorem colorizePass1_hessian_only_if_valid (mls : MlsSurface)
    (apss : Option (Point3m → Scalarm)) (lib : ColorizeLib) (selectionOnly : Bool)
    (ct : Int) (cm : CMeshO) (i : Nat)
    (h : Event.hessian i ∈ (colorizePass1 mls apss lib selectionOnly ct cm).trace ∨
      Event.WeingartenMap i ∈ (colorizePass1 mls apss lib selectionOnly ct cm).trace) :
    ct ≠ CT_APSS ∧ ∃ v : VertexType, cm.vert[i]? = some v ∧
      ((!selectionOnly) || v.IsS) = true ∧
      (mls.gradient (mls.project v.P)).2 = mls.MLS_OK ∧
      1 / 10 ^ 8 < lib.Norm (mls.gradient (mls.project v.P)).1 := by
  obtain ⟨_, _, hhess, _⟩ :=
    colorizePass1_invariant mls apss lib selectionOnly ct cm cm.vert.length
  obtain ⟨hct, v, hv, hp, hg⟩ := hhess i h
  refine ⟨hct, v, hv, hp, ?_⟩
  simpa [gradientValid] using hg

/-- C4 at a concrete input: on the one-vertex cloud with mean curvature the
Hessian is evaluated, and the gradient there is valid. -/
theorem colorizePass1_hessian_witness :
    Event.hessian 0 ∈ (colorizePass1 sampleMls none sampleLib false CT_MEAN oneVertex).trace ∧
    (CT_MEAN ≠ CT_APSS ∧ ∃ v : VertexType, oneVertex.vert[0]? = some v ∧
      ((!false) || v.IsS) = true ∧
      (sampleMls.gradient (sampleMls.project v.P)).2 = sampleMls.MLS_OK ∧
      1 / 10 ^ 8 < sampleLib.Norm (sampleMls.gradient (sampleMls.project v.P)).1) :=
  (fun h => ⟨h, colorizePass1_hessian_only_if_valid sampleMls none sampleLib false CT_MEAN
      oneVertex 0 (Or.inl h)⟩)
    (by simp [colorizePass1, oneVertex, forLoop, colorizeStep, colorizeVertex, sampleVertex,
      sampleMls, sampleLib, gradientValid, selectCurvature, CT_MEAN, CT_APSS, sampleW,
      Scalarm.IsNAN, List.range, List.range.loop, eps_lt_one])

theorem Scalarm.isFinite_eq_not_IsNAN (c : Scalarm) : c.isFinite = !c.IsNAN := by
  cases c <;> rfl

/-- The curvature types other than `CT_APSS` (assertions enabled): pass 1 never
writes a non-finite value into a quality. Every value it writes passes the test
of the assertion of line 555, every quality of the final mesh is the one the
vertex had or passes it, and in an iteration whose selected curvature fails the
test the assertion stops the run with the quality of the vertex untouched. -/
theorem colorizePass1_checked_types (mls : MlsSurface)
    (apss : Option (Point3m → Scalarm)) (lib : ColorizeLib) (selectionOnly : Bool)
    (ct : Int) (cm : CMeshO) (hct : ct ≠ CT_APSS) :
    (∀ (i : Nat) (c : Scalarm),
      Event.writeQ i c ∈ (colorizePass1 mls apss lib selectionOnly ct cm).trace →
        c.isFinite = true) ∧
    (∀ (i : Nat) (v w : VertexType), cm.vert[i]? = some v →
      (colorizePass1 mls apss lib selectionOnly ct cm).cm.vert[i]? = some w →
        w.Q = v.Q ∨ w.Q.isFinite = true) ∧
    (∀ (m : CMeshO) (i : Nat) (v : VertexType) (c : Scalarm), m.vert[i]? = some v →
      ((!selectionOnly) || v.IsS) = true →
      gradientValid mls lib (mls.gradient (mls.project v.P)) = true →
      selectCurvature ct (lib.WeingartenMap (mls.gradient (mls.project v.P)).1
        (mls.hessian (mls.project v.P))) = some c →
      c.isFinite = false →
        (colorizeVertex mls apss lib selectionOnly ct m i).fault = some Fault.assertNaN ∧
        ((colorizeVertex mls apss lib selectionOnly ct m i).cm.vert[i]?).map (fun w => w.Q) =
          some v.Q ∧
        ∀ c0 : Scalarm,
          Event.writeQ i c0 ∉ (colorizeVertex mls apss lib selectionOnly ct m i).trace) := by
  obtain ⟨_, hvert, _, hq⟩ :=
    colorizePass1_invariant mls apss lib selectionOnly ct cm cm.vert.length
  refine ⟨?_, ?_, ?_⟩
  · intro i c hmem
    rw [Scalarm.isFinite_eq_not_IsNAN, hq hct i c hmem]
    rfl
  · intro i v w hv hw
    obtain ⟨w0, hw0, _, _, hQ⟩ := hvert i v hv
    have : w0 = w := Option.some.inj (hw0.symm.trans hw)
    subst this
    rcases hQ hct with h | h
    · exact Or.inl h
    · right
      rw [Scalarm.isFinite_eq_not_IsNAN, h]
      rfl
  · intro m i v c hv hp hg hs hn
    have hn1 : c.IsNAN = true := by
      rw [Scalarm.isFinite_eq_not_IsNAN] at hn
      simpa using hn
    rw [colorizeVertex_nan mls apss lib selectionOnly ct m i v c hv hp hct hg hs hn1]
    refine ⟨rfl, ?_, by simp⟩
    simp [modifyVert_getElem?, hv, setCurvature]

/-- The checked curvature types at a concrete input: with mean curvature on the
one-vertex cloud, a NaN from the Weingarten map stops the run. -/
theorem colorizePass1_checked_types_example :
    CT_MEAN ≠ CT_APSS ∧
    (colorizePass1 sampleMls none nanLib false CT_MEAN oneVertex).fault =
      some Fault.assertNaN ∧
    ∀ (i : Nat) (c : Scalarm),
      Event.writeQ i c ∈ (colorizePass1 sampleMls none nanLib false CT_MEAN oneVertex).trace →
        c.isFinite = true :=
  ⟨by decide,
    by simp [colorizePass1, oneVertex, forLoop, colorizeStep, colorizeVertex, sampleVertex,
      sampleMls, nanLib, gradientValid, selectCurvature, CT_MEAN, CT_APSS, sampleW,
      Scalarm.IsNAN, List.range, List.range.loop, eps_lt_one],
    (colorizePass1_checked_types sampleMls none nanLib false CT_MEAN oneVertex
      (by decide)).1⟩

/-- C5 fails on the ApproxMean path. With `CT_APSS` on the one-vertex cloud, a
NaN returned by `approxMeanCurvature` is written into the quality of the vertex
and no fault stops the run, and so is an infinity. With mean curvature on the
same cloud, the same values coming from the Weingarten map stop the run at the
assertion of line 555, and the quality of the vertex keeps its value. -/
theorem colorizePass1_writes_non_finite :
    ((colorizePass1 sampleMls (some (fun _ => Scalarm.nan)) sampleLib false CT_APSS
        oneVertex).fault = none ∧
      ((colorizePass1 sampleMls (some (fun _ => Scalarm.nan)) sampleLib false CT_APSS
        oneVertex).cm.vert[0]?).map (fun w => w.Q) = some Scalarm.nan ∧
      Event.writeQ 0 Scalarm.nan ∈
        (colorizePass1 sampleMls (some (fun _ => Scalarm.nan)) sampleLib false CT_APSS
          oneVertex).trace) ∧
    ((colorizePass1 sampleMls (some (fun _ => Scalarm.pinf)) sampleLib false CT_APSS
        oneVertex).fault = none ∧
      ((colorizePass1 sampleMls (some (fun _ => Scalarm.pinf)) sampleLib false CT_APSS
        oneVertex).cm.vert[0]?).map (fun w => w.Q) = some Scalarm.pinf) ∧
    ((colorizePass1 sampleMls none nanLib false CT_MEAN oneVertex).fault =
        some Fault.assertNaN ∧
      ((colorizePass1 sampleMls none nanLib false CT_MEAN oneVertex).cm.vert[0]?).map
        (fun w => w.Q) = (oneVertex.vert[0]?).map (fun w => w.Q)) ∧
    ((colorizePass1 sampleMls none infiniteLib false CT_MEAN oneVertex).fault =
        some Fault.assertNaN ∧
      ((colorizePass1 sampleMls none infiniteLib false CT_MEAN oneVertex).cm.vert[0]?).map
        (fun w => w.Q) = (oneVertex.vert[0]?).map (fun w => w.Q)) := by
  refine ⟨?_, ?_, ?_, ?_⟩
  · simp [colorizePass1, oneVertex, forLoop, colorizeStep, colorizeVertex, sampleVertex,
      sampleMls, sampleLib, CT_APSS, List.range, List.range.loop, modifyVert, setQ]
  · simp [colorizePass1, oneVertex, forLoop, colorizeStep, colorizeVertex, sampleVertex,
      sampleMls, sampleLib, CT_APSS, List.range, List.range.loop, modifyVert, setQ]
  · simp [colorizePass1, oneVertex, forLoop, colorizeStep, colorizeVertex, sampleVertex,
      sampleMls, nanLib, gradientValid, selectCurvature, CT_MEAN, CT_APSS, sampleW,
      Scalarm.IsNAN, List.range, List.range.loop, eps_lt_one, modifyVert,
      setQ, setCurvature]
  · simp [colorizePass1, oneVertex, forLoop, colorizeStep, colorizeVertex, sampleVertex,
      sampleMls, infiniteLib, gradientValid, selectCurvature, CT_MEAN, CT_APSS, sampleW,
      Scalarm.IsNAN, List.range, List.range.loop, eps_lt_one, modifyVert,
      setQ, setCurvature]

/-! ## The per-vertex radius -/

theorem hasDataMask_updateDataMask (m : MeshModel) (b : Mask) :
    (m.updateDataMask b).hasDataMask b = true := by
  unfold MeshModel.updateDataMask MeshModel.hasDataMask
  by_cases h : b ∈ m.dataMask <;> simp [h]

theorem updateDataMask_cm (m : MeshModel) (b : Mask) : (m.updateDataMask b).cm = m.cm := by
  unfold MeshModel.updateDataMask
  split <;> rfl

theorem updateDataMask_id (m : MeshModel) (b : Mask) : (m.updateDataMask b).id = m.id := by
  unfold MeshModel.updateDataMask
  split <;> rfl

/-- Every run of the MLS part of `applyFilter` on a document with a current mesh
starts with the pre-cleaning of the current mesh followed by the step of lines
403-410 on the cleaned mesh. -/
theorem applyMls_trace_starts (env : Env) (id : FilterId) (par : RichParameterList)
    (md : MeshDocument) (cb : CallBackPos) (cur : MeshModel) (hmm : md.mm = some cur) :
    ∃ rest : List Event, (applyMls env id par md cb).trace =
      (preClean env.host cur).2 ++
        (ensureVertexRadius env.gael (preClean env.host cur).1).2 ++ rest := by
  unfold applyMls
  simp only [hmm]
  split
  · exact ⟨[], by simp⟩
  · split
    · split
      · exact ⟨_, by simp only [List.append_assoc]; rfl⟩
      · exact ⟨_, by simp only [List.append_assoc]; rfl⟩
    · exact ⟨_, by simp only [List.append_assoc]; rfl⟩

/-- C9: the step of lines 403-410. On a mesh without the per-vertex radius the
attribute is enabled, the radii are those `computeVertexRaddi` gives for the
default neighbour count on the mesh, and the trace of the step holds the log line
exactly once; on a mesh that has the attribute the mesh is returned as it is and
the trace is empty. In both cases the step ends normally with a mesh that has
the attribute. And every run of a projection, colorize or marching-cubes filter
on a document with a current mesh performs this step on the pre-cleaned current
mesh. -/
theorem ensureVertexRadius_spec (gael : Gael) (m : MeshModel) :
    (m.hasDataMask Mask.MM_VERTRADIUS = false →
      (ensureVertexRadius gael m).1.cm = gael.computeVertexRaddi defaultNbNeighbors m.cm ∧
      (ensureVertexRadius gael m).1.id = m.id ∧
      (ensureVertexRadius gael m).2 =
        [Event.updateDataMask Mask.MM_VERTRADIUS, Event.computeVertexRaddi 16,
          Event.log Msg.noVertexRadius] ∧
      (ensureVertexRadius gael m).2.count (Event.log Msg.noVertexRadius) = 1) ∧
    (m.hasDataMask Mask.MM_VERTRADIUS = true →
      ensureVertexRadius gael m = (m, [])) ∧
    (ensureVertexRadius gael m).1.hasDataMask Mask.MM_VERTRADIUS = true ∧
    (∀ (env : Env) (id : FilterId) (par : RichParameterList) (md : MeshDocument)
        (cb : CallBackPos) (cur : MeshModel),
      id ≠ FilterId.FP_RADIUS_FROM_DENSITY → id ≠ FilterId.FP_SELECT_SMALL_COMPONENTS →
      md.mm = some cur →
      ∃ rest : List Event, (applyFilter env id par md cb).trace =
        (preClean env.host cur).2 ++
          (ensureVertexRadius env.gael (preClean env.host cur).1).2 ++ rest) := by
  refine ⟨fun h => ?_, fun h => ?_, ?_, ?_⟩
  · simp [ensureVertexRadius, h, updateDataMask_cm, updateDataMask_id, defaultNbNeighbors]
  · simp [ensureVertexRadius, h]
  · cases h : m.hasDataMask Mask.MM_VERTRADIUS
    · have := hasDataMask_updateDataMask m Mask.MM_VERTRADIUS
      unfold ensureVertexRadius
      rw [h]
      simpa [MeshModel.hasDataMask] using this
    · simp [ensureVertexRadius, h]
  · intro env id par md cb cur h1 h2 hmm
    unfold applyFilter
    rw [if_neg h1, if_neg h2]
    exact applyMls_trace_starts env id par md cb cur hmm

/-- C9 at concrete inputs: the sample mesh has no radius attribute, so the step
enables it and logs one line; on its result the step does nothing. -/
theorem ensureVertexRadius_spec_witness :
    (ensureVertexRadius sampleGael sampleMesh).2.count (Event.log Msg.noVertexRadius) = 1 ∧
    ensureVertexRadius sampleGael (ensureVertexRadius sampleGael sampleMesh).1 =
      ((ensureVertexRadius sampleGael sampleMesh).1, []) :=
  ⟨((ensureVertexRadius_spec sampleGael sampleMesh).1 rfl).2.2.2,
    (ensureVertexRadius_spec sampleGael (ensureVertexRadius sampleGael sampleMesh).1).2.1
      (ensureVertexRadius_spec sampleGael sampleMesh).2.2.1⟩

/-! ## The document -/

theorem setMesh_ids (md : MeshDocument) (m : MeshModel) :
    (md.setMesh m).meshList.map (fun x => x.id) = md.meshList.map (fun x => x.id) := by
  unfold MeshDocument.setMesh
  simp only [List.map_map]
  apply List.map_congr_left
  intro x _
  simp only [Function.comp]
  split
  · rename_i h; exact h.symm
  · rfl

theorem setMesh_meshIdCounter (md : MeshDocument) (m : MeshModel) :
    (md.setMesh m).meshIdCounter = md.meshIdCounter := rfl

theorem setMesh_current (md : MeshDocument) (m : MeshModel) :
    (md.setMesh m).current = md.current := rfl

theorem getMesh_id (md : MeshDocument) (i : Int) (x : MeshModel)
    (h : md.getMesh i = some x) : x.id = i := by
  unfold MeshDocument.getMesh at h
  have := List.find?_some h
  simpa using this

theorem getMesh_setMesh (md : MeshDocument) (m : MeshModel) (i : Int) (x : MeshModel)
    (h : md.getMesh i = some x) :
    (md.setMesh m).getMesh i = some (if x.id = m.id then m else x) := by
  have hx := getMesh_id md i x h
  unfold MeshDocument.getMesh MeshDocument.setMesh at *
  simp only [List.find?_map]
  have hf : ((fun y : MeshModel => y.id == i) ∘ fun y => if y.id = m.id then m else y) =
      fun y : MeshModel => y.id == i := by
    funext y
    simp only [Function.comp]
    split
    · rename_i hy; rw [hy]
    · rfl
  rw [hf, h]
  rfl

theorem mm_setMesh (md : MeshDocument) (m cur : MeshModel) (h : md.mm = some cur)
    (hid : m.id = cur.id) : (md.setMesh m).mm = some m := by
  unfold MeshDocument.mm at *
  rw [setMesh_current]
  cases hc : md.current with
  | none => rw [hc] at h; simp at h
  | some i =>
    rw [hc] at h
    simp only [Option.bind] at h ⊢
    rw [getMesh_setMesh md m i cur h]
    simp [hid]

theorem preClean_id (host : Host) (m : MeshModel) : (preClean host m).1.id = m.id := rfl

theorem ensureVertexRadius_id (gael : Gael) (m : MeshModel) :
    (ensureVertexRadius gael m).1.id = m.id := by
  unfold ensureVertexRadius
  split
  · exact updateDataMask_id m _
  · rfl

/-! ## The marching-cubes workflow -/

theorem mcubeProjection_invariant (mls : MlsSurface) (cm : CMeshO) (n : Nat)
    (hn : n ≤ cm.vert.length) :
    forLoop n (mcubeProjectionStep mls) (cm, []) =
      ({ cm with vert := (cm.vert.take n).map (projectVertex mls) ++ cm.vert.drop n },
        (List.range n).flatMap (fun i =>
          [Event.cb (percent i cm.vert.length) Msg.mlsProjection, Event.project i])) := by
  induction n with
  | zero => simp [forLoop_zero]
  | succ n ih =>
    have hlt : n < cm.vert.length := hn
    rw [forLoop_succ, ih (Nat.le_of_lt hlt)]
    have hget : cm.vert[n]? = some cm.vert[n] := List.getElem?_eq_getElem hlt
    have hdrop : cm.vert.drop n = cm.vert[n] :: cm.vert.drop (n + 1) :=
      List.drop_eq_getElem_cons hlt
    have htake : cm.vert.take (n + 1) = cm.vert.take n ++ [cm.vert[n]] := by
      rw [List.take_succ, hget]; rfl
    have hlen : ((cm.vert.take n).map (projectVertex mls)).length = n := by
      simp [Nat.min_eq_left (Nat.le_of_lt hlt)]
    have hmod : modifyVert (projectVertex mls) n
        ((cm.vert.take n).map (projectVertex mls) ++ cm.vert.drop n) =
        (cm.vert.take n).map (projectVertex mls)
          ++ projectVertex mls cm.vert[n] :: cm.vert.drop (n + 1) := by
      rw [hdrop]
      have := modifyVert_append (projectVertex mls)
        ((cm.vert.take n).map (projectVertex mls)) cm.vert[n] (cm.vert.drop (n + 1))
      rw [hlen] at this
      exact this
    have hsz : ((cm.vert.take n).map (projectVertex mls) ++ cm.vert.drop n).length =
        cm.vert.length := by
      simp; omega
    simp only [mcubeProjectionStep, hmod, hsz, List.range_succ, List.flatMap_append,
      List.flatMap_singleton, htake, List.map_append, List.map_cons, List.map_nil]
    simp [List.append_assoc]

theorem mcubeProjection_eq (mls : MlsSurface) (cm : CMeshO) :
    mcubeProjection mls cm =
      ({ cm with vert := cm.vert.map (projectVertex mls) },
        (List.range cm.vert.length).flatMap (fun i =>
          [Event.cb (percent i cm.vert.length) Msg.mlsProjection, Event.project i])) := by
  unfold mcubeProjection
  rw [mcubeProjection_invariant mls cm cm.vert.length (Nat.le_refl _)]
  simp

/-- The ids of the meshes after the marching-cubes branch, its new id and the
shape of its trace. -/
theorem marchingCubes_spec (host : Host) (mls : MlsSurface) (par : RichParameterList)
    (md : MeshDocument) (cb : CallBackPos) :
    (marchingCubes host mls par md cb).1.meshList.map (fun x => x.id) =
      md.meshList.map (fun x => x.id) ++ [md.meshIdCounter] ∧
    (marchingCubes host mls par md cb).2.1 = md.meshIdCounter ∧
    (marchingCubes host mls par md cb).2.2 =
      [Event.addNewMesh md.meshIdCounter, Event.BuildMesh par.Resolution] ++
        (List.range (host.BuildMesh ⟨[], []⟩ mls par.Resolution cb).vert.length).flatMap
          (fun i => [Event.cb (percent i
            (host.BuildMesh ⟨[], []⟩ mls par.Resolution cb).vert.length) Msg.mlsProjection,
            Event.project i]) ++
        [Event.updateDataMask Mask.MM_FACEFACETOPO, Event.Select, Event.DeleteFaceVert,
          Event.log Msg.marchingCubesDone] := by
  unfold marchingCubes
  refine ⟨?_, rfl, ?_⟩
  · rw [setMesh_ids]
    simp [MeshDocument.addNewMesh]
  · simp [mcubeProjection_eq, MeshDocument.addNewMesh]

theorem getMesh_of_mm (md : MeshDocument) (x : MeshModel) (h : md.mm = some x) :
    md.getMesh x.id = some x := by
  unfold MeshDocument.mm at h
  cases hc : md.current with
  | none => rw [hc] at h; simp at h
  | some i =>
    rw [hc] at h
    simp only [Option.bind] at h
    rw [getMesh_id md i x h]
    exact h

/-- A run of `applyFilter` with a marching-cubes id on a document that has a
current mesh: it ends without fault, returns the empty map, leaves the ids of the
document followed by the id of the new mesh, and its trace ends with the trace of
the marching-cubes branch. -/
theorem applyFilter_mcube (env : Env) (id : FilterId) (par : RichParameterList)
    (md : MeshDocument) (cb : CallBackPos) (cur : MeshModel)
    (hid : id.MCUBE = true) (hmm : md.mm = some cur) :
    ∃ (mls : MlsSurface) (md1 : MeshDocument),
      md1.meshIdCounter = md.meshIdCounter ∧
      (applyFilter env id par md cb).fault = none ∧
      (applyFilter env id par md cb).outValues = [] ∧
      (applyFilter env id par md cb).md.meshList.map (fun x => x.id) =
        md.meshList.map (fun x => x.id) ++ [md.meshIdCounter] ∧
      (applyFilter env id par md cb).trace =
        (preClean env.host cur).2 ++ (ensureVertexRadius env.gael (preClean env.host cur).1).2
          ++ [Event.cb 1 Msg.createMls] ++ (marchingCubes env.host mls par md1 cb).2.2 := by
  have hmm1 : (md.setMesh (ensureVertexRadius env.gael (preClean env.host cur).1).1).mm =
      some (ensureVertexRadius env.gael (preClean env.host cur).1).1 :=
    mm_setMesh md _ cur hmm (by rw [ensureVertexRadius_id, preClean_id])
  have hget1 := getMesh_of_mm _ _ hmm1
  have hids1 := setMesh_ids md (ensureVertexRadius env.gael (preClean env.host cur).1).1
  set c2 := ensureVertexRadius env.gael (preClean env.host cur).1 with hc2
  set md1 := md.setMesh c2.1 with hmd1
  have hcount : md1.meshIdCounter = md.meshIdCounter := rfl
  have hfin : ∀ (mls : MlsSurface) (apss : Option (Point3m → Scalarm)) (hP : id.PROJECTION = false)
      (hC : id.COLORIZE = false),
      (runBranch env id par md1 cb c2.1.id mls apss).fault = none ∧
      (runBranch env id par md1 cb c2.1.id mls apss).outValues = [] ∧
      (runBranch env id par md1 cb c2.1.id mls apss).md.meshList.map (fun x => x.id) =
        md.meshList.map (fun x => x.id) ++ [md.meshIdCounter] ∧
      (runBranch env id par md1 cb c2.1.id mls apss).trace =
        (marchingCubes env.host mls par md1 cb).2.2 := by
    intro mls apss hP hC
    obtain ⟨hm1, _, _⟩ := marchingCubes_spec env.host mls par md1 cb
    simp only [runBranch, hP, hC, hid, if_true, if_false, Bool.false_and, List.append_nil,
      Bool.false_eq_true]
    refine ⟨trivial, trivial, ?_, trivial⟩
    rw [← hids1, ← hcount, ← hm1]
    split
    · rw [setMesh_ids]
    · rfl
  cases id <;> simp [FilterId.MCUBE] at hid
  · obtain ⟨h1, h2, h3, h4⟩ := hfin (env.gael.newRIMLS c2.1.cm
      (par.FilterScale, par.MaxProjectionIters, par.ProjectionAccuracy)
      (par.MaxRefittingIters, par.SigmaN)) none rfl rfl
    refine ⟨env.gael.newRIMLS c2.1.cm
      (par.FilterScale, par.MaxProjectionIters, par.ProjectionAccuracy)
      (par.MaxRefittingIters, par.SigmaN), md1, hcount, ?_, ?_, ?_, ?_⟩ <;>
      simp [applyFilter, applyMls, hmm, ← hc2, ← hmd1, selectPoints, FilterId.PROJECTION, hmm1,
        hget1, createMls, FilterId.RIMLS, h1, h2, h3, h4]
  · obtain ⟨h1, h2, h3, h4⟩ := hfin (env.gael.newAPSS c2.1.cm
      (par.FilterScale, par.MaxProjectionIters, par.ProjectionAccuracy)
      (par.SphericalParameter, some par.AccurateNormal)).1
      (some (env.gael.newAPSS c2.1.cm
      (par.FilterScale, par.MaxProjectionIters, par.ProjectionAccuracy)
      (par.SphericalParameter, some par.AccurateNormal)).2) rfl rfl
    refine ⟨(env.gael.newAPSS c2.1.cm
      (par.FilterScale, par.MaxProjectionIters, par.ProjectionAccuracy)
      (par.SphericalParameter, some par.AccurateNormal)).1, md1, hcount, ?_, ?_, ?_, ?_⟩ <;>
      simp [applyFilter, applyMls, hmm, ← hc2, ← hmd1, selectPoints, FilterId.PROJECTION, hmm1,
        hget1, createMls, FilterId.RIMLS, FilterId.APSS, FilterId.COLORIZE, h1, h2, h3, h4]

theorem sampleDoc_mm : sampleDoc.mm = some sampleMesh := by
  simp [MeshDocument.mm, MeshDocument.getMesh, sampleDoc, sampleMesh]

theorem preClean_trace_log (host : Host) (m : MeshModel) (e : Event)
    (h : e ∈ (preClean host m).2) : ∃ d : Int, e = Event.log (Msg.removedUnreferenced d) := by
  unfold preClean at h
  simp only at h
  split at h
  · split at h
    · exact ⟨_, by simpa using h⟩
    · simp at h
  · simp at h

theorem ensureVertexRadius_trace_mem (gael : Gael) (m : MeshModel) (e : Event)
    (h : e ∈ (ensureVertexRadius gael m).2) :
    e = Event.updateDataMask Mask.MM_VERTRADIUS ∨
      e = Event.computeVertexRaddi defaultNbNeighbors ∨ e = Event.log Msg.noVertexRadius := by
  unfold ensureVertexRadius at h
  split at h
  · simpa using h
  · simp at h

/-- C8 (as the code has it): the resolution is not validated. For every value of
`Resolution`, a marching-cubes run on a document with a current mesh adds the new
mesh to the document, runs the walker with that very resolution and ends without
fault. -/
theorem applyFilter_mcube_any_resolution (env : Env) (id : FilterId)
    (par : RichParameterList) (md : MeshDocument) (cb : CallBackPos) (cur : MeshModel)
    (hid : id.MCUBE = true) (hmm : md.mm = some cur) :
    (applyFilter env id par md cb).fault = none ∧
    Event.addNewMesh md.meshIdCounter ∈ (applyFilter env id par md cb).trace ∧
    Event.BuildMesh par.Resolution ∈ (applyFilter env id par md cb).trace ∧
    (applyFilter env id par md cb).md.meshList.length = md.meshList.length + 1 := by
  obtain ⟨mls, md1, hcount, hf, _, hids, htr⟩ := applyFilter_mcube env id par md cb cur hid hmm
  obtain ⟨_, _, hmc⟩ := marchingCubes_spec env.host mls par md1 cb
  rw [hmc, hcount] at htr
  refine ⟨hf, ?_, ?_, ?_⟩
  · rw [htr]; simp
  · rw [htr]; simp
  · have := congrArg List.length hids
    simpa using this

/-- C8 at a concrete input: the RIMLS marching cubes on the sample document with
the resolution 0. -/
theorem applyFilter_mcube_any_resolution_witness :
    (applyFilter sampleEnv FilterId.FP_RIMLS_MCUBE (samplePar 0) sampleDoc cbContinue).fault =
      none ∧
    Event.addNewMesh sampleDoc.meshIdCounter ∈
      (applyFilter sampleEnv FilterId.FP_RIMLS_MCUBE (samplePar 0) sampleDoc cbContinue).trace ∧
    Event.BuildMesh (samplePar 0).Resolution ∈
      (applyFilter sampleEnv FilterId.FP_RIMLS_MCUBE (samplePar 0) sampleDoc cbContinue).trace ∧
    (applyFilter sampleEnv FilterId.FP_RIMLS_MCUBE (samplePar 0) sampleDoc
        cbContinue).md.meshList.length = sampleDoc.meshList.length + 1 :=
  applyFilter_mcube_any_resolution sampleEnv FilterId.FP_RIMLS_MCUBE (samplePar 0) sampleDoc
    cbContinue sampleMesh rfl sampleDoc_mm

/-- C8 fails as stated: with `Resolution = 1`, which is below 2, the APSS marching
cubes on the sample document does not fail: it adds the mesh of id 1 to the
document and runs the walker with the resolution 1. -/
theorem applyFilter_mcube_resolution_one :
    (samplePar 1).Resolution < 2 ∧
    (applyFilter sampleEnv FilterId.FP_APSS_MCUBE (samplePar 1) sampleDoc cbContinue).fault =
      none ∧
    (applyFilter sampleEnv FilterId.FP_APSS_MCUBE (samplePar 1) sampleDoc
        cbContinue).md.meshList.map (fun x => x.id) = [0, 1] ∧
    Event.BuildMesh 1 ∈
      (applyFilter sampleEnv FilterId.FP_APSS_MCUBE (samplePar 1) sampleDoc cbContinue).trace := by
  obtain ⟨mls, md1, _, hf, _, hids, htr⟩ := applyFilter_mcube sampleEnv FilterId.FP_APSS_MCUBE
    (samplePar 1) sampleDoc cbContinue sampleMesh rfl sampleDoc_mm
  obtain ⟨_, _, hmc⟩ := marchingCubes_spec sampleEnv.host mls (samplePar 1) md1 cbContinue
  rw [hmc] at htr
  refine ⟨by decide, hf, by rw [hids]; rfl, ?_⟩
  rw [htr]
  simp [samplePar]

/-! ## Small components -/

theorem le_foldr_max (L : List Nat) (x : Nat) (h : x ∈ L) : x ≤ L.foldr max 0 := by
  induction L with
  | nil => simp at h
  | cons a L ih =>
    simp only [List.foldr_cons]
    rcases List.mem_cons.mp h with h1 | h1
    · rw [h1]; exact Nat.le_max_left _ _
    · exact Nat.le_trans (ih h1) (Nat.le_max_right _ _)

theorem foldr_max_le (L : List Nat) (k : Nat) (h : ∀ x ∈ L, x ≤ k) : L.foldr max 0 ≤ k := by
  induction L with
  | nil => simp
  | cons a L ih =>
    simp only [List.foldr_cons]
    exact Nat.max_le.mpr ⟨h a (List.mem_cons_self _ _),
      ih (fun x hx => h x (List.mem_cons_of_mem _ hx))⟩

namespace SmallComponent

theorem faceCount_succ (comp : Nat → Nat) (n c : Nat) :
    faceCount comp (n + 1) c = faceCount comp n c + (if comp n = c then 1 else 0) := by
  unfold faceCount
  rw [List.range_succ, List.filter_append, List.length_append]
  by_cases h : comp n = c <;> simp [h]

theorem faceCount_pos (comp : Nat → Nat) (n j : Nat) (h : j < n) :
    0 < faceCount comp n (comp j) := by
  unfold faceCount
  apply List.length_pos_of_mem (a := j)
  simp [h]

theorem le_largest (comp : Nat → Nat) (n j : Nat) (h : j < n) :
    faceCount comp n (comp j) ≤ largest comp n := by
  unfold largest
  apply le_foldr_max
  exact List.mem_map.mpr ⟨j, List.mem_range.mpr h, rfl⟩

theorem largest_le (comp : Nat → Nat) (n k : Nat)
    (h : ∀ j, j < n → faceCount comp n (comp j) ≤ k) : largest comp n ≤ k := by
  unfold largest
  apply foldr_max_le
  intro x hx
  obtain ⟨j, hj, rfl⟩ := List.mem_map.mp hx
  exact h j (List.mem_range.mp hj)

theorem Select_face (comp : Nat → Nat) (closed : Nat → Bool) (m : CMeshO) (ratio : ℚ)
    (nonClosedOnly : Bool) (j : Nat) (f : FaceType) (h : m.face[j]? = some f) :
    (Select comp closed m ratio nonClosedOnly).face[j]? =
      some { f with IsS := isSmall comp m.face.length ratio j &&
        !(nonClosedOnly && closed (comp j)) } := by
  obtain ⟨hj, hx⟩ := List.getElem?_eq_some_iff.mp h
  simp [Select, List.getElem?_map, List.getElem?_zip_eq_some, h, hj, hx]

theorem cleanup_face (comp : Nat → Nat) (closed : Nat → Bool) (m : CMeshO) (ratio : ℚ)
    (j : Nat) (f : FaceType) (h : m.face[j]? = some f) :
    (DeleteFaceVert (Select comp closed m ratio false)).face[j]? =
      some { f with IsS := isSmall comp m.face.length ratio j,
                    IsD := f.IsD || isSmall comp m.face.length ratio j } := by
  unfold DeleteFaceVert
  simp [List.getElem?_map, Select_face comp closed m ratio false j f h]

/-- The face counts of a labelling made of a block of `a` faces of the component 0
followed by faces of the component 1. -/
theorem faceCount_two_blocks (comp : Nat → Nat) (a : Nat)
    (hc : ∀ j, comp j = if j < a then 0 else 1) (b : Nat) :
    faceCount comp (a + b) 0 = a ∧ faceCount comp (a + b) 1 = b := by
  have hbase : ∀ n, n ≤ a → faceCount comp n 0 = n ∧ faceCount comp n 1 = 0 := by
    intro n
    induction n with
    | zero => intro _; simp [faceCount]
    | succ n ih =>
      intro hn
      obtain ⟨h0, h1⟩ := ih (by omega)
      have hlt : n < a := by omega
      rw [faceCount_succ, faceCount_succ, h0, h1, hc n]
      simp [hlt]
  induction b with
  | zero => simpa using hbase a (Nat.le_refl a)
  | succ b ih =>
    obtain ⟨h0, h1⟩ := ih
    have hge : ¬ a + b < a := by omega
    rw [← Nat.add_assoc, faceCount_succ, faceCount_succ, h0, h1, hc (a + b)]
    simp [hge]

end SmallComponent

/-- C6 (against the cleanup modelled from the spec): after `Select` with the
ratio `0.1` followed by `DeleteFaceVert`, every face of a component whose face
count is below `0.1` times the face count of the largest component is flagged
deleted; every face of a component as large as the largest one is kept as it was
(not selected, deletion flag untouched); and in a mesh of 1050 faces made of a
component of 1000 faces followed by a component of 50 faces, exactly the faces of
the second component become deleted. -/
theorem smallComponent_cleanup (comp : Nat → Nat) (closed : Nat → Bool) (m : CMeshO) :
    (∀ (j : Nat) (f : FaceType), m.face[j]? = some f →
      (SmallComponent.faceCount comp m.face.length (comp j) : ℚ) <
          1 / 10 * (SmallComponent.largest comp m.face.length : ℚ) →
      ∃ g : FaceType,
        (SmallComponent.DeleteFaceVert
          (SmallComponent.Select comp closed m (1 / 10) false)).face[j]? = some g ∧
        g.IsD = true) ∧
    (∀ (j : Nat) (f : FaceType), m.face[j]? = some f →
      SmallComponent.faceCount comp m.face.length (comp j) =
          SmallComponent.largest comp m.face.length →
      (SmallComponent.DeleteFaceVert
        (SmallComponent.Select comp closed m (1 / 10) false)).face[j]? =
          some { f with IsS := false }) ∧
    (m.face.length = 1050 → (∀ j, comp j = if j < 1000 then 0 else 1) →
      ∀ (j : Nat) (f : FaceType), m.face[j]? = some f →
        ∃ g : FaceType,
          (SmallComponent.DeleteFaceVert
            (SmallComponent.Select comp closed m (1 / 10) false)).face[j]? = some g ∧
          g.IsD = (f.IsD || decide (1000 ≤ j))) := by
  refine ⟨?_, ?_, ?_⟩
  · intro j f hf hsmall
    have hj : j < m.face.length := (List.getElem?_eq_some_iff.mp hf).1
    have hpos : (0 : ℚ) < (SmallComponent.largest comp m.face.length : ℚ) := by
      have h1 := SmallComponent.faceCount_pos comp m.face.length j hj
      have h2 := SmallComponent.le_largest comp m.face.length j hj
      exact_mod_cast Nat.lt_of_lt_of_le h1 h2
    have hs : SmallComponent.isSmall comp m.face.length (1 / 10) j = true := by
      unfold SmallComponent.isSmall
      rw [decide_eq_true_iff, div_lt_iff₀ hpos]
      exact hsmall
    refine ⟨_, SmallComponent.cleanup_face comp closed m (1 / 10) j f hf, ?_⟩
    show (f.IsD || SmallComponent.isSmall comp m.face.length (1 / 10) j) = true
    rw [hs, Bool.or_true]
  · intro j f hf hlarge
    have hj : j < m.face.length := (List.getElem?_eq_some_iff.mp hf).1
    have hpos : 0 < SmallComponent.largest comp m.face.length := by
      rw [← hlarge]
      exact SmallComponent.faceCount_pos comp m.face.length j hj
    have hs : SmallComponent.isSmall comp m.face.length (1 / 10) j = false := by
      unfold SmallComponent.isSmall
      rw [decide_eq_false_iff_not, hlarge, div_self (by exact_mod_cast hpos.ne')]
      norm_num
    rw [SmallComponent.cleanup_face comp closed m (1 / 10) j f hf, hs, Bool.or_false]
  · intro hlen hc j f hf
    have hj : j < 1050 := by
      have := (List.getElem?_eq_some_iff.mp hf).1
      omega
    obtain ⟨h0, h1⟩ := SmallComponent.faceCount_two_blocks comp 1000 hc 50
    have hcount : ∀ i, SmallComponent.faceCount comp 1050 (comp i) =
        if i < 1000 then 1000 else 50 := by
      intro i
      rw [hc i]
      split
      · exact h0
      · exact h1
    have hlargest : SmallComponent.largest comp 1050 = 1000 := by
      apply Nat.le_antisymm
      · apply SmallComponent.largest_le
        intro i _
        rw [hcount i]
        split <;> omega
      · have := SmallComponent.le_largest comp 1050 0 (by omega)
        rw [hcount 0] at this
        simpa using this
    have hs : SmallComponent.isSmall comp m.face.length (1 / 10) j = decide (1000 ≤ j) := by
      unfold SmallComponent.isSmall
      rw [hlen, hlargest, hcount j]
      by_cases hlt : j < 1000
      · have hge : ¬ 1000 ≤ j := by omega
        simp only [hlt, if_true, hge, decide_False, decide_eq_false_iff_not]
        norm_num
      · have hge : 1000 ≤ j := by omega
        simp only [hlt, if_false, hge, decide_True, decide_eq_true_iff]
        norm_num
    refine ⟨_, SmallComponent.cleanup_face comp closed m (1 / 10) j f hf, ?_⟩
    show (f.IsD || SmallComponent.isSmall comp m.face.length (1 / 10) j) =
      (f.IsD || decide (1000 ≤ j))
    rw [hs]

/-- C6 at a concrete input: in the mesh of 1050 faces, the face 1049 of the small
component is deleted and the face 0 of the large component is not. -/
theorem smallComponent_cleanup_witness :
    (∃ g : FaceType,
      (SmallComponent.DeleteFaceVert (SmallComponent.Select twoComponents (fun _ => false)
        twoComponentMesh (1 / 10) false)).face[1049]? = some g ∧
      g.IsD = ((sampleFace ⟨0, 0, 1⟩).IsD || decide (1000 ≤ 1049))) ∧
    (∃ g : FaceType,
      (SmallComponent.DeleteFaceVert (SmallComponent.Select twoComponents (fun _ => false)
        twoComponentMesh (1 / 10) false)).face[0]? = some g ∧
      g.IsD = ((sampleFace ⟨0, 0, 1⟩).IsD || decide (1000 ≤ 0))) :=
  ⟨(smallComponent_cleanup twoComponents (fun _ => false) twoComponentMesh).2.2
      (by simp only [twoComponentMesh, List.length_replicate]) (fun _ => rfl) 1049
      (sampleFace ⟨0, 0, 1⟩)
      (by simp only [twoComponentMesh, List.getElem?_replicate]; exact if_pos (by decide)),
    (smallComponent_cleanup twoComponents (fun _ => false) twoComponentMesh).2.2
      (by simp only [twoComponentMesh, List.length_replicate]) (fun _ => rfl) 0
      (sampleFace ⟨0, 0, 1⟩)
      (by simp only [twoComponentMesh, List.getElem?_replicate]; exact if_pos (by decide))⟩

/-! ## The percentage of the per-vertex loops -/

theorem percent_bounds (n i : Nat) (hi : i < n) : 1 ≤ percent i n ∧ percent i n ≤ 98 := by
  unfold percent
  have hmod : (98 * i) % 2 ^ 32 ≤ 98 * i := Nat.mod_le _ _
  have hlt : (98 * i) % 2 ^ 32 < 98 * n := by omega
  have hdiv : (98 * i) % 2 ^ 32 / n < 98 := (Nat.div_lt_iff_lt_mul (by omega)).mpr hlt
  generalize (98 * i) % 2 ^ 32 / n = q at hdiv
  omega

theorem colorizeVertex_cb (mls : MlsSurface) (apss : Option (Point3m → Scalarm))
    (lib : ColorizeLib) (selectionOnly : Bool) (ct : Int) (cm : CMeshO) (i : Nat)
    (p : Nat) (msg : Msg)
    (h : Event.cb p msg ∈ (colorizeVertex mls apss lib selectionOnly ct cm i).trace) :
    p = percent i cm.vert.length := by
  cases hv : cm.vert[i]? with
  | none =>
    rw [colorizeVertex_out_of_range mls apss lib selectionOnly ct cm i hv] at h
    simp at h
    exact h.1
  | some v0 =>
    by_cases hp : ((!selectionOnly) || v0.IsS) = true
    · by_cases hct : ct = CT_APSS
      · cases apss with
        | none =>
          rw [colorizeVertex_apss_null mls lib selectionOnly ct cm i v0 hv hp hct] at h
          simp at h
          exact h.1
        | some a =>
          rw [colorizeVertex_apss mls a lib selectionOnly ct cm i v0 hv hp hct] at h
          simp at h
          exact h.1
      · by_cases hg : gradientValid mls lib (mls.gradient (mls.project v0.P)) = true
        · cases hs : selectCurvature ct (lib.WeingartenMap
              (mls.gradient (mls.project v0.P)).1 (mls.hessian (mls.project v0.P))) with
          | none =>
            rw [colorizeVertex_invalid_type mls apss lib selectionOnly ct cm i v0 hv hp hct
              hg hs] at h
            simp at h
            exact h.1
          | some c =>
            by_cases hn : c.IsNAN = true
            · rw [colorizeVertex_nan mls apss lib selectionOnly ct cm i v0 c hv hp hct hg hs
                hn] at h
              simp at h
              exact h.1
            · rw [colorizeVertex_written mls apss lib selectionOnly ct cm i v0 c hv hp hct hg
                hs hn] at h
              simp at h
              exact h.1
        · rw [colorizeVertex_degenerate mls apss lib selectionOnly ct cm i v0 hv hp hct hg] at h
          simp at h
          exact h.1
    · rw [colorizeVertex_skipped mls apss lib selectionOnly ct cm i v0 hv hp] at h
      simp at h
      exact h.1

theorem sweepEvents_cb (selectionOnly : Bool) (cm : CMeshO) (p : Nat) (msg : Msg)
    (h : Event.cb p msg ∈ sweepEvents selectionOnly cm) :
    ∃ i, i < cm.vert.length ∧ p = percent i cm.vert.length := by
  simp only [sweepEvents, List.mem_flatMap, List.mem_range, sweepEventsAt] at h
  obtain ⟨i, hi, hmem⟩ := h
  refine ⟨i, hi, ?_⟩
  rcases List.mem_cons.mp hmem with h1 | h1
  · injection h1
  · split at h1
    · split at h1 <;> simp at h1
    · simp at h1

theorem colorizePass1_cb (mls : MlsSurface) (apss : Option (Point3m → Scalarm))
    (lib : ColorizeLib) (selectionOnly : Bool) (ct : Int) (cm : CMeshO) (n : Nat)
    (p : Nat) (msg : Msg)
    (h : Event.cb p msg ∈
      (forLoop n (colorizeStep mls apss lib selectionOnly ct) ⟨cm, [], none⟩).trace) :
    ∃ i, i < n ∧ p = percent i cm.vert.length := by
  induction n with
  | zero => rw [forLoop_zero] at h; simp at h
  | succ n ih =>
    rw [forLoop_succ] at h
    have hlen := (colorizePass1_invariant mls apss lib selectionOnly ct cm n).1
    generalize forLoop n (colorizeStep mls apss lib selectionOnly ct) ⟨cm, [], none⟩ = s
      at ih h hlen
    unfold colorizeStep at h
    cases hf : s.fault with
    | some f =>
      rw [hf] at h
      obtain ⟨i, hi, hpi⟩ := ih h
      exact ⟨i, by omega, hpi⟩
    | none =>
      rw [hf] at h
      simp only [List.mem_append] at h
      rcases h with h1 | h1
      · obtain ⟨i, hi, hpi⟩ := ih h1
        exact ⟨i, by omega, hpi⟩
      · refine ⟨n, by omega, ?_⟩
        rw [← hlen]
        exact colorizeVertex_cb mls apss lib selectionOnly ct s.cm n p msg h1

/-- C18: for every vertex count `n >= 1` and every index `i < n`, the percentage
`1 + 98*i/n`, with the product reduced modulo `2 ^ 32` and a truncating division,
lies between 1 and 98; and so does every percentage that the projection sweep,
the accurate projection of the marching cubes and pass 1 of the colorize
workflow hand to the callback. -/
theorem percent_range :
    (∀ n i : Nat, 1 ≤ n → i < n → 1 ≤ percent i n ∧ percent i n ≤ 98) ∧
    (∀ (mls : MlsSurface) (selectionOnly : Bool) (cm : CMeshO) (p : Nat) (msg : Msg),
      Event.cb p msg ∈ (projectionSweep mls selectionOnly cm).2 → 1 ≤ p ∧ p ≤ 98) ∧
    (∀ (mls : MlsSurface) (cm : CMeshO) (p : Nat) (msg : Msg),
      Event.cb p msg ∈ (mcubeProjection mls cm).2 → 1 ≤ p ∧ p ≤ 98) ∧
    (∀ (mls : MlsSurface) (apss : Option (Point3m → Scalarm)) (lib : ColorizeLib)
        (selectionOnly : Bool) (ct : Int) (cm : CMeshO) (p : Nat) (msg : Msg),
      Event.cb p msg ∈ (colorizePass1 mls apss lib selectionOnly ct cm).trace →
        1 ≤ p ∧ p ≤ 98) := by
  refine ⟨fun n i _ hi => percent_bounds n i hi, ?_, ?_, ?_⟩
  · intro mls selectionOnly cm p msg h
    rw [projectionSweep_eq] at h
    obtain ⟨i, hi, hp⟩ := sweepEvents_cb selectionOnly cm p msg h
    rw [hp]
    exact percent_bounds _ i hi
  · intro mls cm p msg h
    rw [mcubeProjection_eq] at h
    simp only [List.mem_flatMap, List.mem_range] at h
    obtain ⟨i, hi, hmem⟩ := h
    simp at hmem
    rw [hmem.1]
    exact percent_bounds _ i hi
  · intro mls apss lib selectionOnly ct cm p msg h
    obtain ⟨i, hi, hp⟩ := colorizePass1_cb mls apss lib selectionOnly ct cm cm.vert.length p msg h
    rw [hp]
    exact percent_bounds _ i hi

/-- C18 at concrete inputs: the last index of the largest vertex count for which
the product does not wrap, and an index for which it wraps. -/
theorem percent_range_witness :
    (1 ≤ percent 43826196 43826197 ∧ percent 43826196 43826197 ≤ 98) ∧
    (1 ≤ percent 43826197 50000000 ∧ percent 43826197 50000000 ≤ 98) :=
  ⟨percent_range.1 43826197 43826196 (by decide) (by decide),
    percent_range.1 50000000 43826197 (by decide) (by decide)⟩

/-! ## Pass 1 of the colorize workflow, vertex by vertex -/

theorem modifyVert_congr (f g : VertexType → VertexType) (i : Nat) (l : List VertexType)
    (h : ∀ v, l[i]? = some v → f v = g v) : modifyVert f i l = modifyVert g i l := by
  induction l generalizing i with
  | nil => simp [modifyVert]
  | cons a l ih =>
    cases i with
    | zero => simp [modifyVert, h a (by simp)]
    | succ i =>
      simp only [modifyVert]
      rw [ih i (fun v hv => h v (by simpa using hv))]

theorem modifyVert_self (i : Nat) (l : List VertexType) :
    modifyVert (fun v => v) i l = l := by
  induction l generalizing i with
  | nil => simp [modifyVert]
  | cons a l ih =>
    cases i with
    | zero => simp [modifyVert]
    | succ i => simp [modifyVert, ih]

theorem modifyVert_eq_self (f : VertexType → VertexType) (i : Nat) (l : List VertexType)
    (h : ∀ v, l[i]? = some v → f v = v) : modifyVert f i l = l := by
  rw [modifyVert_congr f (fun v => v) i l h, modifyVert_self]

/-- The mesh and the fault that one iteration of pass 1 leaves, in closed form. -/
theorem colorizeVertex_closed (mls : MlsSurface) (apss : Option (Point3m → Scalarm))
    (lib : ColorizeLib) (selectionOnly : Bool) (ct : Int) (cm : CMeshO) (i : Nat) :
    (colorizeVertex mls apss lib selectionOnly ct cm i).cm =
      { cm with vert := modifyVert (colorizedVertex mls apss lib selectionOnly ct) i cm.vert } ∧
    (colorizeVertex mls apss lib selectionOnly ct cm i).fault =
      (cm.vert[i]?).bind (colorizeFault mls apss lib selectionOnly ct) := by
  cases hv : cm.vert[i]? with
  | none =>
    rw [colorizeVertex_out_of_range mls apss lib selectionOnly ct cm i hv]
    refine ⟨?_, rfl⟩
    rw [modifyVert_eq_self _ i cm.vert (fun v h => by rw [hv] at h; cases h)]
  | some v0 =>
    have hmod : ∀ f : VertexType → VertexType,
        colorizedVertex mls apss lib selectionOnly ct v0 = f v0 →
        modifyVert (colorizedVertex mls apss lib selectionOnly ct) i cm.vert =
          modifyVert f i cm.vert := by
      intro f hf
      apply modifyVert_congr
      intro v h
      rw [hv] at h
      cases h
      exact hf
    by_cases hp : ((!selectionOnly) || v0.IsS) = true
    · have hp1 : selectionOnly = false ∨ v0.IsS = true := by simpa using hp
      by_cases hct : ct = CT_APSS
      · cases apss with
        | none =>
          rw [colorizeVertex_apss_null mls lib selectionOnly ct cm i v0 hv hp hct]
          refine ⟨?_, by simp [colorizeFault, hp1, hct]⟩
          rw [hmod (fun v => v) (by simp [colorizedVertex, hp1, hct]), modifyVert_self]
        | some a =>
          rw [colorizeVertex_apss mls a lib selectionOnly ct cm i v0 hv hp hct]
          refine ⟨?_, by simp [colorizeFault, hp1, hct]⟩
          rw [hmod (setQ (a (mls.project v0.P))) (by simp [colorizedVertex, hp1, hct])]
      · by_cases hg : gradientValid mls lib (mls.gradient (mls.project v0.P)) = true
        · cases hs : selectCurvature ct (lib.WeingartenMap
              (mls.gradient (mls.project v0.P)).1 (mls.hessian (mls.project v0.P))) with
          | none =>
            rw [colorizeVertex_invalid_type mls apss lib selectionOnly ct cm i v0 hv hp hct
              hg hs]
            refine ⟨?_, by simp [colorizeFault, hp1, hct, hg, hs]⟩
            rw [hmod (setCurvature (lib.WeingartenMap (mls.gradient (mls.project v0.P)).1
              (mls.hessian (mls.project v0.P)))) (by simp [colorizedVertex, hp1, hct, hg, hs])]
          | some c =>
            by_cases hn : c.IsNAN = true
            · rw [colorizeVertex_nan mls apss lib selectionOnly ct cm i v0 c hv hp hct hg hs
                hn]
              refine ⟨?_, by simp [colorizeFault, hp1, hct, hg, hs, hn]⟩
              rw [hmod (setCurvature (lib.WeingartenMap (mls.gradient (mls.project v0.P)).1
                (mls.hessian (mls.project v0.P))))
                (by simp [colorizedVertex, hp1, hct, hg, hs, hn])]
            · rw [colorizeVertex_written mls apss lib selectionOnly ct cm i v0 c hv hp hct hg
                hs hn]
              refine ⟨?_, by simp [colorizeFault, hp1, hct, hg, hs, hn]⟩
              rw [modifyVert_modifyVert, hmod (fun v => setQ c (setCurvature (lib.WeingartenMap
                (mls.gradient (mls.project v0.P)).1 (mls.hessian (mls.project v0.P))) v))
                (by simp [colorizedVertex, hp1, hct, hg, hs, hn])]
        · rw [colorizeVertex_degenerate mls apss lib selectionOnly ct cm i v0 hv hp hct hg]
          refine ⟨?_, by simp [colorizeFault, hp1, hct, hg]⟩
          rw [hmod (setQ (Scalarm.fin 0)) (by simp [colorizedVertex, hp1, hct, hg])]
    · have hp1 : selectionOnly = true ∧ v0.IsS = false := by simpa using hp
      rw [colorizeVertex_skipped mls apss lib selectionOnly ct cm i v0 hv hp]
      refine ⟨?_, by simp [colorizeFault, hp1]⟩
      rw [hmod (fun v => v) (by simp [colorizedVertex, hp1]), modifyVert_self]

/-- Pass 1 after `n` iterations, against the mesh it started from: while no fault
has stopped it, the first `n` vertices hold their closed-form update, the others
are untouched and none of the first `n` vertices raises a fault; and a fault that
stopped it is the fault of one of the first `n` vertices. -/
theorem colorizePass1_run (mls : MlsSurface) (apss : Option (Point3m → Scalarm))
    (lib : ColorizeLib) (selectionOnly : Bool) (ct : Int) (cm : CMeshO) (n : Nat)
    (hn : n ≤ cm.vert.length) :
    ((forLoop n (colorizeStep mls apss lib selectionOnly ct) ⟨cm, [], none⟩).fault = none →
      (forLoop n (colorizeStep mls apss lib selectionOnly ct) ⟨cm, [], none⟩).cm =
        { cm with vert := (cm.vert.take n).map (colorizedVertex mls apss lib selectionOnly ct)
                            ++ cm.vert.drop n } ∧
      ∀ (j : Nat) (v : VertexType), j < n → cm.vert[j]? = some v →
        colorizeFault mls apss lib selectionOnly ct v = none) ∧
    (∀ f : Fault,
      (forLoop n (colorizeStep mls apss lib selectionOnly ct) ⟨cm, [], none⟩).fault = some f →
      ∃ (j : Nat) (v : VertexType), j < n ∧ cm.vert[j]? = some v ∧
        colorizeFault mls apss lib selectionOnly ct v = some f) := by
  induction n with
  | zero =>
    rw [forLoop_zero]
    refine ⟨fun _ => ⟨by simp, fun j v hj => absurd hj (Nat.not_lt_zero j)⟩, ?_⟩
    intro f hf
    cases hf
  | succ n ih =>
    have hlt : n < cm.vert.length := hn
    obtain ⟨ih1, ih2⟩ := ih (Nat.le_of_lt hlt)
    rw [forLoop_succ]
    generalize forLoop n (colorizeStep mls apss lib selectionOnly ct) ⟨cm, [], none⟩ = s
      at ih1 ih2 ⊢
    unfold colorizeStep
    cases hf : s.fault with
    | some f0 =>
      refine ⟨fun h => ?_, fun f h => ?_⟩
      · simp only at h
        rw [hf] at h
        cases h
      · simp only at h
        obtain ⟨j, v, hj, hv, hfv⟩ := ih2 f h
        exact ⟨j, v, by omega, hv, hfv⟩
    | none =>
      obtain ⟨hcm, hnf⟩ := ih1 hf
      obtain ⟨hc1, hc2⟩ := colorizeVertex_closed mls apss lib selectionOnly ct s.cm n
      have hget : cm.vert[n]? = some cm.vert[n] := List.getElem?_eq_getElem hlt
      have hdrop : cm.vert.drop n = cm.vert[n] :: cm.vert.drop (n + 1) :=
        List.drop_eq_getElem_cons hlt
      have htake : cm.vert.take (n + 1) = cm.vert.take n ++ [cm.vert[n]] := by
        rw [List.take_succ, hget]; rfl
      have hlen : ((cm.vert.take n).map
          (colorizedVertex mls apss lib selectionOnly ct)).length = n := by
        simp [Nat.min_eq_left (Nat.le_of_lt hlt)]
      have hcur : s.cm.vert[n]? = some cm.vert[n] := by
        rw [hcm]
        simp only
        rw [List.getElem?_append_right (by omega), hlen, hdrop]
        simp
      have hfault : (colorizeVertex mls apss lib selectionOnly ct s.cm n).fault =
          colorizeFault mls apss lib selectionOnly ct cm.vert[n] := by
        rw [hc2, hcur]; rfl
      simp only
      refine ⟨fun h => ⟨?_, ?_⟩, fun f h => ?_⟩
      · rw [hc1, hcm]
        simp only [htake, List.map_append, List.map_cons, List.map_nil]
        rw [hdrop]
        have := modifyVert_append (colorizedVertex mls apss lib selectionOnly ct)
          ((cm.vert.take n).map (colorizedVertex mls apss lib selectionOnly ct)) cm.vert[n]
          (cm.vert.drop (n + 1))
        rw [hlen] at this
        rw [this]
        simp [List.append_assoc]
      · intro j v hj hv
        by_cases hjn : j = n
        · subst hjn
          rw [hget] at hv
          cases hv
          rw [← hfault]
          exact h
        · exact hnf j v (by omega) hv
      · exact ⟨n, cm.vert[n], by omega, hget, by rw [← hfault]; exact h⟩

/-- A pass 1 that runs to its end leaves in every vertex its closed-form update,
and no vertex raised a fault. -/
theorem colorizePass1_complete (mls : MlsSurface) (apss : Option (Point3m → Scalarm))
    (lib : ColorizeLib) (selectionOnly : Bool) (ct : Int) (cm : CMeshO)
    (h : (colorizePass1 mls apss lib selectionOnly ct cm).fault = none) :
    (colorizePass1 mls apss lib selectionOnly ct cm).cm =
      { cm with vert := cm.vert.map (colorizedVertex mls apss lib selectionOnly ct) } ∧
    ∀ (j : Nat) (v : VertexType), cm.vert[j]? = some v →
      colorizeFault mls apss lib selectionOnly ct v = none := by
  unfold colorizePass1 at h ⊢
  obtain ⟨hcm, hnf⟩ :=
    (colorizePass1_run mls apss lib selectionOnly ct cm cm.vert.length (Nat.le_refl _)).1 h
  refine ⟨by rw [hcm]; simp, fun j v hv => hnf j v (List.getElem?_eq_some_iff.mp hv).1 hv⟩

/-- C17: in the colorize workflow with a curvature type among mean, Gauss, K1 and
K2, the iteration that visits a processed vertex whose gradient is degenerate
(error mask different from `MLS_OK`, or norm at most `1e-8`) raises no fault and
leaves the vertex with the quality exactly 0 and every other attribute, K1, K2,
PD1 and PD2 included, as it was; and that is the vertex a pass 1 that runs to its
end leaves. -/
theorem colorize_degenerate_gradient (mls : MlsSurface) (apss : Option (Point3m → Scalarm))
    (lib : ColorizeLib) (selectionOnly : Bool) (ct : Int) (cm : CMeshO) (i : Nat)
    (v : VertexType)
    (hct : ct = CT_MEAN ∨ ct = CT_GAUSS ∨ ct = CT_K1 ∨ ct = CT_K2)
    (hv : cm.vert[i]? = some v) (hp : ((!selectionOnly) || v.IsS) = true)
    (hdeg : (mls.gradient (mls.project v.P)).2 ≠ mls.MLS_OK ∨
      lib.Norm (mls.gradient (mls.project v.P)).1 ≤ 1 / 10 ^ 8) :
    (colorizeVertex mls apss lib selectionOnly ct cm i).fault = none ∧
    (colorizeVertex mls apss lib selectionOnly ct cm i).cm.vert[i]? =
      some { v with Q := Scalarm.fin 0 } ∧
    ((colorizePass1 mls apss lib selectionOnly ct cm).fault = none →
      (colorizePass1 mls apss lib selectionOnly ct cm).cm.vert[i]? =
        some { v with Q := Scalarm.fin 0 }) := by
  have hne : ¬ ct = CT_APSS := by
    rcases hct with h | h | h | h <;> rw [h] <;> decide
  have hg : ¬ gradientValid mls lib (mls.gradient (mls.project v.P)) = true := by
    unfold gradientValid
    rcases hdeg with h | h
    · simp [h]
    · have h2 : ¬ (1 / 10 ^ 8 < lib.Norm (mls.gradient (mls.project v.P)).1) := not_lt.mpr h
      rw [Bool.and_eq_true, decide_eq_true_iff, decide_eq_true_iff]
      exact fun hc => h2 hc.2
  have hcv : colorizedVertex mls apss lib selectionOnly ct v = { v with Q := Scalarm.fin 0 } := by
    simp only [colorizedVertex, hp, hne, hg, if_true, if_false]
    rfl
  rw [colorizeVertex_degenerate mls apss lib selectionOnly ct cm i v hv hp hne hg]
  refine ⟨rfl, ?_, fun h => ?_⟩
  · simp [modifyVert_getElem?, hv, setQ]
  · rw [(colorizePass1_complete mls apss lib selectionOnly ct cm h).1]
    simp [List.getElem?_map, hv, hcv]

/-- C17 at a concrete input: a surface whose gradient evaluation reports an error
(mask 1 instead of `MLS_OK = 0`), mean curvature, on the one-vertex cloud. -/
theorem colorize_degenerate_gradient_witness :
    (colorizeVertex { sampleMls with gradient := fun _ => (⟨0, 0, 1⟩, 1) } none sampleLib false
      CT_MEAN oneVertex 0).fault = none ∧
    (colorizeVertex { sampleMls with gradient := fun _ => (⟨0, 0, 1⟩, 1) } none sampleLib false
      CT_MEAN oneVertex 0).cm.vert[0]? =
      some { sampleVertex 0 0 1 false with Q := Scalarm.fin 0 } ∧
    ((colorizePass1 { sampleMls with gradient := fun _ => (⟨0, 0, 1⟩, 1) } none sampleLib false
        CT_MEAN oneVertex).fault = none →
      (colorizePass1 { sampleMls with gradient := fun _ => (⟨0, 0, 1⟩, 1) } none sampleLib false
        CT_MEAN oneVertex).cm.vert[0]? =
        some { sampleVertex 0 0 1 false with Q := Scalarm.fin 0 }) :=
  colorize_degenerate_gradient { sampleMls with gradient := fun _ => (⟨0, 0, 1⟩, 1) } none
    sampleLib false CT_MEAN oneVertex 0 (sampleVertex 0 0 1 false) (Or.inl rfl) rfl rfl
    (Or.inl (by decide))

theorem selectCurvature_named (ct : Int) (W : WeingartenMap)
    (hct : ct = CT_MEAN ∨ ct = CT_GAUSS ∨ ct = CT_K1 ∨ ct = CT_K2) :
    ∃ c : Scalarm, selectCurvature ct W = some c ∧
      (ct = CT_MEAN → c = W.MeanCurvature) ∧ (ct = CT_GAUSS → c = W.GaussCurvature) ∧
      (ct = CT_K1 → c = W.K1) ∧ (ct = CT_K2 → c = W.K2) := by
  rcases hct with h | h | h | h <;> subst h
  · exact ⟨W.MeanCurvature, by simp [selectCurvature], fun _ => rfl,
      fun h => absurd h (by decide), fun h => absurd h (by decide),
      fun h => absurd h (by decide)⟩
  · exact ⟨W.GaussCurvature, by simp [selectCurvature, CT_GAUSS, CT_MEAN],
      fun h => absurd h (by decide), fun _ => rfl, fun h => absurd h (by decide),
      fun h => absurd h (by decide)⟩
  · exact ⟨W.K1, by simp [selectCurvature, CT_GAUSS, CT_MEAN, CT_K1],
      fun h => absurd h (by decide), fun h => absurd h (by decide), fun _ => rfl,
      fun h => absurd h (by decide)⟩
  · exact ⟨W.K2, by simp [selectCurvature, CT_GAUSS, CT_MEAN, CT_K1, CT_K2],
      fun h => absurd h (by decide), fun h => absurd h (by decide),
      fun h => absurd h (by decide), fun _ => rfl⟩

/-- C11: in the colorize workflow, for a processed vertex whose gradient is valid
and a curvature type among mean, Gauss, K1 and K2, let `W` be the Weingarten map
built from the gradient and the Hessian at the projection of the vertex, and `c`
the scalar of `W` that the curvature type names. The iteration that visits the
vertex stores the K1, K2, PD1 and PD2 of `W` in it, whatever the curvature type;
when `math::IsNAN` does not hold of `c` it raises no fault and stores `c` as the
quality, and when it holds the assertion stops the run with the quality
untouched. A pass 1 that
runs to its end leaves the vertex with the quality `c` and the K1, K2, PD1 and
PD2 of `W`. -/
theorem colorize_valid_gradient (mls : MlsSurface) (apss : Option (Point3m → Scalarm))
    (lib : ColorizeLib) (selectionOnly : Bool) (ct : Int) (cm : CMeshO) (i : Nat)
    (v : VertexType)
    (hct : ct = CT_MEAN ∨ ct = CT_GAUSS ∨ ct = CT_K1 ∨ ct = CT_K2)
    (hv : cm.vert[i]? = some v) (hp : ((!selectionOnly) || v.IsS) = true)
    (hok : (mls.gradient (mls.project v.P)).2 = mls.MLS_OK)
    (hnorm : 1 / 10 ^ 8 < lib.Norm (mls.gradient (mls.project v.P)).1) :
    ∃ (W : WeingartenMap) (c : Scalarm),
      W = lib.WeingartenMap (mls.gradient (mls.project v.P)).1
        (mls.hessian (mls.project v.P)) ∧
      (ct = CT_MEAN → c = W.MeanCurvature) ∧ (ct = CT_GAUSS → c = W.GaussCurvature) ∧
      (ct = CT_K1 → c = W.K1) ∧ (ct = CT_K2 → c = W.K2) ∧
      (c.IsNAN = false →
        (colorizeVertex mls apss lib selectionOnly ct cm i).fault = none ∧
        (colorizeVertex mls apss lib selectionOnly ct cm i).cm.vert[i]? =
          some { v with PD1 := W.K1Dir, PD2 := W.K2Dir, K1 := W.K1, K2 := W.K2, Q := c }) ∧
      (c.IsNAN = true →
        (colorizeVertex mls apss lib selectionOnly ct cm i).fault = some Fault.assertNaN ∧
        (colorizeVertex mls apss lib selectionOnly ct cm i).cm.vert[i]? =
          some { v with PD1 := W.K1Dir, PD2 := W.K2Dir, K1 := W.K1, K2 := W.K2 }) ∧
      ((colorizePass1 mls apss lib selectionOnly ct cm).fault = none →
        (colorizePass1 mls apss lib selectionOnly ct cm).cm.vert[i]? =
          some { v with PD1 := W.K1Dir, PD2 := W.K2Dir, K1 := W.K1, K2 := W.K2, Q := c }) := by
  have hne : ¬ ct = CT_APSS := by
    rcases hct with h | h | h | h <;> rw [h] <;> decide
  have hg : gradientValid mls lib (mls.gradient (mls.project v.P)) = true := by
    unfold gradientValid
    rw [Bool.and_eq_true, decide_eq_true_iff, decide_eq_true_iff]
    exact ⟨hok, hnorm⟩
  obtain ⟨c, hs, h1, h2, h3, h4⟩ := selectCurvature_named ct
    (lib.WeingartenMap (mls.gradient (mls.project v.P)).1 (mls.hessian (mls.project v.P))) hct
  refine ⟨_, c, rfl, h1, h2, h3, h4, fun hn => ?_, fun hn => ?_, fun hrun => ?_⟩
  · have hn1 : ¬ c.IsNAN = true := by rw [hn]; decide
    rw [colorizeVertex_written mls apss lib selectionOnly ct cm i v c hv hp hne hg hs hn1]
    refine ⟨rfl, ?_⟩
    simp [modifyVert_getElem?, hv, setQ, setCurvature]
  · rw [colorizeVertex_nan mls apss lib selectionOnly ct cm i v c hv hp hne hg hs hn]
    refine ⟨rfl, ?_⟩
    simp [modifyVert_getElem?, hv, setCurvature]
  · obtain ⟨hcm, hnf⟩ := colorizePass1_complete mls apss lib selectionOnly ct cm hrun
    have hfv := hnf i v hv
    have hn1 : ¬ c.IsNAN = true := by
      intro hn
      simp [colorizeFault, hp, hne, hg, hs, hn] at hfv
    have hcv : colorizedVertex mls apss lib selectionOnly ct v =
        setQ c (setCurvature (lib.WeingartenMap (mls.gradient (mls.project v.P)).1
          (mls.hessian (mls.project v.P))) v) := by
      simp only [colorizedVertex, hp, hne, hg, hs, hn1, if_true, if_false]
      rfl
    rw [hcm]
    simp [List.getElem?_map, hv, hcv, setQ, setCurvature]

/-- C11 at a concrete input: Gauss curvature on the one-vertex cloud, where the
sample Weingarten map has the Gauss curvature 2. -/
theorem colorize_valid_gradient_witness :
    ∃ (W : WeingartenMap) (c : Scalarm),
      W = sampleLib.WeingartenMap (sampleMls.gradient (sampleMls.project
          (sampleVertex 0 0 1 false).P)).1
        (sampleMls.hessian (sampleMls.project (sampleVertex 0 0 1 false).P)) ∧
      (CT_GAUSS = CT_MEAN → c = W.MeanCurvature) ∧ (CT_GAUSS = CT_GAUSS → c = W.GaussCurvature) ∧
      (CT_GAUSS = CT_K1 → c = W.K1) ∧ (CT_GAUSS = CT_K2 → c = W.K2) ∧
      (c.IsNAN = false →
        (colorizeVertex sampleMls none sampleLib false CT_GAUSS oneVertex 0).fault = none ∧
        (colorizeVertex sampleMls none sampleLib false CT_GAUSS oneVertex 0).cm.vert[0]? =
          some { sampleVertex 0 0 1 false with
            PD1 := W.K1Dir, PD2 := W.K2Dir, K1 := W.K1, K2 := W.K2, Q := c }) ∧
      (c.IsNAN = true →
        (colorizeVertex sampleMls none sampleLib false CT_GAUSS oneVertex 0).fault =
          some Fault.assertNaN ∧
        (colorizeVertex sampleMls none sampleLib false CT_GAUSS oneVertex 0).cm.vert[0]? =
          some { sampleVertex 0 0 1 false with
            PD1 := W.K1Dir, PD2 := W.K2Dir, K1 := W.K1, K2 := W.K2 }) ∧
      ((colorizePass1 sampleMls none sampleLib false CT_GAUSS oneVertex).fault = none →
        (colorizePass1 sampleMls none sampleLib false CT_GAUSS oneVertex).cm.vert[0]? =
          some { sampleVertex 0 0 1 false with
            PD1 := W.K1Dir, PD2 := W.K2Dir, K1 := W.K1, K2 := W.K2, Q := c }) :=
  colorize_valid_gradient sampleMls none sampleLib false CT_GAUSS oneVertex 0
    (sampleVertex 0 0 1 false) (Or.inr (Or.inl rfl)) rfl rfl rfl
    (by simp [sampleLib, sampleMls, eps_lt_one])

/-! ## The parameters by name -/

/-- The run of `applyFilter` depends on the parameter values only through the
names listed by `parametersRead`: two records of values that agree on these names
give the same outcome. -/
theorem applyFilter_reads_only (env : Env) (id : FilterId) (par par2 : RichParameterList)
    (md : MeshDocument) (cb : CallBackPos)
    (h : ∀ n, n ∈ parametersRead id → par.get n = par2.get n) :
    applyFilter env id par md cb = applyFilter env id par2 md cb := by
  cases id <;>
    simp [parametersRead, FilterId.PROJECTION, FilterId.RIMLS, FilterId.APSS,
      FilterId.COLORIZE, FilterId.MCUBE, RichParameterList.get] at h <;>
    simp [applyFilter, applyMls, selectPoints, createMls, runBranch, projection, marchingCubes,
      FilterId.PROJECTION, FilterId.RIMLS, FilterId.APSS, FilterId.COLORIZE, FilterId.MCUBE, h]

theorem parametersRead_subset (id : FilterId) (hid : id ∈ typeList) (target : MeshModel)
    (n : ParName) (hn : n ∈ parametersRead id) :
    n ∈ (initParameterList id target).map RichParameter.name := by
  simp only [typeList, List.mem_cons, List.mem_singleton, List.not_mem_nil, or_false] at hid
  rcases hid with h | h | h | h | h | h | h | h <;> subst h <;>
    simp [parametersRead, FilterId.PROJECTION, FilterId.RIMLS, FilterId.APSS,
      FilterId.COLORIZE, FilterId.MCUBE] at hn <;>
    simp [initParameterList, FilterId.PROJECTION, FilterId.RIMLS, FilterId.APSS,
      FilterId.COLORIZE, FilterId.MCUBE, FilterId.AFRONT, RichParameter.name] <;>
    aesop

/-- C15: for each of the eight registered filter ids, every parameter name that
`applyFilter` reads on the path taken for that id is the name of a parameter that
`initParameterList` defines for the same id; and the outcome of `applyFilter`
depends on the parameter values only through the parameters so defined. -/
theorem parameters_read_are_defined (id : FilterId) (hid : id ∈ typeList)
    (target : MeshModel) :
    (∀ n, n ∈ parametersRead id →
      n ∈ (initParameterList id target).map RichParameter.name) ∧
    (∀ (env : Env) (par par2 : RichParameterList) (md : MeshDocument) (cb : CallBackPos),
      (∀ n, n ∈ (initParameterList id target).map RichParameter.name →
        par.get n = par2.get n) →
      applyFilter env id par md cb = applyFilter env id par2 md cb) := by
  refine ⟨fun n hn => parametersRead_subset id hid target n hn, ?_⟩
  intro env par par2 md cb h
  exact applyFilter_reads_only env id par par2 md cb
    (fun n hn => h n (parametersRead_subset id hid target n hn))

/-- C15 at a concrete input: the APSS projection filter with the sample mesh as
the current mesh. -/
theorem parameters_read_are_defined_witness :
    (∀ n, n ∈ parametersRead FilterId.FP_APSS_PROJECTION →
      n ∈ (initParameterList FilterId.FP_APSS_PROJECTION sampleMesh).map RichParameter.name) ∧
    (∀ (env : Env) (par par2 : RichParameterList) (md : MeshDocument) (cb : CallBackPos),
      (∀ n, n ∈ (initParameterList FilterId.FP_APSS_PROJECTION sampleMesh).map
          RichParameter.name → par.get n = par2.get n) →
      applyFilter env FilterId.FP_APSS_PROJECTION par md cb =
        applyFilter env FilterId.FP_APSS_PROJECTION par2 md cb) :=
  parameters_read_are_defined FilterId.FP_APSS_PROJECTION (by decide) sampleMesh

/-! ## The approximate mean curvature -/

theorem colorizePass1_trace_mem (mls : MlsSurface) (apss : Option (Point3m → Scalarm))
    (lib : ColorizeLib) (selectionOnly : Bool) (ct : Int) (cm : CMeshO) (n : Nat) (e : Event)
    (h : e ∈ (forLoop n (colorizeStep mls apss lib selectionOnly ct) ⟨cm, [], none⟩).trace) :
    ∃ (m : CMeshO) (j : Nat), e ∈ (colorizeVertex mls apss lib selectionOnly ct m j).trace := by
  induction n with
  | zero => rw [forLoop_zero] at h; simp at h
  | succ n ih =>
    rw [forLoop_succ] at h
    generalize forLoop n (colorizeStep mls apss lib selectionOnly ct) ⟨cm, [], none⟩ = s at ih h
    unfold colorizeStep at h
    cases hf : s.fault with
    | some f => rw [hf] at h; exact ih h
    | none =>
      rw [hf] at h
      simp only [List.mem_append] at h
      rcases h with h1 | h1
      · exact ih h1
      · exact ⟨s.cm, n, h1⟩

theorem colorizeVertex_approx (mls : MlsSurface) (apss : Option (Point3m → Scalarm))
    (lib : ColorizeLib) (selectionOnly : Bool) (ct : Int) (cm : CMeshO) (i k : Nat)
    (h : Event.approxMeanCurvature k ∈
      (colorizeVertex mls apss lib selectionOnly ct cm i).trace) :
    ct = CT_APSS ∧ apss.isSome = true := by
  cases hv : cm.vert[i]? with
  | none =>
    rw [colorizeVertex_out_of_range mls apss lib selectionOnly ct cm i hv] at h
    simp at h
  | some v0 =>
    by_cases hp : ((!selectionOnly) || v0.IsS) = true
    · by_cases hct : ct = CT_APSS
      · cases apss with
        | none =>
          rw [colorizeVertex_apss_null mls lib selectionOnly ct cm i v0 hv hp hct] at h
          simp at h
        | some a => exact ⟨hct, rfl⟩
      · by_cases hg : gradientValid mls lib (mls.gradient (mls.project v0.P)) = true
        · cases hs : selectCurvature ct (lib.WeingartenMap
              (mls.gradient (mls.project v0.P)).1 (mls.hessian (mls.project v0.P))) with
          | none =>
            rw [colorizeVertex_invalid_type mls apss lib selectionOnly ct cm i v0 hv hp hct
              hg hs] at h
            simp at h
          | some c =>
            by_cases hn : c.IsNAN = true
            · rw [colorizeVertex_nan mls apss lib selectionOnly ct cm i v0 c hv hp hct hg hs
                hn] at h
              simp at h
            · rw [colorizeVertex_written mls apss lib selectionOnly ct cm i v0 c hv hp hct hg
                hs hn] at h
              simp at h
        · rw [colorizeVertex_degenerate mls apss lib selectionOnly ct cm i v0 hv hp hct hg] at h
          simp at h
    · rw [colorizeVertex_skipped mls apss lib selectionOnly ct cm i v0 hv hp] at h
      simp at h

theorem colorizeFault_null (mls : MlsSurface) (apss : Option (Point3m → Scalarm))
    (lib : ColorizeLib) (selectionOnly : Bool) (ct : Int) (v : VertexType)
    (h : colorizeFault mls apss lib selectionOnly ct v = some Fault.nullPointer) :
    ct = CT_APSS ∧ apss.isSome = false := by
  unfold colorizeFault at h
  split at h
  · split at h
    · rename_i hct
      split at h
      · exact ⟨hct, rfl⟩
      · cases h
    · split at h
      · split at h
        · cases h
        · split at h <;> cases h
      · cases h
  · cases h

/-- C16: in the colorize workflow, when the value of `CurvatureType` is the index
of one of the entries that `initParameterList` offers for the filter id, pass 1
is never stopped by the use of a null `apss`, and `approxMeanCurvature` is called
only for the APSS colorize filter, whose `apss` is not null. The entry
`ApproxMean` (index 4) is offered for the APSS colorize filter and not for the
RIMLS one. -/
theorem approxMeanCurvature_only_on_apss (gael : Gael) (lib : ColorizeLib) (id : FilterId)
    (par : RichParameterList) (target : MeshModel) (points : CMeshO) (mls : MlsSurface)
    (apss : Option (Point3m → Scalarm)) (cm : CMeshO)
    (hid : id.COLORIZE = true)
    (hoff : curvatureTypeOffered id target par.CurvatureType = true)
    (hmls : createMls gael id par points = some (mls, apss)) :
    (colorizePass1 mls apss lib par.SelectionOnly par.CurvatureType cm).fault ≠
      some Fault.nullPointer ∧
    (∀ i : Nat, Event.approxMeanCurvature i ∈
        (colorizePass1 mls apss lib par.SelectionOnly par.CurvatureType cm).trace →
      id = FilterId.FP_APSS_COLORIZE ∧ apss.isSome = true) ∧
    enumValues (initParameterList FilterId.FP_APSS_COLORIZE target) ParName.CurvatureType =
      some [EnumValue.Mean, EnumValue.Gauss, EnumValue.K1, EnumValue.K2,
        EnumValue.ApproxMean] ∧
    enumValues (initParameterList FilterId.FP_RIMLS_COLORIZE target) ParName.CurvatureType =
      some [EnumValue.Mean, EnumValue.Gauss, EnumValue.K1, EnumValue.K2] := by
  have hA : enumValues (initParameterList FilterId.FP_APSS_COLORIZE target)
      ParName.CurvatureType = some [EnumValue.Mean, EnumValue.Gauss, EnumValue.K1,
        EnumValue.K2, EnumValue.ApproxMean] := by
    simp [enumValues, initParameterList, FilterId.PROJECTION, FilterId.RIMLS, FilterId.APSS,
      FilterId.COLORIZE, FilterId.MCUBE, FilterId.AFRONT, List.findSome?]
  have hR : enumValues (initParameterList FilterId.FP_RIMLS_COLORIZE target)
      ParName.CurvatureType = some [EnumValue.Mean, EnumValue.Gauss, EnumValue.K1,
        EnumValue.K2] := by
    simp [enumValues, initParameterList, FilterId.PROJECTION, FilterId.RIMLS, FilterId.APSS,
      FilterId.COLORIZE, FilterId.MCUBE, FilterId.AFRONT, List.findSome?]
  have key : (par.CurvatureType = CT_APSS → id = FilterId.FP_APSS_COLORIZE) ∧
      (id = FilterId.FP_APSS_COLORIZE → apss.isSome = true) := by
    cases id <;> simp [FilterId.COLORIZE] at hid
    · refine ⟨fun hct => ?_, fun h => by cases h⟩
      unfold curvatureTypeOffered at hoff
      rw [hR] at hoff
      simp [hct, CT_APSS] at hoff
    · refine ⟨fun _ => rfl, fun _ => ?_⟩
      simp [createMls, FilterId.RIMLS, FilterId.APSS] at hmls
      rw [← hmls.2]
      rfl
  refine ⟨?_, ?_, hA, hR⟩
  · intro hf
    obtain ⟨j, v, _, _, hfv⟩ := (colorizePass1_run mls apss lib par.SelectionOnly
      par.CurvatureType cm cm.vert.length (Nat.le_refl _)).2 Fault.nullPointer hf
    obtain ⟨hct, hnone⟩ := colorizeFault_null mls apss lib par.SelectionOnly
      par.CurvatureType v hfv
    have := key.2 (key.1 hct)
    rw [hnone] at this
    cases this
  · intro i hi
    obtain ⟨m, j, hmem⟩ := colorizePass1_trace_mem mls apss lib par.SelectionOnly
      par.CurvatureType cm cm.vert.length _ hi
    obtain ⟨hct, hsome⟩ := colorizeVertex_approx mls apss lib par.SelectionOnly
      par.CurvatureType m j i hmem
    exact ⟨key.1 hct, hsome⟩

/-- C16 at a concrete input: the APSS colorize filter with the entry `ApproxMean`
on the one-vertex cloud. -/
theorem approxMeanCurvature_only_on_apss_witness :
    (colorizePass1 sampleMls (some (fun _ => Scalarm.fin 1)) sampleLib
      ({ samplePar 200 with CurvatureType := 4 }).SelectionOnly
      ({ samplePar 200 with CurvatureType := 4 }).CurvatureType oneVertex).fault ≠
      some Fault.nullPointer :=
  (approxMeanCurvature_only_on_apss sampleGael sampleLib FilterId.FP_APSS_COLORIZE
    { samplePar 200 with CurvatureType := 4 } sampleMesh oneVertex sampleMls
    (some (fun _ => Scalarm.fin 1)) oneVertex rfl
    (by simp [curvatureTypeOffered, enumValues, initParameterList, FilterId.PROJECTION,
      FilterId.RIMLS, FilterId.APSS, FilterId.COLORIZE, FilterId.MCUBE, FilterId.AFRONT,
      List.findSome?, samplePar])
    (by simp [createMls, FilterId.RIMLS, FilterId.APSS, FilterId.COLORIZE, sampleGael])).1

/-! ## The point set of the surface -/

/-- The run of the MLS part of `applyFilter` from the state in which the surface
is constructed. -/
theorem applyMls_of_pointSet (env : Env) (id : FilterId) (par : RichParameterList)
    (md : MeshDocument) (cb : CallBackPos) (mdc : MeshDocument) (pPoints : Int)
    (points : MeshModel) (tr : List Event)
    (h : pointSet env id par md = some (mdc, pPoints, points, tr)) :
    applyMls env id par md cb =
      match createMls env.gael id par points.cm with
      | none => ⟨mdc, tr ++ [Event.cb 1 Msg.createMls], some Fault.assertFilterId, []⟩
      | some s =>
        ⟨(runBranch env id par mdc cb pPoints s.1 s.2).md,
          tr ++ [Event.cb 1 Msg.createMls] ++ (runBranch env id par mdc cb pPoints s.1 s.2).trace,
          (runBranch env id par mdc cb pPoints s.1 s.2).fault,
          (runBranch env id par mdc cb pPoints s.1 s.2).outValues⟩ := by
  unfold pointSet at h
  unfold applyMls
  cases hmm : md.mm with
  | none => rw [hmm] at h; cases h
  | some cur =>
    rw [hmm] at h
    simp only at h ⊢
    cases hsel : selectPoints env.host id par
        (md.setMesh (ensureVertexRadius env.gael (preClean env.host cur).1).1) with
    | none => rw [hsel] at h; cases h
    | some pp =>
      rw [hsel] at h
      simp only at h ⊢
      split at h
      · rename_i p q hp hq
        simp only [Option.some.injEq, Prod.mk.injEq] at h
        obtain ⟨h1, h2, h3, h4⟩ := h
        subst h1 h2 h3 h4
        rfl
      · cases h

theorem getMesh_setMesh_ne (md : MeshDocument) (m : MeshModel) (i : Int) (h : i ≠ m.id) :
    (md.setMesh m).getMesh i = md.getMesh i := by
  unfold MeshDocument.getMesh MeshDocument.setMesh
  simp only
  induction md.meshList with
  | nil => rfl
  | cons x l ih =>
    simp only [List.map_cons, List.find?_cons]
    by_cases hx : x.id = m.id
    · have h1 : (m.id == i) = false := by
        simpa using fun hc : m.id = i => h hc.symm
      have h2 : (x.id == i) = false := by rw [hx]; exact h1
      simp only [hx, if_true, h1, h2]
      exact ih
    · simp only [hx, if_false]
      cases hxi : (x.id == i)
      · exact ih
      · rfl

theorem getMesh_freshIds (md : MeshDocument) (h : md.freshIds = true) :
    md.getMesh md.meshIdCounter = none := by
  unfold MeshDocument.freshIds at h
  unfold MeshDocument.getMesh
  rw [List.find?_eq_none]
  intro x hx
  have := List.all_eq_true.mp h x hx
  simp only [decide_eq_true_eq] at this
  simp only [beq_iff_eq]
  omega

theorem freshIds_of_getMesh (md : MeshDocument) (h : md.freshIds = true) (i : Int)
    (x : MeshModel) (hx : md.getMesh i = some x) : i < md.meshIdCounter := by
  have hid := getMesh_id md i x hx
  unfold MeshDocument.getMesh at hx
  have hmem := List.mem_of_find?_eq_some hx
  unfold MeshDocument.freshIds at h
  have := List.all_eq_true.mp h x hmem
  simp only [decide_eq_true_eq] at this
  omega

theorem freshIds_setMesh (md : MeshDocument) (m : MeshModel) (h : md.freshIds = true) :
    (md.setMesh m).freshIds = true := by
  have hids := setMesh_ids md m
  unfold MeshDocument.freshIds at h ⊢
  rw [setMesh_meshIdCounter]
  rw [List.all_eq_true] at h ⊢
  intro x hx
  have hx1 : x.id ∈ (md.setMesh m).meshList.map (fun y => y.id) :=
    List.mem_map.mpr ⟨x, hx, rfl⟩
  rw [hids] at hx1
  obtain ⟨y, hy, hyx⟩ := List.mem_map.mp hx1
  have := h y hy
  simp only [decide_eq_true_eq] at this ⊢
  have hyx2 : y.id = x.id := hyx
  omega

theorem projectionLoop_id (vcg : Vcg) (mls : MlsSurface) (edgePred : EdgeAnglePredicate)
    (selectionOnly : Bool) (cb : CallBackPos) (nbRefinements : Int) (mesh : MeshModel) :
    (projectionLoop vcg mls edgePred selectionOnly cb nbRefinements mesh).1.id = mesh.id := by
  unfold projectionLoop
  generalize (nbRefinements + 1).toNat = N
  induction N with
  | zero => rw [forLoop_zero]
  | succ N ih =>
    rw [forLoop_succ]
    simp only
    rw [← ih]
    generalize (forLoop N (fun k s =>
      ((projectionPass vcg mls edgePred selectionOnly cb k s.1).1,
        s.2 ++ [(projectionPass vcg mls edgePred selectionOnly cb k s.1).2]))
      ((mesh, []) : MeshModel × List (List Event))).1 = m
    unfold projectionPass
    by_cases hk : N = 0
    · simp [hk]
    · simp [hk, updateDataMask_id]


theorem getMesh_addNewMesh (md : MeshDocument) (h : md.freshIds = true) :
    md.addNewMesh.1.getMesh md.meshIdCounter = some ⟨md.meshIdCounter, ⟨[], []⟩, []⟩ := by
  have hnone := getMesh_freshIds md h
  unfold MeshDocument.getMesh at hnone ⊢
  unfold MeshDocument.addNewMesh
  simp only [List.find?_append, hnone]
  simp

theorem getMesh_addNewMesh_of_getMesh (md : MeshDocument) (i : Int) (x : MeshModel)
    (h : md.getMesh i = some x) : md.addNewMesh.1.getMesh i = some x := by
  unfold MeshDocument.getMesh at h ⊢
  unfold MeshDocument.addNewMesh
  simp only [List.find?_append, h]
  rfl

/-- The choice of the point set in a projection run on a document whose ids are
below its counter and whose current mesh is `cur`. -/
theorem pointSet_projection (env : Env) (id : FilterId) (par : RichParameterList)
    (md : MeshDocument) (mdc : MeshDocument) (pPoints : Int) (points : MeshModel)
    (tr : List Event) (cur : MeshModel) (hid : id.PROJECTION = true)
    (hfresh : md.freshIds = true) (hmm : md.mm = some cur)
    (hps : pointSet env id par md = some (mdc, pPoints, points, tr)) :
    mdc.getMesh pPoints = some points ∧ pPoints ≠ par.ProxyMesh ∧
    (par.ControlMesh = par.ProxyMesh →
      pPoints = md.meshIdCounter ∧ md.getMesh pPoints = none ∧
      mdc = ((md.setMesh (ensureVertexRadius env.gael
        (preClean env.host cur).1).1).addNewMesh.1).setMesh points ∧
      ∃ ref : MeshModel,
        (md.setMesh (ensureVertexRadius env.gael
          (preClean env.host cur).1).1).getMesh par.ControlMesh = some ref ∧
        mdc.getMesh par.ControlMesh = some ref ∧
        points = ⟨pPoints, env.host.AppendMesh ⟨[], []⟩ ref.cm, ref.dataMask⟩) ∧
    (par.ControlMesh ≠ par.ProxyMesh →
      pPoints = par.ControlMesh ∧
      mdc = md.setMesh (ensureVertexRadius env.gael (preClean env.host cur).1).1) := by
  unfold pointSet at hps
  rw [hmm] at hps
  simp only at hps
  have hfresh1 := freshIds_setMesh md (ensureVertexRadius env.gael (preClean env.host cur).1).1
    hfresh
  have hcount : (md.setMesh (ensureVertexRadius env.gael
      (preClean env.host cur).1).1).meshIdCounter = md.meshIdCounter := rfl
  generalize md.setMesh (ensureVertexRadius env.gael (preClean env.host cur).1).1 = md1
    at hps hfresh1 hcount ⊢
  unfold selectPoints at hps
  rw [hid] at hps
  simp only [if_true] at hps
  by_cases hcp : par.ControlMesh = par.ProxyMesh
  · simp only [hcp, if_true] at hps
    cases hg : md1.getMesh par.ProxyMesh with
    | none => rw [hg] at hps; cases hps
    | some ref =>
      rw [hg] at hps
      simp only at hps
      have hnew := getMesh_addNewMesh md1 hfresh1
      have hclone := getMesh_setMesh md1.addNewMesh.1
        ⟨md1.addNewMesh.2, env.host.AppendMesh ⟨[], []⟩ ref.cm, ref.dataMask⟩
        md1.meshIdCounter _ hnew
      have h2 : md1.addNewMesh.2 = md1.meshIdCounter := rfl
      simp only [h2, if_true] at hclone
      simp only [h2, Option.bind, hclone, Option.some.injEq, Prod.mk.injEq] at hps
      obtain ⟨h1, h3, h4, _⟩ := hps
      subst h1 h3 h4
      have hlt := freshIds_of_getMesh md1 hfresh1 par.ProxyMesh ref hg
      have hctl : (md1.addNewMesh.1.setMesh
          ⟨md1.meshIdCounter, env.host.AppendMesh ⟨[], []⟩ ref.cm, ref.dataMask⟩).getMesh
          par.ProxyMesh = some ref := by
        rw [getMesh_setMesh_ne _ _ _ (by show par.ProxyMesh ≠ md1.meshIdCounter; omega)]
        exact getMesh_addNewMesh_of_getMesh md1 par.ProxyMesh ref hg
      refine ⟨hclone, by omega, fun _ => ⟨hcount, ?_, rfl, ref, ?_, ?_, rfl⟩,
        fun h => absurd hcp h⟩
      · rw [hcount]; exact getMesh_freshIds md hfresh
      · rw [hcp]; exact hg
      · rw [hcp]; exact hctl
  · simp only [hcp, if_false] at hps
    cases hg : md1.getMesh par.ControlMesh with
    | none => rw [hg] at hps; simp at hps
    | some ref =>
      rw [hg] at hps
      have hrid := getMesh_id md1 par.ControlMesh ref hg
      simp only [Option.map, Option.bind, hrid, hg, Option.some.injEq, Prod.mk.injEq] at hps
      obtain ⟨h1, h3, h4, _⟩ := hps
      subst h1 h3 h4
      exact ⟨hg, hcp, fun h => absurd h hcp, fun _ => ⟨rfl, rfl⟩⟩

theorem mm_of_pointSet (env : Env) (id : FilterId) (par : RichParameterList)
    (md : MeshDocument) (r : MeshDocument × Int × MeshModel × List Event)
    (hps : pointSet env id par md = some r) : ∃ cur : MeshModel, md.mm = some cur := by
  cases hmm : md.mm with
  | none =>
    unfold pointSet at hps
    rw [hmm] at hps
    cases hps
  | some cur => exact ⟨cur, rfl⟩

/-- The projection branch writes only through the pointer `mesh`: the mesh of any
other id is the same before and after. -/
theorem projection_other_mesh (vcg : Vcg) (mls : MlsSurface) (par : RichParameterList)
    (md : MeshDocument) (cb : CallBackPos) (i : Int) (h : i ≠ par.ProxyMesh) :
    (projection vcg mls par md cb).1.getMesh i = md.getMesh i ∧
    (projection vcg mls par md cb).2.1 ≠ some i := by
  unfold projection
  cases hg : md.getMesh par.ProxyMesh with
  | none => simp
  | some mesh =>
    have hid := getMesh_id md par.ProxyMesh mesh hg
    simp only
    refine ⟨?_, ?_⟩
    · apply getMesh_setMesh_ne
      rw [projectionLoop_id]
      split
      · simpa [hid] using h
      · simpa [hid] using h
    · rw [hid]
      intro hc
      exact h (Option.some.inj hc).symm

/-- C13: in a projection run on a document whose ids are below its counter, let
`pPoints` be the mesh the surface is constructed from, and `mdc` the document at
that moment. The id `pPoints` is never the id of `ProxyMesh`. When `ControlMesh`
and `ProxyMesh` are the same, `pPoints` is the fresh id of a temporary mesh added
to the document (after the cleaning and the radius step on the current mesh
`cur`), and that mesh is the clone of the mesh `ref` that the id `ControlMesh`
names in the document: `Append::Mesh` of the mesh of `ref` into an empty one,
with the data mask of `ref`. Otherwise `pPoints` is `ControlMesh` and no mesh is
added. The projection branch moves the vertices of another mesh and leaves the
mesh `pPoints` exactly as it was when the surface was constructed; and the run
of `applyFilter` is the run of that branch from that state. -/
theorem projection_keeps_point_set (env : Env) (id : FilterId) (par : RichParameterList)
    (md : MeshDocument) (mdc : MeshDocument) (pPoints : Int) (points : MeshModel)
    (tr : List Event) (hid : id.PROJECTION = true) (hfresh : md.freshIds = true)
    (hps : pointSet env id par md = some (mdc, pPoints, points, tr)) :
    pPoints ≠ par.ProxyMesh ∧
    mdc.getMesh pPoints = some points ∧
    (∃ cur : MeshModel, md.mm = some cur ∧
      (par.ControlMesh = par.ProxyMesh →
        pPoints = md.meshIdCounter ∧ md.getMesh pPoints = none ∧
        mdc = ((md.setMesh (ensureVertexRadius env.gael
          (preClean env.host cur).1).1).addNewMesh.1).setMesh points ∧
        ∃ ref : MeshModel,
          (md.setMesh (ensureVertexRadius env.gael
            (preClean env.host cur).1).1).getMesh par.ControlMesh = some ref ∧
          mdc.getMesh par.ControlMesh = some ref ∧
          points = ⟨pPoints, env.host.AppendMesh ⟨[], []⟩ ref.cm, ref.dataMask⟩) ∧
      (par.ControlMesh ≠ par.ProxyMesh →
        pPoints = par.ControlMesh ∧
        mdc = md.setMesh (ensureVertexRadius env.gael (preClean env.host cur).1).1)) ∧
    (∀ (mls : MlsSurface) (cb : CallBackPos),
      (projection env.vcg mls par mdc cb).1.getMesh pPoints = some points ∧
      (projection env.vcg mls par mdc cb).2.1 ≠ some pPoints) ∧
    (∀ (cb : CallBackPos) (mls : MlsSurface) (apss : Option (Point3m → Scalarm)),
      createMls env.gael id par points.cm = some (mls, apss) →
      (applyFilter env id par md cb).trace =
        tr ++ [Event.cb 1 Msg.createMls] ++
          (runBranch env id par mdc cb pPoints mls apss).trace ∧
      ((projection env.vcg mls par mdc cb).2.2.2 = none →
        (applyFilter env id par md cb).fault = none)) := by
  obtain ⟨cur, hmm⟩ := mm_of_pointSet env id par md _ hps
  obtain ⟨h1, h2, h3, h4⟩ :=
    pointSet_projection env id par md mdc pPoints points tr cur hid hfresh hmm hps
  refine ⟨h2, h1, ⟨cur, hmm, h3, h4⟩, fun mls cb => ?_, fun cb mls apss hmls => ?_⟩
  · obtain ⟨h5, h6⟩ := projection_other_mesh env.vcg mls par mdc cb pPoints h2
    exact ⟨h5.trans h1, h6⟩
  · have hne1 : id ≠ FilterId.FP_RADIUS_FROM_DENSITY := by
      intro hc; rw [hc] at hid; cases hid
    have hne2 : id ≠ FilterId.FP_SELECT_SMALL_COMPONENTS := by
      intro hc; rw [hc] at hid; cases hid
    have hrun : applyFilter env id par md cb = applyMls env id par md cb := by
      unfold applyFilter
      rw [if_neg hne1, if_neg hne2]
    rw [hrun, applyMls_of_pointSet env id par md cb mdc pPoints points tr hps, hmls]
    refine ⟨rfl, fun hf => ?_⟩
    simp only [runBranch, hid, if_true, hf]

theorem sampleDoc_fresh : sampleDoc.freshIds = true := by decide

/-- C13 at a concrete input: the APSS projection of the sample document onto
itself, where the surface is constructed from a temporary mesh of id 1 that is
the clone of the mesh of id 0. -/
theorem projection_keeps_point_set_witness :
    ∃ (mdc : MeshDocument) (points : MeshModel) (tr : List Event),
      pointSet sampleEnv FilterId.FP_APSS_PROJECTION (samplePar 200) sampleDoc =
        some (mdc, 1, points, tr) ∧
      (1 : Int) ≠ (samplePar 200).ProxyMesh ∧
      mdc.getMesh 1 = some points ∧
      (∃ ref : MeshModel, mdc.getMesh (samplePar 200).ControlMesh = some ref ∧
        points = ⟨1, sampleEnv.host.AppendMesh ⟨[], []⟩ ref.cm, ref.dataMask⟩) ∧
      ∀ (mls : MlsSurface) (cb : CallBackPos),
        (projection sampleEnv.vcg mls (samplePar 200) mdc cb).1.getMesh 1 = some points ∧
        (projection sampleEnv.vcg mls (samplePar 200) mdc cb).2.1 ≠ some 1 := by
  refine ⟨_, _, _, rfl, ?_⟩
  have h := projection_keeps_point_set sampleEnv FilterId.FP_APSS_PROJECTION (samplePar 200)
    sampleDoc _ 1 _ _ rfl sampleDoc_fresh rfl
  obtain ⟨h1, h2, ⟨cur, _, h3, _⟩, h5, _⟩ := h
  obtain ⟨_, _, _, ref, _, h6, h7⟩ := h3 rfl
  exact ⟨h1, h2, ⟨ref, h6, h7⟩, h5⟩

/-! ## The radius of the point set -/

/-- C14 fails at this input: in the document of two meshes with the mesh 0
current, an APSS projection with `ControlMesh = 1` and `ProxyMesh = 0` computes
and logs the radius of the current mesh 0 only; the surface is constructed from
the mesh 1, which has no per-vertex radius attribute at that time. -/
theorem pointSet_without_radius :
    ∃ (mdc : MeshDocument) (points : MeshModel) (tr : List Event),
      pointSet sampleEnv FilterId.FP_APSS_PROJECTION { samplePar 200 with ControlMesh := 1 }
        twoMeshDoc = some (mdc, 1, points, tr) ∧
      points.hasDataMask Mask.MM_VERTRADIUS = false ∧
      (mdc.getMesh 0).map (fun m => m.hasDataMask Mask.MM_VERTRADIUS) = some true ∧
      Event.log Msg.noVertexRadius ∈ tr ∧
      (applyFilter sampleEnv FilterId.FP_APSS_PROJECTION
        { samplePar 200 with ControlMesh := 1 } twoMeshDoc cbContinue).fault = none :=
  ⟨_, _, _, rfl, rfl, rfl, by decide, rfl⟩


/-! ## The percentages of a projection run -/

theorem cbPositions_append (a b : List Event) :
    cbPositions (a ++ b) = cbPositions a ++ cbPositions b := by
  simp [cbPositions, List.filterMap_append]

theorem cbPositions_eq_nil (tr : List Event) (h : ∀ p msg, Event.cb p msg ∉ tr) :
    cbPositions tr = [] := by
  unfold cbPositions
  rw [List.filterMap_eq_nil_iff]
  intro e he
  cases e <;> first | rfl | exact absurd he (h _ _)

theorem cbPositions_sweepEventsAt (selectionOnly : Bool) (cm : CMeshO) (n : Nat) :
    cbPositions ((List.range n).flatMap (sweepEventsAt selectionOnly cm)) =
      (List.range n).map (fun i => percent i cm.vert.length) := by
  induction n with
  | zero => simp [cbPositions]
  | succ n ih =>
    rw [List.range_succ, List.flatMap_append, cbPositions_append, ih, List.map_append]
    congr 1
    simp only [List.flatMap_singleton, sweepEventsAt, List.map_cons, List.map_nil]
    unfold cbPositions
    split
    · split <;> simp
    · simp

theorem cbPositions_sweepEvents (selectionOnly : Bool) (cm : CMeshO) :
    cbPositions (sweepEvents selectionOnly cm) =
      (List.range cm.vert.length).map (fun i => percent i cm.vert.length) :=
  cbPositions_sweepEventsAt selectionOnly cm cm.vert.length

theorem percent_mono (n i j : Nat) (hn : 98 * n ≤ 2 ^ 32) (hij : i ≤ j) (hj : j < n) :
    percent i n ≤ percent j n := by
  unfold percent
  have hi : (98 * i) % 2 ^ 32 = 98 * i := Nat.mod_eq_of_lt (by omega)
  have hj2 : (98 * j) % 2 ^ 32 = 98 * j := Nat.mod_eq_of_lt (by omega)
  rw [hi, hj2]
  exact Nat.add_le_add_left (Nat.div_le_div_right (by omega)) 1

theorem pairwise_percent (n : Nat) (hn : 98 * n ≤ 2 ^ 32) :
    List.Pairwise (fun a b => a ≤ b) (1 :: (List.range n).map (fun i => percent i n)) := by
  rw [List.pairwise_cons]
  refine ⟨?_, ?_⟩
  · intro a ha
    obtain ⟨i, hi, rfl⟩ := List.mem_map.mp ha
    exact (percent_bounds n i (List.mem_range.mp hi)).1
  · rw [List.pairwise_map]
    refine List.Pairwise.imp_of_mem ?_ (List.pairwise_lt_range n)
    intro i j hi hj hij
    exact percent_mono n i j hn (Nat.le_of_lt hij) (List.mem_range.mp hj)

theorem cbPositions_flatten (L : List (List Event)) :
    cbPositions L.flatten = (L.map cbPositions).flatten := by
  induction L with
  | nil => simp [cbPositions]
  | cons a L ih => simp [List.flatten, cbPositions_append, ih]

theorem pointSet_trace_cb (env : Env) (id : FilterId) (par : RichParameterList)
    (md : MeshDocument) (mdc : MeshDocument) (pPoints : Int) (points : MeshModel)
    (tr : List Event) (hps : pointSet env id par md = some (mdc, pPoints, points, tr)) :
    cbPositions tr = [] := by
  unfold pointSet at hps
  cases hmm : md.mm with
  | none => rw [hmm] at hps; cases hps
  | some cur =>
    rw [hmm] at hps
    simp only at hps
    cases hsel : selectPoints env.host id par
        (md.setMesh (ensureVertexRadius env.gael (preClean env.host cur).1).1) with
    | none => rw [hsel] at hps; cases hps
    | some pp =>
      rw [hsel] at hps
      simp only at hps
      have hpp : ∀ p msg, Event.cb p msg ∉ pp.2.2 := by
        intro p msg hmem
        unfold selectPoints at hsel
        split at hsel
        · split at hsel
          · split at hsel
            · cases hsel
            · cases hsel
              simp at hmem
          · cases hsel
            simp at hmem
        · cases hsel
          simp at hmem
      split at hps
      · simp only [Option.some.injEq, Prod.mk.injEq] at hps
        obtain ⟨_, _, _, h4⟩ := hps
        rw [← h4]
        apply cbPositions_eq_nil
        intro p msg hmem
        simp only [List.mem_append] at hmem
        rcases hmem with (h | h) | h
        · obtain ⟨d, hd⟩ := preClean_trace_log env.host cur _ h
          cases hd
        · rcases ensureVertexRadius_trace_mem env.gael _ _ h with h1 | h1 | h1 <;> cases h1
        · exact hpp p msg h
      · cases hps

theorem projection_trace (vcg : Vcg) (mls : MlsSurface) (par : RichParameterList)
    (md : MeshDocument) (cb : CallBackPos) (mesh : MeshModel)
    (h : md.getMesh par.ProxyMesh = some mesh) :
    cbPositions (projection vcg mls par md cb).2.2.1 =
      cbPositions (projectionPasses vcg mls par cb mesh).flatten ∧
    (projection vcg mls par md cb).2.2.2 = none := by
  unfold projection
  rw [h]
  simp only
  refine ⟨?_, trivial⟩
  rw [cbPositions_append]
  have : cbPositions [Event.log (Msg.projected (projectionLoop vcg mls
      ⟨vcg.cosOfDegrees par.ThAngleInDegree⟩ par.SelectionOnly cb par.MaxSubdivisions
      (if par.SelectionOnly = true then { mesh with cm := vcg.VertexFromFaceStrict mesh.cm }
        else mesh)).1.cm.vn)] = [] := rfl
  rw [this, List.append_nil]
  rfl

/-- The percentages of a projection run of `applyFilter`: 1 at the construction
of the surface, then those of the passes of the loop, pass after pass. -/
theorem applyFilter_projection_positions (env : Env) (id : FilterId)
    (par : RichParameterList) (md : MeshDocument) (cb : CallBackPos) (mdc : MeshDocument)
    (pPoints : Int) (points : MeshModel) (tr : List Event) (mls : MlsSurface)
    (apss : Option (Point3m → Scalarm)) (mesh : MeshModel)
    (hid : id.PROJECTION = true)
    (hps : pointSet env id par md = some (mdc, pPoints, points, tr))
    (hmls : createMls env.gael id par points.cm = some (mls, apss))
    (hmesh : mdc.getMesh par.ProxyMesh = some mesh) :
    cbPositions (applyFilter env id par md cb).trace =
      1 :: ((projectionPasses env.vcg mls par cb mesh).map cbPositions).flatten := by
  have hne1 : id ≠ FilterId.FP_RADIUS_FROM_DENSITY := by
    intro hc; rw [hc] at hid; cases hid
  have hne2 : id ≠ FilterId.FP_SELECT_SMALL_COMPONENTS := by
    intro hc; rw [hc] at hid; cases hid
  have hrun : applyFilter env id par md cb = applyMls env id par md cb := by
    unfold applyFilter
    rw [if_neg hne1, if_neg hne2]
  obtain ⟨hp1, hp2⟩ := projection_trace env.vcg mls par mdc cb mesh hmesh
  rw [hrun, applyMls_of_pointSet env id par md cb mdc pPoints points tr hps, hmls]
  simp only [cbPositions_append, pointSet_trace_cb env id par md mdc pPoints points tr hps,
    List.nil_append]
  have hcb : cbPositions [Event.cb 1 Msg.createMls] = [1] := rfl
  rw [hcb, ← cbPositions_flatten, ← hp1]
  simp only [runBranch, hid, if_true, hp2, Bool.true_and, List.singleton_append,
    List.cons.injEq, true_and]
  split
  · rw [cbPositions_append]
    have : cbPositions [Event.delMesh pPoints] = [] := rfl
    rw [this, List.append_nil]
  · rw [List.append_nil]

theorem projectionLoop_zero_eq (vcg : Vcg) (mls : MlsSurface) (edgePred : EdgeAnglePredicate)
    (selectionOnly : Bool) (cb : CallBackPos) (mesh : MeshModel) :
    (projectionLoop vcg mls edgePred selectionOnly cb 0 mesh).2 =
      [sweepEvents selectionOnly mesh.cm] := by
  have hw : ((0 : Int) + 1).toNat = 1 := rfl
  unfold projectionLoop
  rw [hw, forLoop_succ, forLoop_zero]
  simp [projectionPass, projectionSweep_eq]

theorem percent_zero (n : Nat) : percent 0 n = 1 := by
  simp [percent]

theorem head?_map_range (f : Nat → Nat) (n : Nat) (h : 0 < n) :
    ((List.range n).map f).head? = some (f 0) := by
  obtain ⟨m, rfl⟩ : ∃ m, n = m + 1 := ⟨n - 1, by omega⟩
  simp [List.range_succ_eq_map]

/-- The percentages of the pass `k` of the loop are those of one sweep over the
mesh of that pass. -/
theorem projectionLoop_pass_positions (vcg : Vcg) (mls : MlsSurface)
    (edgePred : EdgeAnglePredicate) (selectionOnly : Bool) (cb : CallBackPos)
    (nbRefinements : Int) (mesh : MeshModel) (k : Nat) (pass : List Event)
    (h : (projectionLoop vcg mls edgePred selectionOnly cb nbRefinements mesh).2[k]? =
      some pass) :
    k < (nbRefinements + 1).toNat ∧
    cbPositions pass =
      (List.range (meshOfPass vcg mls edgePred selectionOnly cb mesh k).cm.vert.length).map
        (fun i => percent i
          (meshOfPass vcg mls edgePred selectionOnly cb mesh k).cm.vert.length) := by
  rw [projectionLoop_traces, List.getElem?_map] at h
  have hlt : k < (nbRefinements + 1).toNat := by
    by_contra hc
    rw [List.getElem?_eq_none (by simpa using hc)] at h
    cases h
  rw [List.getElem?_range hlt] at h
  simp only [Option.map_some', Option.some.injEq] at h
  refine ⟨hlt, ?_⟩
  rw [← h, cbPositions_append, cbPositions_sweepEvents]
  split <;> rfl

/-- C12 (as the code has it): in a projection run, the percentages that
`applyFilter` hands to the callback are 1 at the construction of the surface,
then those of the passes of the loop, pass after pass. The loop has
`MaxSubdivisions + 1` passes (none when that is not positive), and the
percentages of its pass `k` are the values `1 + 98*i/size` for `i = 0 .. size-1`,
where `size` is the vertex count of the proxy mesh that the sweep of pass `k`
runs over: every pass over a mesh with a vertex starts again at 1, and its
percentages are non-decreasing when `98*size` does not exceed `2 ^ 32`. Over the
whole run the percentages are non-decreasing when `MaxSubdivisions = 0` and the
vertex count of the proxy mesh satisfies that bound. -/
theorem projection_percentages (env : Env) (id : FilterId) (par : RichParameterList)
    (md : MeshDocument) (cb : CallBackPos) (mdc : MeshDocument) (pPoints : Int)
    (points : MeshModel) (tr : List Event) (mls : MlsSurface)
    (apss : Option (Point3m → Scalarm)) (mesh : MeshModel)
    (hid : id.PROJECTION = true)
    (hps : pointSet env id par md = some (mdc, pPoints, points, tr))
    (hmls : createMls env.gael id par points.cm = some (mls, apss))
    (hmesh : mdc.getMesh par.ProxyMesh = some mesh) :
    cbPositions (applyFilter env id par md cb).trace =
      1 :: ((projectionPasses env.vcg mls par cb mesh).map cbPositions).flatten ∧
    (projectionPasses env.vcg mls par cb mesh).length = (par.MaxSubdivisions + 1).toNat ∧
    (∀ (k : Nat), k < (par.MaxSubdivisions + 1).toNat →
      ((projectionPasses env.vcg mls par cb mesh)[k]?).map cbPositions =
        some ((List.range
          (meshOfPass env.vcg mls ⟨env.vcg.cosOfDegrees par.ThAngleInDegree⟩ par.SelectionOnly
            cb (projectionStart env.vcg par mesh) k).cm.vert.length).map
          (fun i => percent i
            (meshOfPass env.vcg mls ⟨env.vcg.cosOfDegrees par.ThAngleInDegree⟩
              par.SelectionOnly cb (projectionStart env.vcg par mesh) k).cm.vert.length))) ∧
    (∀ (k : Nat) (pass : List Event),
      (projectionPasses env.vcg mls par cb mesh)[k]? = some pass →
      (0 < (meshOfPass env.vcg mls ⟨env.vcg.cosOfDegrees par.ThAngleInDegree⟩
          par.SelectionOnly cb (projectionStart env.vcg par mesh) k).cm.vert.length →
        (cbPositions pass).head? = some 1) ∧
      (98 * (meshOfPass env.vcg mls ⟨env.vcg.cosOfDegrees par.ThAngleInDegree⟩
          par.SelectionOnly cb (projectionStart env.vcg par mesh) k).cm.vert.length ≤ 2 ^ 32 →
        List.Pairwise (fun a b => a ≤ b) (1 :: cbPositions pass))) ∧
    (par.MaxSubdivisions = 0 →
      98 * (projectionStart env.vcg par mesh).cm.vert.length ≤ 2 ^ 32 →
      List.Pairwise (fun a b => a ≤ b) (cbPositions (applyFilter env id par md cb).trace)) := by
  have hpos := applyFilter_projection_positions env id par md cb mdc pPoints points tr mls apss
    mesh hid hps hmls hmesh
  have htr := projectionLoop_traces env.vcg mls ⟨env.vcg.cosOfDegrees par.ThAngleInDegree⟩
    par.SelectionOnly cb par.MaxSubdivisions (projectionStart env.vcg par mesh)
  refine ⟨hpos, ?_, ?_, ?_, ?_⟩
  · unfold projectionPasses
    rw [htr]
    simp
  · intro k hk
    have hlen : k < (projectionPasses env.vcg mls par cb mesh).length := by
      unfold projectionPasses
      rw [htr]
      simpa using hk
    rw [List.getElem?_eq_getElem hlen]
    have hpass := projectionLoop_pass_positions env.vcg mls
      ⟨env.vcg.cosOfDegrees par.ThAngleInDegree⟩ par.SelectionOnly cb par.MaxSubdivisions
      (projectionStart env.vcg par mesh) k _ (List.getElem?_eq_getElem hlen)
    simp only [Option.map_some', Option.some.injEq]
    exact hpass.2
  · intro k pass hpass
    obtain ⟨_, hcm⟩ := projectionLoop_pass_positions env.vcg mls
      ⟨env.vcg.cosOfDegrees par.ThAngleInDegree⟩ par.SelectionOnly cb par.MaxSubdivisions
      (projectionStart env.vcg par mesh) k pass hpass
    rw [hcm]
    refine ⟨fun h0 => ?_, fun hb => pairwise_percent _ hb⟩
    rw [head?_map_range _ _ h0, percent_zero]
  · intro h0 hb
    rw [hpos]
    unfold projectionPasses
    rw [h0, projectionLoop_zero_eq]
    simp only [List.map_cons, List.map_nil, List.flatten, List.append_nil,
      cbPositions_sweepEvents]
    exact pairwise_percent _ hb

/-- C12 at a concrete input: the APSS projection of the sample document onto
itself, without subdivision. -/
theorem projection_percentages_witness :
    List.Pairwise (fun a b => a ≤ b)
      (cbPositions (applyFilter sampleEnv FilterId.FP_APSS_PROJECTION (samplePar 200)
        sampleDoc cbContinue).trace) :=
  (projection_percentages sampleEnv FilterId.FP_APSS_PROJECTION (samplePar 200) sampleDoc
    cbContinue _ _ _ _ _ _ _ rfl rfl rfl rfl).2.2.2.2 rfl (by decide)

/-- C12 fails as stated: the APSS projection of the sample document (a triangle)
onto itself with `MaxSubdivisions = 1` hands the percentages 1, 1, 33, 66 and
then 1, 25, 50, 74 to the callback: the second pass starts again at 1. -/
theorem projection_percentages_restart :
    cbPositions (applyFilter sampleEnv FilterId.FP_APSS_PROJECTION
      { samplePar 200 with MaxSubdivisions := 1 } sampleDoc cbContinue).trace =
      [1, 1, 33, 66, 1, 25, 50, 74] ∧
    ¬ List.Pairwise (fun a b : Nat => a ≤ b) [1, 1, 33, 66, 1, 25, 50, 74] :=
  ⟨rfl, by decide⟩

end MlsPlugin
